import Mathlib

/-!
# Trace-driven interrupt simulator: `simulate_trace`

Shallow embedding of `simulate_trace` from
`interrupts_danilobukvic_oluwatobiolowookere.cpp` together with theorems about it.

Modelling conventions.

* C++ `int` values are mathematical integers (`Int`); signed overflow is undefined
  behaviour in C++ and is outside this model: the model and the source agree on a run
  as long as every `int` the run computes is a value of `int` (`int_range`), and the
  theorems that state the value of the clock for all inputs assume so.  `unsigned int
  next_pid` is a `Nat` reduced modulo `2^32` on increment, and the conversion of the
  `unsigned int` program size to `int` is `to_int`.  `%` on `int` is truncated division
  remainder (`Int.tmod`).
* `exec_log` and `status_log` are string streams in the source.  Here they are lists of
  records, one record per line / block that the source writes with `<<`.
* File-scope and library state (`next_pid`, the partition table behind
  `allocate_memory` / `free_memory`, the `rand()` generator) is threaded explicitly as
  `Globals`.
* The helpers declared in the header (`parse_trace`, `intr_boilerplate`,
  `allocate_memory`, `free_memory`, `get_size`, `print_PCB`) and the file system read by
  EXEC are not part of the source file; they are parameters collected in `Env`.
* Reading a vector out of range and `%` by zero are undefined behaviour in the source;
  the model reports them as `Fault`s.
* `simulate_trace` is recursive through FORK and EXEC.  The recursion depth is bounded
  by a fuel argument; the main `for` loop carries its own iteration bound, for which the
  length of the trace always suffices.
-/

namespace Interrupts

/-- Process control block.  The constructor call `PCB current(0, -1, "init", 1, -1)` in
`main` fixes five fields; `simulate_trace` reads and writes `PID`, `program_name`,
`size` and `partition_number`.  The second field is never touched. -/
structure PCB where
  PID : Nat
  field2 : Int
  program_name : String
  size : Nat
  partition_number : Int
  deriving DecidableEq, Repr

/-- Entry of the external-file catalogue consulted by `get_size`. -/
structure external_file where
  program_name : String
  size : Nat
  deriving DecidableEq, Repr

/-- One line of the execution log: `timestamp, duration, description`. -/
structure Step where
  ts : Int
  dur : Int
  text : String
  deriving DecidableEq, Repr

/-- One block of the status log: `time: t; current trace: line` followed by the
`print_PCB` snapshot. -/
structure StatusEntry where
  time : Int
  line : String
  snapshot : String
  deriving DecidableEq, Repr

/-- Ways in which the model can fail to produce a result. -/
inductive Fault where
  | fuel
  | index_out_of_range
  | modulo_by_zero
  deriving DecidableEq, Repr

/-- State that lives outside `simulate_trace`: the file-scope counter `next_pid`, the
allocator state, and the number of `rand()` calls made so far. -/
structure Globals (M : Type) where
  next_pid : Nat
  mem : M
  rand_calls : Nat
  deriving DecidableEq, Repr

/-- The tuple returned by `simulate_trace`, together with the globals it leaves. -/
structure Result (M : Type) where
  exec_log : List Step
  status_log : List StatusEntry
  end_time : Int
  g : Globals M
  deriving DecidableEq, Repr

/-- Local variables of one invocation of `simulate_trace` (plus the globals). -/
structure Frame (M : Type) where
  exec_log : List Step
  status_log : List StatusEntry
  now : Int
  idx : Nat
  current : PCB
  wait_queue : List PCB
  g : Globals M
  deriving DecidableEq, Repr

/-- How one iteration of the main loop leaves the loop body: falling through to `++idx`
(also after `continue`), `break`, or `return`. -/
inductive Ctl where
  | next
  | brk
  | ret
  deriving DecidableEq, Repr

/-- Collaborators of `simulate_trace` that are declared outside the source file. -/
structure Env (M : Type) where
  parse_trace : String → String × Int × String
  intr_boilerplate : Int → Int → Int → List String → List Step × Int
  allocate_memory : PCB → M → Bool × PCB × M
  free_memory : PCB → M → PCB × M
  get_size : String → List external_file → Nat
  print_PCB : PCB → List PCB → String
  read_lines : String → List String
  rand : Nat → Int

/-- Signature of `simulate_trace` as seen from a recursive call site. -/
abbrev Callee (M : Type) :=
  List String → Int → List String → List Int → List external_file → PCB → List PCB →
    Globals M → Except Fault (Result M)

/-- The conversion `static_cast<int>(u)` of an `unsigned int` value (line 196): the
value itself below `2^31`, and the value minus `2^32` from `2^31` on. -/
def to_int (u : Nat) : Int :=
  if u % 2 ^ 32 < 2 ^ 31 then ((u % 2 ^ 32 : Nat) : Int)
  else ((u % 2 ^ 32 : Nat) : Int) - 2 ^ 32

/-- Indexing `v[i]` of a `std::vector` with an `int` index. -/
def at_index {α : Type} (v : List α) (i : Int) : Except Fault α :=
  if 0 ≤ i then
    match v[i.toNat]? with
    | some x => .ok x
    | none => .error .index_out_of_range
  else .error .index_out_of_range

/-- The three-way split of the device time (lines 41-53 and 65-77): given the two
`rand()` results and `remain = delays[v]`, the durations `t1`, `t2`, `t3`. -/
def device_split (r1 r2 remain : Int) : Except Fault (Int × Int × Int) :=
  if remain = 0 then .error .modulo_by_zero
  else
    let t1 := r1.tmod remain - 2
    let remain1 := remain - t1
    if remain1 = 0 then .error .modulo_by_zero
    else
      let t2 := r2.tmod remain1 - 1
      let remain2 := remain1 - t2
      let t3 := remain2
      .ok (t1, t2, t3)

/-- The CPU branch (lines 28-31). -/
def do_cpu {M : Type} (duration_intr : Int) (f : Frame M) : Frame M :=
  { f with
    exec_log := f.exec_log ++ [⟨f.now, duration_intr, "CPU Burst"⟩]
    now := f.now + duration_intr }

/-- The SYSCALL branch (lines 32-57). -/
def do_syscall {M : Type} (env : Env M) (vectors : List String) (delays : List Int)
    (duration_intr : Int) (f : Frame M) : Except Fault (Frame M) :=
  match at_index vectors duration_intr with
  | .error e => .error e
  | .ok vec =>
    match at_index delays duration_intr with
    | .error e => .error e
    | .ok remain =>
      match device_split (env.rand f.g.rand_calls) (env.rand (f.g.rand_calls + 1)) remain with
      | .error e => .error e
      | .ok (t1, t2, t3) =>
        let n0 := f.now
        let n1 := n0 + 1
        let n2 := n1 + 4
        let n3 := n2 + 1
        let n4 := n3 + 1
        let n5 := n4 + t1
        let n6 := n5 + t2
        let n7 := n6 + t3
        .ok { f with
          exec_log := f.exec_log ++
            [ ⟨n0, 1, "Switch to kernel mode"⟩,
              ⟨n1, 4, "context saved"⟩,
              ⟨n2, 1, "find vector " ++ toString duration_intr ++ " in memory " ++ vec⟩,
              ⟨n3, 1, "obtain ISR address"⟩,
              ⟨n4, t1, "Call device driver"⟩,
              ⟨n5, t2, "Perform device check"⟩,
              ⟨n6, t3, "Send device instruction"⟩,
              ⟨n7, 1, "IRET"⟩ ]
          now := n7 + 1
          g := { f.g with rand_calls := f.g.rand_calls + 2 } }

/-- The END_IO branch (lines 58-81). -/
def do_endio {M : Type} (env : Env M) (vectors : List String) (delays : List Int)
    (duration_intr : Int) (f : Frame M) : Except Fault (Frame M) :=
  match at_index vectors duration_intr with
  | .error e => .error e
  | .ok vec =>
    match at_index delays duration_intr with
    | .error e => .error e
    | .ok remain =>
      match device_split (env.rand f.g.rand_calls) (env.rand (f.g.rand_calls + 1)) remain with
      | .error e => .error e
      | .ok (t1, t2, t3) =>
        let n0 := f.now
        let n1 := n0 + 1
        let n2 := n1 + 4
        let n3 := n2 + 1
        let n4 := n3 + t1
        let n5 := n4 + t2
        let n6 := n5 + t3
        .ok { f with
          exec_log := f.exec_log ++
            [ ⟨n0, 1, "switch to kernel mode"⟩,
              ⟨n1, 4, "context saved"⟩,
              ⟨n2, 1, "find vector " ++ toString duration_intr ++ " in memory " ++ vec⟩,
              ⟨n3, t1, "store information in memory"⟩,
              ⟨n4, t2, "reset the io operation"⟩,
              ⟨n5, t3, "Send standby instruction"⟩,
              ⟨n6, 1, "IRET"⟩ ]
          now := n6 + 1
          g := { f.g with rand_calls := f.g.rand_calls + 2 } }

/-- The forward scan of a failed FORK (lines 103-112), run over the lines
`trace_file[j], trace_file[j+1], ...`; returns `(parent_pos, endif_pos)`. -/
def scan_failed (parse_trace : String → String × Int × String) :
    List String → Nat → Int → Int → Int × Int
  | [], _, parent_pos, endif_pos => (parent_pos, endif_pos)
  | l :: ls, j, parent_pos, endif_pos =>
    if (parse_trace l).1 = "IF_PARENT" then
      scan_failed parse_trace ls (j + 1) (j : Int) endif_pos
    else if (parse_trace l).1 = "ENDIF" then
      (if parent_pos = -1 then (j : Int) else parent_pos, (j : Int))
    else scan_failed parse_trace ls (j + 1) parent_pos endif_pos

/-- The forward scan of a successful FORK (lines 132-148), run over the lines
`trace_file[j], trace_file[j+1], ...`; returns `(child_trace, parent_pos, endif_pos)`. -/
def scan_child (parse_trace : String → String × Int × String) :
    List String → Nat → Bool → Int → Int → List String → List String × Int × Int
  | [], _, _, parent_pos, endif_pos, child_trace => (child_trace, parent_pos, endif_pos)
  | l :: ls, j, muted, parent_pos, endif_pos, child_trace =>
    if (parse_trace l).1 = "IF_CHILD" then
      scan_child parse_trace ls (j + 1) false parent_pos endif_pos child_trace
    else if (parse_trace l).1 = "IF_PARENT" then
      scan_child parse_trace ls (j + 1) true (j : Int) endif_pos child_trace
    else if (parse_trace l).1 = "ENDIF" then
      scan_child parse_trace ls (j + 1) false
        (if parent_pos = -1 then (j : Int) else parent_pos) (j : Int) child_trace
    else
      scan_child parse_trace ls (j + 1) muted parent_pos endif_pos
        (if muted then child_trace else child_trace ++ [l])

/-- The FORK branch (lines 82-165).  `line` is `trace_file[idx]`. -/
def do_fork {M : Type} (env : Env M) (sim : Callee M) (trace_file : List String)
    (vectors : List String) (delays : List Int) (external_files : List external_file)
    (line : String) (duration_intr : Int) (f : Frame M) : Except Fault (Ctl × Frame M) :=
  let bp := env.intr_boilerplate f.now 2 10 vectors
  let log1 := f.exec_log ++ bp.1
  let now1 := bp.2
  let log2 := log1 ++ [⟨now1, duration_intr, "cloning the PCB"⟩]
  let now2 := now1 + duration_intr
  let child0 : PCB := { f.current with PID := f.g.next_pid, partition_number := -1 }
  let next_pid1 := (f.g.next_pid + 1) % 2 ^ 32
  let alloc := env.allocate_memory child0 f.g.mem
  if alloc.1 = false then
    let log3 := log2 ++
      [⟨now2, 0, "FORK failed: No memory for child process"⟩, ⟨now2, 1, "IRET"⟩]
    let now3 := now2 + 1
    let sc := scan_failed env.parse_trace (trace_file.drop (f.idx + 1)) (f.idx + 1) (-1) (-1)
    let idx1 :=
      if sc.1 ≠ -1 then sc.1.toNat
      else if sc.2 ≠ -1 then sc.2.toNat
      else trace_file.length
    .ok (.next, { f with
      exec_log := log3
      now := now3
      idx := idx1
      g := { f.g with next_pid := next_pid1, mem := alloc.2.2 } })
  else
    let child := alloc.2.1
    let parent_snapshot := f.current
    let current1 := child
    let log3 := log2 ++ [⟨now2, 0, "scheduler called"⟩]
    let now3 := now2 + 1
    let status1 := f.status_log ++
      [⟨now3, line, env.print_PCB current1 (f.wait_queue ++ [parent_snapshot])⟩]
    let log4 := log3 ++ [⟨now3, 1, "IRET"⟩]
    let sc := scan_child env.parse_trace (trace_file.drop (f.idx + 1)) (f.idx + 1) true
      (-1) (-1) []
    let child_trace := sc.1
    let idx1 :=
      if sc.2.1 ≠ -1 then sc.2.1.toNat
      else if sc.2.2 ≠ -1 then sc.2.2.toNat
      else f.idx
    let parent_pcb := (f.wait_queue ++ [parent_snapshot]).getLast (by simp)
    match sim child_trace now3 vectors delays external_files current1
        (f.wait_queue ++ [parent_snapshot])
        { f.g with next_pid := next_pid1, mem := alloc.2.2 } with
    | .error e => .error e
    | .ok r =>
      .ok (.next, {
        exec_log := log4 ++ r.exec_log
        status_log := status1 ++ r.status_log
        now := r.end_time
        idx := idx1
        current := parent_pcb
        wait_queue := (f.wait_queue ++ [parent_snapshot]).dropLast
        g := r.g })

/-- The EXEC branch (lines 166-227).  `line` is `trace_file[idx]`. -/
def do_exec {M : Type} (env : Env M) (sim : Callee M)
    (vectors : List String) (delays : List Int) (external_files : List external_file)
    (line : String) (duration_intr : Int) (program_name : String) (f : Frame M) :
    Except Fault (Ctl × Frame M) :=
  let bp := env.intr_boilerplate f.now 3 10 vectors
  let now1 := bp.2
  let log1 := f.exec_log ++ bp.1
  let freed :=
    if f.current.partition_number ≠ -1 then env.free_memory f.current f.g.mem
    else (f.current, f.g.mem)
  let new_size := env.get_size program_name external_files
  let log2 := log1 ++
    [⟨now1, duration_intr, "Program is " ++ toString new_size ++ " Mb large"⟩]
  let now2 := now1 + duration_intr
  let current1 : PCB :=
    { freed.1 with program_name := program_name, size := new_size, partition_number := -1 }
  let alloc := env.allocate_memory current1 freed.2
  let current2 := alloc.2.1
  if alloc.1 = false then
    .ok (.ret, { f with
      exec_log := log2 ++
        [⟨now2, 0, "EXEC failed: Memory allocation failed for " ++ program_name⟩]
      status_log := f.status_log ++ [⟨now2, line, env.print_PCB current2 f.wait_queue⟩]
      now := now2
      current := current2
      g := { f.g with mem := alloc.2.2 } })
  else
    let load_ms : Int := to_int new_size * 15
    let now3 := now2 + load_ms
    let now4 := now3 + 3
    let now5 := now4 + 6
    let now6 := now5 + 1
    let log3 := log2 ++
      [ ⟨now2, load_ms, "loading program into memory"⟩,
        ⟨now3, 3, "marking partition as occupied"⟩,
        ⟨now4, 6, "updating PCB"⟩,
        ⟨now5, 0, "scheduler called"⟩,
        ⟨now5, 1, "IRET"⟩ ]
    let status1 := f.status_log ++ [⟨now6, line, env.print_PCB current2 f.wait_queue⟩]
    let exec_traces := env.read_lines (program_name ++ ".txt")
    match sim exec_traces now6 vectors delays external_files current2 f.wait_queue
        { f.g with mem := alloc.2.2 } with
    | .error e => .error e
    | .ok r =>
      .ok (.brk, { f with
        exec_log := log3 ++ r.exec_log
        status_log := status1 ++ r.status_log
        now := r.end_time
        current := current2
        g := r.g })

/-- One iteration of the main loop (lines 25-227) on `line = trace_file[idx]`. -/
def body {M : Type} (env : Env M) (sim : Callee M) (trace_file : List String)
    (vectors : List String) (delays : List Int) (external_files : List external_file)
    (line : String) (f : Frame M) : Except Fault (Ctl × Frame M) :=
  let p := env.parse_trace line
  let activity := p.1
  let duration_intr := p.2.1
  let program_name := p.2.2
  if activity = "CPU" then .ok (.next, do_cpu duration_intr f)
  else if activity = "SYSCALL" then
    match do_syscall env vectors delays duration_intr f with
    | .error e => .error e
    | .ok f1 => .ok (.next, f1)
  else if activity = "END_IO" then
    match do_endio env vectors delays duration_intr f with
    | .error e => .error e
    | .ok f1 => .ok (.next, f1)
  else if activity = "FORK" then
    do_fork env sim trace_file vectors delays external_files line duration_intr f
  else if activity = "EXEC" then
    do_exec env sim vectors delays external_files line duration_intr program_name f
  else .ok (.next, f)

/-- The main `for` loop (lines 24-228), started in frame `f`; `k` bounds the number of
iterations.  The control value of the result tells how the loop was left: `next` when
the loop condition failed, `brk` after `break`, `ret` after `return`. -/
def loop {M : Type} (env : Env M) (sim : Callee M) (trace_file : List String)
    (vectors : List String) (delays : List Int) (external_files : List external_file) :
    Nat → Frame M → Except Fault (Ctl × Frame M)
  | 0, f => if f.idx < trace_file.length then .error .fuel else .ok (.next, f)
  | k + 1, f =>
    match trace_file[f.idx]? with
    | none => .ok (.next, f)
    | some line =>
      match body env sim trace_file vectors delays external_files line f with
      | .error e => .error e
      | .ok (.next, f1) =>
        loop env sim trace_file vectors delays external_files k { f1 with idx := f1.idx + 1 }
      | .ok (.brk, f1) => .ok (.brk, f1)
      | .ok (.ret, f1) => .ok (.ret, f1)

/-- The function `simulate_trace` (lines 11-236).  The first argument bounds the depth
of recursive invocations. -/
def simulate_trace {M : Type} (env : Env M) :
    Nat → List String → Int → List String → List Int → List external_file → PCB →
      List PCB → Globals M → Except Fault (Result M)
  | 0, _, _, _, _, _, _, _, _ => .error .fuel
  | n + 1, trace_file, start_time, vectors, delays, external_files, current, wait_queue, g =>
    match loop env (simulate_trace env n) trace_file vectors delays external_files
        trace_file.length ⟨[], [], start_time, 0, current, wait_queue, g⟩ with
    | .error e => .error e
    | .ok (.ret, f) => .ok ⟨f.exec_log, f.status_log, f.now, f.g⟩
    | .ok (_, f) =>
      let freed :=
        if f.current.partition_number ≠ -1 then env.free_memory f.current f.g.mem
        else (f.current, f.g.mem)
      .ok ⟨f.exec_log, f.status_log, f.now, { f.g with mem := freed.2 }⟩

/-! ## A concrete environment for the worked examples -/

/-- Reads an optionally signed decimal number, skipping leading blanks, in the manner of
`std::stoi`. -/
def demo_number (cs : List Char) : Int :=
  let body := cs.dropWhile (fun c => c = ' ')
  let digits (ds : List Char) : Nat :=
    (ds.takeWhile (fun c => c.isDigit)).foldl (fun acc c => acc * 10 + (c.toNat - 48)) 0
  match body with
  | '-' :: ds => - (digits ds : Int)
  | ds => (digits ds : Int)

/-- Sample line parser for the worked examples: the activity is the text before the
first comma, the operand the number after it; a line `EXEC name,n` has activity `EXEC`
and program name `name`. -/
def demo_parse (s : String) : String × Int × String :=
  let head := s.data.takeWhile (fun c => c ≠ ',')
  let tail := (s.data.dropWhile (fun c => c ≠ ',')).drop 1
  if head.take 5 = ['E', 'X', 'E', 'C', ' '] then
    ("EXEC", demo_number tail, String.mk (head.drop 5))
  else (String.mk head, demo_number tail, "null")

/-- Sample interrupt prologue for the worked examples: four contiguous steps. -/
def demo_boilerplate (t intr_num ctx : Int) (vectors : List String) : List Step × Int :=
  ( [ ⟨t, 1, "switch to kernel mode"⟩,
      ⟨t + 1, ctx, "context saved"⟩,
      ⟨t + 1 + ctx, 1,
        "find vector " ++ toString intr_num ++ " in memory " ++
          vectors.getD intr_num.toNat ""⟩,
      ⟨t + 1 + ctx + 1, 1, "load address into the PC"⟩ ],
    t + 1 + ctx + 1 + 1 )

/-- Sample environment: the allocator state is the number of free partitions;
allocation succeeds while one is left. -/
def demo_env : Env Nat where
  parse_trace := demo_parse
  intr_boilerplate := demo_boilerplate
  allocate_memory := fun p m =>
    if m = 0 then (false, p, m) else (true, { p with partition_number := (m : Int) }, m - 1)
  free_memory := fun p m => ({ p with partition_number := -1 }, m + 1)
  get_size := fun name files =>
    match files.find? (fun e => e.program_name = name) with
    | some e => e.size
    | none => 0
  print_PCB := fun p wq => toString p.PID ++ "/" ++ toString wq.length
  read_lines := fun name =>
    if name = "program1.txt" then ["CPU,7"] else []
  rand := fun n => (7 * n + 3 : Nat)

/-- The initial process of `main`: `PCB current(0, -1, "init", 1, -1)`. -/
def init_pcb : PCB := ⟨0, -1, "init", 1, -1⟩

/-! ## Specification-side definitions -/

/-- Cost of one straight-line instruction as the specification words it: a CPU burst
costs its operand, a SYSCALL on vector `v` costs `delays[v] + 8`, an END_IO on vector
`v` costs `delays[v] + 7`. -/
def line_cost (parse_trace : String → String × Int × String) (delays : List Int)
    (line : String) : Int :=
  if (parse_trace line).1 = "CPU" then (parse_trace line).2.1
  else if (parse_trace line).1 = "SYSCALL" then
    delays.getD (parse_trace line).2.1.toNat 0 + 8
  else delays.getD (parse_trace line).2.1.toNat 0 + 7

/-- A line is straight-line code for the given tables: it is a CPU burst, or a SYSCALL
or END_IO whose vector operand is in range of both tables and has a positive delay. -/
def straight_line (parse_trace : String → String × Int × String) (vectors : List String)
    (delays : List Int) (line : String) : Prop :=
  (parse_trace line).1 = "CPU" ∨
    (((parse_trace line).1 = "SYSCALL" ∨ (parse_trace line).1 = "END_IO") ∧
      0 ≤ (parse_trace line).2.1 ∧
      (parse_trace line).2.1.toNat < vectors.length ∧
      (parse_trace line).2.1.toNat < delays.length ∧
      0 < delays.getD (parse_trace line).2.1.toNat 0)

/-- The values of the C++ type `int` of the source (32 bits, two's complement). -/
def int_range (x : Int) : Prop := -2147483648 ≤ x ∧ x ≤ 2147483647

instance int_range_decidable (x : Int) : Decidable (int_range x) :=
  inferInstanceAs (Decidable (-2147483648 ≤ x ∧ x ≤ 2147483647))

/-- The execution log is contiguous: each step starts when the previous one ends. -/
def contiguous : List Step → Bool
  | a :: b :: rest => decide (b.ts = a.ts + a.dur) && contiguous (b :: rest)
  | _ => true

/-- The returned end time is the time stamp of the last logged step plus its duration
(nothing is required of an empty log). -/
def ends_at (log : List Step) (end_time : Int) : Bool :=
  match log.getLast? with
  | some s => decide (end_time = s.ts + s.dur)
  | none => true

/-- Equality of simulation outcomes is decidable. -/
instance {ε α : Type} [DecidableEq ε] [DecidableEq α] : DecidableEq (Except ε α)
  | .ok a, .ok b => if h : a = b then isTrue (by rw [h]) else isFalse (by intro h1; cases h1; exact h rfl)
  | .error a, .error b =>
    if h : a = b then isTrue (by rw [h]) else isFalse (by intro h1; cases h1; exact h rfl)
  | .ok _, .error _ => isFalse (by intro h; cases h)
  | .error _, .ok _ => isFalse (by intro h; cases h)

/-- The activity is one of the three branch markers. -/
def is_marker (activity : String) : Bool :=
  activity = "IF_CHILD" || activity = "IF_PARENT" || activity = "ENDIF"

/-- Activity of the last branch marker among the given lines, if there is one. -/
def last_marker (parse_trace : String → String × Int × String) (before : List String) :
    Option String :=
  ((before.map (fun l => (parse_trace l).1)).filter is_marker).getLast?

/-- The lines of `rest`, in order, that satisfy `keep before line`, where `before` is
the list of the lines of `rest` in front of `line`. -/
def select_lines (keep : List String → String → Bool) (rest : List String) : List String :=
  (List.range rest.length).filterMap (fun k =>
    match rest[k]? with
    | some l => if keep (rest.take k) l then some l else none
    | none => none)

/-- The child sub-trace as the claim words it: the lines after the FORK that are not
branch markers and are not inside an IF_PARENT region, a region being opened by an
IF_PARENT and closed by the next IF_CHILD or ENDIF.  A line is inside such a region when
the last marker in front of it is an IF_PARENT. -/
def claimed_child_trace (parse_trace : String → String × Int × String)
    (rest : List String) : List String :=
  select_lines (fun before l =>
    !is_marker (parse_trace l).1 && !(last_marker parse_trace before == some "IF_PARENT")) rest

/-- The child sub-trace as amended: the lines after the FORK that are not branch markers
and whose last marker in front of them, after the FORK, is an IF_CHILD or an ENDIF. -/
def opened_child_trace (parse_trace : String → String × Int × String)
    (rest : List String) : List String :=
  select_lines (fun before l =>
    !is_marker (parse_trace l).1 &&
      (last_marker parse_trace before == some "IF_CHILD" ||
        last_marker parse_trace before == some "ENDIF")) rest

/-- What EXEC has after releasing the partition of `current`, if it holds one (lines
172-175): the descriptor and the allocator state. -/
def exec_freed {M : Type} (env : Env M) (f : Frame M) : PCB × M :=
  if f.current.partition_number ≠ -1 then env.free_memory f.current f.g.mem
  else (f.current, f.g.mem)

/-- The allocation attempt of EXEC for the new image (lines 178-188). -/
def exec_alloc {M : Type} (env : Env M) (external_files : List external_file)
    (program_name : String) (f : Frame M) : Bool × PCB × M :=
  env.allocate_memory
    { (exec_freed env f).1 with
      program_name := program_name
      size := env.get_size program_name external_files
      partition_number := -1 }
    (exec_freed env f).2

/-- The operand of a device line is usable: if the line is a SYSCALL or an END_IO, its
vector operand is in range of both tables and has a positive delay. -/
def device_ok (parse_trace : String → String × Int × String) (vectors : List String)
    (delays : List Int) (line : String) : Prop :=
  ((parse_trace line).1 = "SYSCALL" ∨ (parse_trace line).1 = "END_IO") →
    0 ≤ (parse_trace line).2.1 ∧
    (parse_trace line).2.1.toNat < vectors.length ∧
    (parse_trace line).2.1.toNat < delays.length ∧
    0 < delays.getD (parse_trace line).2.1.toNat 0

/-- The allocation attempt of FORK for the child (lines 92-97). -/
def fork_alloc {M : Type} (env : Env M) (f : Frame M) : Bool × PCB × M :=
  env.allocate_memory { f.current with PID := f.g.next_pid, partition_number := -1 } f.g.mem

/-- The globals a successful FORK hands to the recursive simulation of the child. -/
def fork_globals {M : Type} (env : Env M) (f : Frame M) : Globals M :=
  { f.g with next_pid := (f.g.next_pid + 1) % 2 ^ 32, mem := (fork_alloc env f).2.2 }

/-- The child sub-trace a successful FORK hands to the recursive simulation. -/
def fork_subtrace {M : Type} (env : Env M) (trace_file : List String) (f : Frame M) :
    List String :=
  (scan_child env.parse_trace (trace_file.drop (f.idx + 1)) (f.idx + 1) true (-1) (-1) []).1

/-- The start time a successful FORK hands to the recursive simulation. -/
def fork_start {M : Type} (env : Env M) (vectors : List String) (line : String)
    (f : Frame M) : Int :=
  (env.intr_boilerplate f.now 2 10 vectors).2 + (env.parse_trace line).2.1 + 1

/-- The start time a successful EXEC hands to the recursive simulation. -/
def exec_start {M : Type} (env : Env M) (vectors : List String)
    (external_files : List external_file) (line : String) (f : Frame M) : Int :=
  (env.intr_boilerplate f.now 3 10 vectors).2 + (env.parse_trace line).2.1 +
    to_int (env.get_size (env.parse_trace line).2.2 external_files) * 15 + 3 + 6 + 1

/-- The globals a successful EXEC hands to the recursive simulation. -/
def exec_globals {M : Type} (env : Env M) (external_files : List external_file)
    (line : String) (f : Frame M) : Globals M :=
  { f.g with mem := (exec_alloc env external_files (env.parse_trace line).2.2 f).2.2 }

/-- The arguments of one nested invocation of `simulate_trace` (lines 155-156 and
218-219), with the globals as they stand when the invocation starts. -/
structure Call (M : Type) where
  trace_file : List String
  start_time : Int
  vectors : List String
  delays : List Int
  external_files : List external_file
  current : PCB
  wait_queue : List PCB
  g : Globals M

/-- The environment `env` over an allocator state that carries one extra slot.  Every
helper works as in `env`; none reads or writes the slot. -/
def probe_env {M : Type} (env : Env M) : Env (M × Option (Call M)) where
  parse_trace := env.parse_trace
  intr_boilerplate := env.intr_boilerplate
  allocate_memory := fun p m =>
    ((env.allocate_memory p m.1).1, (env.allocate_memory p m.1).2.1,
      ((env.allocate_memory p m.1).2.2, m.2))
  free_memory := fun p m => ((env.free_memory p m.1).1, ((env.free_memory p m.1).2, m.2))
  get_size := env.get_size
  print_PCB := env.print_PCB
  read_lines := env.read_lines
  rand := env.rand

/-- A callee that simulates nothing: it stores the arguments it is called with in the
slot and returns at once. -/
def probe {M : Type} : Callee (M × Option (Call M)) :=
  fun t s v d e cur wq g =>
    .ok ⟨[], [], s,
      { g with mem := (g.mem.1, some ⟨t, s, v, d, e, cur, wq,
        ⟨g.next_pid, g.mem.1, g.rand_calls⟩⟩) }⟩

/-- The nested invocation that the iteration of the main loop on `line` makes in frame
`f`, if it makes one.  It is read off the code: the iteration `body` is run with `probe`
as the callee, on the frame `f` with an empty slot, and the slot is looked up
afterwards. -/
def call_of {M : Type} (env : Env M) (trace_file : List String) (vectors : List String)
    (delays : List Int) (external_files : List external_file) (line : String)
    (f : Frame M) : Option (Call M) :=
  match body (probe_env env) probe trace_file vectors delays external_files line
      ⟨f.exec_log, f.status_log, f.now, f.idx, f.current, f.wait_queue,
        ⟨f.g.next_pid, (f.g.mem, none), f.g.rand_calls⟩⟩ with
  | .ok x => x.2.g.mem.2
  | .error _ => none

/-- Record of one FORK met by a run: the value of the identifier counter `next_pid`
when the FORK is met, the PID of the child descriptor that the FORK hands to the
recursive simulation (`none` if the FORK starts no child), the PID of `current` and the
PIDs in the wait queue when the FORK is met, and the PID of `current` once the handling
of the FORK has completed (`none` if it did not complete). -/
structure ForkEvent where
  counter : Nat
  child_pid : Option Nat
  parent_pid : Nat
  queue_pids : List Nat
  resumed_pid : Option Nat
  deriving DecidableEq, Repr

/-- The FORKs met while the iteration on `line` runs in frame `f`: if the line is a
FORK, the event of this FORK, with the child taken from the nested invocation that the
iteration makes (`call_of`); then, whatever the line, the FORKs met by the nested
invocation that the iteration makes, if it makes one (`sub`). -/
def forks_at {M : Type} (env : Env M) (sim : Callee M) (sub : Call M → List ForkEvent)
    (trace_file : List String) (vectors : List String) (delays : List Int)
    (external_files : List external_file) (line : String) (f : Frame M) : List ForkEvent :=
  (if (env.parse_trace line).1 = "FORK" then
    [⟨f.g.next_pid,
      (call_of env trace_file vectors delays external_files line f).map
        (fun c => c.current.PID),
      f.current.PID, f.wait_queue.map (fun p => p.PID),
      match body env sim trace_file vectors delays external_files line f with
      | .ok x => some x.2.current.PID
      | .error _ => none⟩]
  else []) ++
  match call_of env trace_file vectors delays external_files line f with
  | some c => sub c
  | none => []

/-- The FORKs met by the main loop started in frame `f`, in the order in which they are
met, those of nested invocations included.  The function follows `loop`: it goes on
with the next iteration exactly when `body` falls through. -/
def loop_forks {M : Type} (env : Env M) (sim : Callee M) (sub : Call M → List ForkEvent)
    (trace_file : List String) (vectors : List String) (delays : List Int)
    (external_files : List external_file) : Nat → Frame M → List ForkEvent
  | 0, _ => []
  | k + 1, f =>
    match trace_file[f.idx]? with
    | none => []
    | some line =>
      match body env sim trace_file vectors delays external_files line f with
      | .ok (.next, f1) =>
        forks_at env sim sub trace_file vectors delays external_files line f ++
          loop_forks env sim sub trace_file vectors delays external_files k
            { f1 with idx := f1.idx + 1 }
      | _ => forks_at env sim sub trace_file vectors delays external_files line f

/-- The FORKs met by a run of `simulate_trace`, in the order in which they are met. -/
def run_forks {M : Type} (env : Env M) :
    Nat → List String → Int → List String → List Int → List external_file → PCB →
      List PCB → Globals M → List ForkEvent
  | 0, _, _, _, _, _, _, _, _ => []
  | n + 1, trace_file, start_time, vectors, delays, external_files, current, wait_queue, g =>
    loop_forks env (simulate_trace env n)
      (fun c => run_forks env n c.trace_file c.start_time c.vectors c.delays
        c.external_files c.current c.wait_queue c.g)
      trace_file vectors delays external_files trace_file.length
      ⟨[], [], start_time, 0, current, wait_queue, g⟩

/-- Record of one nested invocation of `simulate_trace`: its depth (the number of
enclosing invocations), the number of enclosing invocations that were suspended by a
FORK and the number that made the call from another line (EXEC), the descriptors of the
invocations suspended by a FORK (oldest first), and the wait queue that the invocation
receives. -/
structure CallRecord where
  depth : Nat
  forks : Nat
  execs : Nat
  ancestors : List PCB
  wait_queue : List PCB
  deriving DecidableEq, Repr

/-- The nested invocations started while the iteration on `line` runs in frame `f` of an
invocation at depth `depth` whose enclosing invocations were suspended by `forks` FORKs
(descriptors `ancestors`) and entered through `execs` EXECs: the invocation that the
iteration makes (`call_of`), recorded with the wait queue it receives, followed by the
invocations nested in it (`sub`).  An invocation made on a FORK line has `current` of
the frame as its newest suspended ancestor. -/
def calls_at {M : Type} (env : Env M)
    (sub : Nat → Nat → Nat → List PCB → Call M → List CallRecord)
    (trace_file : List String) (vectors : List String) (delays : List Int)
    (external_files : List external_file) (depth forks execs : Nat)
    (ancestors : List PCB) (line : String) (f : Frame M) : List CallRecord :=
  match call_of env trace_file vectors delays external_files line f with
  | none => []
  | some c =>
    if (env.parse_trace line).1 = "FORK" then
      ⟨depth + 1, forks + 1, execs, ancestors ++ [f.current], c.wait_queue⟩ ::
        sub (depth + 1) (forks + 1) execs (ancestors ++ [f.current]) c
    else
      ⟨depth + 1, forks, execs + 1, ancestors, c.wait_queue⟩ ::
        sub (depth + 1) forks (execs + 1) ancestors c

/-- The nested invocations started by the main loop in frame `f`, in the order in which
they are entered.  The function follows `loop` in the way `loop_forks` does. -/
def loop_calls {M : Type} (env : Env M) (sim : Callee M)
    (sub : Nat → Nat → Nat → List PCB → Call M → List CallRecord)
    (trace_file : List String) (vectors : List String) (delays : List Int)
    (external_files : List external_file) (depth forks execs : Nat)
    (ancestors : List PCB) : Nat → Frame M → List CallRecord
  | 0, _ => []
  | k + 1, f =>
    match trace_file[f.idx]? with
    | none => []
    | some line =>
      match body env sim trace_file vectors delays external_files line f with
      | .ok (.next, f1) =>
        calls_at env sub trace_file vectors delays external_files depth forks execs
            ancestors line f ++
          loop_calls env sim sub trace_file vectors delays external_files depth forks execs
            ancestors k { f1 with idx := f1.idx + 1 }
      | _ =>
        calls_at env sub trace_file vectors delays external_files depth forks execs
          ancestors line f

/-- The nested invocations of a run of `simulate_trace` that is itself at depth `depth`,
inside `forks` invocations suspended by a FORK (descriptors `ancestors`) and `execs`
invocations that went on through EXEC. -/
def run_calls {M : Type} (env : Env M) :
    Nat → Nat → Nat → Nat → List PCB → List String → Int → List String → List Int →
      List external_file → PCB → List PCB → Globals M → List CallRecord
  | 0, _, _, _, _, _, _, _, _, _, _, _, _ => []
  | n + 1, depth, forks, execs, ancestors, trace_file, start_time, vectors, delays,
      external_files, current, wait_queue, g =>
    loop_calls env (simulate_trace env n)
      (fun dp fk ex a c => run_calls env n dp fk ex a c.trace_file c.start_time c.vectors
        c.delays c.external_files c.current c.wait_queue c.g)
      trace_file vectors delays external_files depth forks execs ancestors
      trace_file.length ⟨[], [], start_time, 0, current, wait_queue, g⟩

/-- Sample environment with an allocator that keeps a ledger: the partition numbers
handed out and the partition numbers released, each in order.  Allocation always
succeeds with a partition number not used before. -/
def ledger_env : Env (List Int × List Int) where
  parse_trace := demo_parse
  intr_boilerplate := demo_boilerplate
  allocate_memory := fun p m =>
    (true, { p with partition_number := (m.1.length : Int) + 1 },
      (m.1 ++ [(m.1.length : Int) + 1], m.2))
  free_memory := fun p m => ({ p with partition_number := -1 }, (m.1, m.2 ++ [p.partition_number]))
  get_size := demo_env.get_size
  print_PCB := demo_env.print_PCB
  read_lines := demo_env.read_lines
  rand := demo_env.rand

/-- The FORK events `E` find the identifier counter at `U`, `U + 1`, ... in order; the
child that a FORK starts has the value of the counter as its PID, above the PID of
`current` and above every PID in the wait queue at the FORK; and `current` has the
parent's PID again whenever the handling of a FORK completes. -/
def fresh_from (U : Nat) (E : List ForkEvent) : Prop :=
  E.map (fun ev => ev.counter) = List.range' U E.length ∧
  (∀ ev ∈ E, ∀ c, ev.child_pid = some c →
    c = ev.counter ∧ ev.parent_pid < c ∧ ∀ q ∈ ev.queue_pids, q < c) ∧
  (∀ ev ∈ E, ∀ p, ev.resumed_pid = some p → p = ev.parent_pid)

/-! ## Theorems -/

/-- With a positive budget the split never divides by zero, and its result is given by
the closed formulas below. -/
theorem device_split_pos (r1 r2 D : Int) (hD : 0 < D) :
    device_split r1 r2 D =
      .ok (r1.tmod D - 2, r2.tmod (D - (r1.tmod D - 2)) - 1,
        D - (r1.tmod D - 2) - (r2.tmod (D - (r1.tmod D - 2)) - 1)) := by
  have h1 : r1.tmod D < D := Int.tmod_lt_of_pos r1 hD
  have h0 : D ≠ 0 := by omega
  have h2 : D - (r1.tmod D - 2) ≠ 0 := by omega
  simp [device_split, h0, h2]

theorem at_index_ok {α : Type} (v : List α) (i : Int) (x : α) (h0 : 0 ≤ i)
    (hx : v[i.toNat]? = some x) : at_index v i = .ok x := by
  simp [at_index, h0, hx]

theorem device_split_sum (r1 r2 D : Int) (hD : 0 < D) :
    ∃ t1 t2 t3 : Int, device_split r1 r2 D = .ok (t1, t2, t3) ∧ t1 + t2 + t3 = D :=
  ⟨_, _, _, device_split_pos r1 r2 D hD, by ring⟩

theorem do_syscall_eq {M : Type} (env : Env M) (vectors : List String) (delays : List Int)
    (f : Frame M) (v D t1 t2 t3 : Int) (vec : String) (h0 : 0 ≤ v)
    (hvec : vectors[v.toNat]? = some vec) (hdel : delays[v.toNat]? = some D)
    (hs : device_split (env.rand f.g.rand_calls) (env.rand (f.g.rand_calls + 1)) D =
      .ok (t1, t2, t3)) :
    do_syscall env vectors delays v f = .ok { f with
      exec_log := f.exec_log ++
        [ ⟨f.now, 1, "Switch to kernel mode"⟩,
          ⟨f.now + 1, 4, "context saved"⟩,
          ⟨f.now + 1 + 4, 1, "find vector " ++ toString v ++ " in memory " ++ vec⟩,
          ⟨f.now + 1 + 4 + 1, 1, "obtain ISR address"⟩,
          ⟨f.now + 1 + 4 + 1 + 1, t1, "Call device driver"⟩,
          ⟨f.now + 1 + 4 + 1 + 1 + t1, t2, "Perform device check"⟩,
          ⟨f.now + 1 + 4 + 1 + 1 + t1 + t2, t3, "Send device instruction"⟩,
          ⟨f.now + 1 + 4 + 1 + 1 + t1 + t2 + t3, 1, "IRET"⟩ ]
      now := f.now + 1 + 4 + 1 + 1 + t1 + t2 + t3 + 1
      g := { f.g with rand_calls := f.g.rand_calls + 2 } } := by
  simp only [do_syscall, at_index_ok vectors v vec h0 hvec, at_index_ok delays v D h0 hdel, hs]

theorem do_endio_eq {M : Type} (env : Env M) (vectors : List String) (delays : List Int)
    (f : Frame M) (v D t1 t2 t3 : Int) (vec : String) (h0 : 0 ≤ v)
    (hvec : vectors[v.toNat]? = some vec) (hdel : delays[v.toNat]? = some D)
    (hs : device_split (env.rand f.g.rand_calls) (env.rand (f.g.rand_calls + 1)) D =
      .ok (t1, t2, t3)) :
    do_endio env vectors delays v f = .ok { f with
      exec_log := f.exec_log ++
        [ ⟨f.now, 1, "switch to kernel mode"⟩,
          ⟨f.now + 1, 4, "context saved"⟩,
          ⟨f.now + 1 + 4, 1, "find vector " ++ toString v ++ " in memory " ++ vec⟩,
          ⟨f.now + 1 + 4 + 1, t1, "store information in memory"⟩,
          ⟨f.now + 1 + 4 + 1 + t1, t2, "reset the io operation"⟩,
          ⟨f.now + 1 + 4 + 1 + t1 + t2, t3, "Send standby instruction"⟩,
          ⟨f.now + 1 + 4 + 1 + t1 + t2 + t3, 1, "IRET"⟩ ]
      now := f.now + 1 + 4 + 1 + t1 + t2 + t3 + 1
      g := { f.g with rand_calls := f.g.rand_calls + 2 } } := by
  simp only [do_endio, at_index_ok vectors v vec h0 hvec, at_index_ok delays v D h0 hdel, hs]

theorem body_syscall {M : Type} (env : Env M) (sim : Callee M)
    (trace_file vectors : List String) (delays : List Int)
    (external_files : List external_file) (line : String) (f : Frame M)
    (hact : (env.parse_trace line).1 = "SYSCALL") :
    body env sim trace_file vectors delays external_files line f =
      (do_syscall env vectors delays (env.parse_trace line).2.1 f).map (fun f1 => (Ctl.next, f1)) := by
  simp only [body, hact]
  cases do_syscall env vectors delays (env.parse_trace line).2.1 f <;> simp [Except.map]

theorem body_endio {M : Type} (env : Env M) (sim : Callee M)
    (trace_file vectors : List String) (delays : List Int)
    (external_files : List external_file) (line : String) (f : Frame M)
    (hact : (env.parse_trace line).1 = "END_IO") :
    body env sim trace_file vectors delays external_files line f =
      (do_endio env vectors delays (env.parse_trace line).2.1 f).map (fun f1 => (Ctl.next, f1)) := by
  simp only [body, hact]
  cases do_endio env vectors delays (env.parse_trace line).2.1 f <;> simp [Except.map]

theorem body_cpu {M : Type} (env : Env M) (sim : Callee M)
    (trace_file vectors : List String) (delays : List Int)
    (external_files : List external_file) (line : String) (f : Frame M)
    (hact : (env.parse_trace line).1 = "CPU") :
    body env sim trace_file vectors delays external_files line f =
      .ok (.next, do_cpu (env.parse_trace line).2.1 f) := by
  simp only [body, hact, if_true]

/-- C3 (amended). A CPU line with operand `d` reached when the clock is `t`, where `t`,
`d` and `t + d` are values of the type `int` of the clock, appends exactly the one step
`(t, d, "CPU Burst")` to the execution log and leaves the clock at `t + d`, the time
stamp of whatever step is logged next; the status log, `current`, the wait queue, the
loop index and the globals are unchanged.  The time stamp and the duration that are
logged and the new clock are values of `int`, so that the addition of line 30 does not
overflow. -/
theorem cpu_step {M : Type} (env : Env M) (sim : Callee M)
    (trace_file vectors : List String) (delays : List Int)
    (external_files : List external_file) (line : String) (f : Frame M) (d : Int)
    (hact : (env.parse_trace line).1 = "CPU") (hop : (env.parse_trace line).2.1 = d)
    (ht : int_range f.now) (hd : int_range d) (hfit : int_range (f.now + d)) :
    ∃ f1 : Frame M,
      body env sim trace_file vectors delays external_files line f = .ok (.next, f1) ∧
      f1.exec_log = f.exec_log ++ [⟨f.now, d, "CPU Burst"⟩] ∧
      f1.now = f.now + d ∧
      f1.status_log = f.status_log ∧
      f1.current = f.current ∧
      f1.wait_queue = f.wait_queue ∧
      f1.idx = f.idx ∧
      f1.g = f.g ∧
      (∀ st ∈ [(⟨f.now, d, "CPU Burst"⟩ : Step)], int_range st.ts ∧ int_range st.dur) ∧
      int_range f1.now := by
  rw [body_cpu env sim trace_file vectors delays external_files line f hact, hop]
  refine ⟨_, rfl, rfl, rfl, rfl, rfl, rfl, rfl, rfl, ?_, hfit⟩
  intro st hst
  rw [List.mem_singleton] at hst
  subst hst
  exact ⟨ht, hd⟩

/-- Witness of C3 (amended): the line `CPU,5` reached at time 10 in the sample
environment. -/
theorem cpu_step_witness :
    (demo_env.parse_trace "CPU,5").1 = "CPU" ∧ (demo_env.parse_trace "CPU,5").2.1 = 5 ∧
    int_range 10 ∧ int_range 5 ∧ int_range (10 + 5) ∧
    ∃ f1 : Frame Nat,
      body demo_env (simulate_trace demo_env 0) ["CPU,5"] [] [] [] "CPU,5"
        ⟨[], [], 10, 0, init_pcb, [], ⟨1, 3, 0⟩⟩ = .ok (.next, f1) ∧
      f1.exec_log = [] ++ [⟨10, 5, "CPU Burst"⟩] ∧
      f1.now = 10 + 5 ∧
      f1.status_log = [] ∧
      f1.current = init_pcb ∧
      f1.wait_queue = [] ∧
      f1.idx = 0 ∧
      f1.g = ⟨1, 3, 0⟩ ∧
      (∀ st ∈ [(⟨10, 5, "CPU Burst"⟩ : Step)], int_range st.ts ∧ int_range st.dur) ∧
      int_range f1.now :=
  ⟨by decide, by decide, by decide, by decide, by decide,
    cpu_step demo_env (simulate_trace demo_env 0) ["CPU,5"] [] [] [] "CPU,5"
      ⟨[], [], 10, 0, init_pcb, [], ⟨1, 3, 0⟩⟩ 5 (by decide) (by decide) (by decide)
      (by decide) (by decide)⟩

/-- Counterexample to C3 as stated: the line `CPU,1` reached when the clock is
`2147483647`, the largest value of `int`.  Clock and operand are values of `int`, but
the time `t + d = 2147483648` at which the claim lets the next step start is not: the
`int` clock of the source cannot take it, the addition of line 30 overflows. -/
theorem cpu_step_counterexample :
    (demo_env.parse_trace "CPU,1").1 = "CPU" ∧ (demo_env.parse_trace "CPU,1").2.1 = 1 ∧
    int_range 2147483647 ∧ int_range 1 ∧
    (body demo_env (simulate_trace demo_env 0) ["CPU,1"] [] [] [] "CPU,1"
      ⟨[], [], 2147483647, 0, init_pcb, [], ⟨1, 3, 0⟩⟩).map (fun x => x.2.now) =
      .ok (2147483647 + 1) ∧
    ¬ int_range (2147483647 + 1) := by
  refine ⟨by decide, by decide, by decide, by decide, by decide, by decide⟩

/-- One straight-line instruction: the body succeeds, moves the clock by the cost of the
line and leaves the loop index, `current`, the wait queue and the status log alone. -/
theorem body_straight {M : Type} (env : Env M) (sim : Callee M)
    (trace_file vectors : List String) (delays : List Int)
    (external_files : List external_file) (line : String) (f : Frame M)
    (h : straight_line env.parse_trace vectors delays line) :
    ∃ f1 : Frame M,
      body env sim trace_file vectors delays external_files line f = .ok (.next, f1) ∧
      f1.now = f.now + line_cost env.parse_trace delays line ∧
      f1.idx = f.idx ∧ f1.current = f.current ∧ f1.wait_queue = f.wait_queue ∧
      f1.status_log = f.status_log := by
  rcases h with hcpu | ⟨hact, h0, hv, hd, hpos⟩
  · rw [body_cpu env sim trace_file vectors delays external_files line f hcpu]
    exact ⟨_, rfl, by simp [do_cpu, line_cost, hcpu], rfl, rfl, rfl, rfl⟩
  · have hvec : vectors[(env.parse_trace line).2.1.toNat]? =
        some (vectors[(env.parse_trace line).2.1.toNat]) := List.getElem?_eq_getElem hv
    have hdel : delays[(env.parse_trace line).2.1.toNat]? =
        some (delays.getD (env.parse_trace line).2.1.toNat 0) := by
      rw [List.getD_eq_getElem?_getD, List.getElem?_eq_getElem hd]; rfl
    obtain ⟨t1, t2, t3, hs, hsum⟩ :=
      device_split_sum (env.rand f.g.rand_calls) (env.rand (f.g.rand_calls + 1)) _ hpos
    rcases hact with hsys | hend
    · rw [body_syscall env sim trace_file vectors delays external_files line f hsys,
        do_syscall_eq env vectors delays f _ _ t1 t2 t3 _ h0 hvec hdel hs]
      refine ⟨_, rfl, ?_, rfl, rfl, rfl, rfl⟩
      have hne : ¬ (env.parse_trace line).1 = "CPU" := by rw [hsys]; decide
      rw [line_cost, if_neg hne, if_pos hsys]
      show f.now + 1 + 4 + 1 + 1 + t1 + t2 + t3 + 1 = _
      linarith
    · rw [body_endio env sim trace_file vectors delays external_files line f hend,
        do_endio_eq env vectors delays f _ _ t1 t2 t3 _ h0 hvec hdel hs]
      refine ⟨_, rfl, ?_, rfl, rfl, rfl, rfl⟩
      have hne : ¬ (env.parse_trace line).1 = "CPU" := by rw [hend]; decide
      have hne2 : ¬ (env.parse_trace line).1 = "SYSCALL" := by rw [hend]; decide
      rw [line_cost, if_neg hne, if_neg hne2]
      show f.now + 1 + 4 + 1 + t1 + t2 + t3 + 1 = _
      linarith

/-- The main loop over straight-line code runs to the end of the trace; the clock moves
by the summed cost of the lines from the current index on. -/
theorem loop_straight {M : Type} (env : Env M) (sim : Callee M)
    (trace_file vectors : List String) (delays : List Int)
    (external_files : List external_file)
    (h : ∀ l ∈ trace_file, straight_line env.parse_trace vectors delays l) :
    ∀ (k : Nat) (f : Frame M), trace_file.length ≤ k + f.idx →
      ∃ f1 : Frame M,
        loop env sim trace_file vectors delays external_files k f = .ok (.next, f1) ∧
        f1.now = f.now +
          ((trace_file.drop f.idx).map (line_cost env.parse_trace delays)).sum ∧
        f1.current = f.current ∧ f1.wait_queue = f.wait_queue ∧
        f1.status_log = f.status_log := by
  intro k
  induction k with
  | zero =>
    intro f hk
    have hlen : trace_file.length ≤ f.idx := by omega
    refine ⟨f, ?_, ?_, rfl, rfl, rfl⟩
    · simp [loop, Nat.not_lt.mpr hlen]
    · simp [List.drop_eq_nil_of_le hlen]
  | succ k ih =>
    intro f hk
    by_cases hlt : f.idx < trace_file.length
    · have hget : trace_file[f.idx]? = some trace_file[f.idx] := List.getElem?_eq_getElem hlt
      obtain ⟨f1, hb, hnow, hidx, hcur, hwq, hst⟩ :=
        body_straight env sim trace_file vectors delays external_files trace_file[f.idx] f
          (h _ (List.getElem_mem hlt))
      obtain ⟨f2, hl, hnow2, hcur2, hwq2, hst2⟩ :=
        ih { f1 with idx := f1.idx + 1 } (by simp only [hidx]; omega)
      refine ⟨f2, ?_, ?_, ?_, ?_, ?_⟩
      · simp only [loop, hget, hb]
        exact hl
      · rw [hnow2]
        simp only [hidx, hnow]
        rw [List.drop_eq_getElem_cons hlt]
        simp only [List.map_cons, List.sum_cons]
        ring
      · rw [hcur2]; exact hcur
      · rw [hwq2]; exact hwq
      · rw [hst2]; exact hst
    · have hlen : trace_file.length ≤ f.idx := by omega
      refine ⟨f, ?_, ?_, rfl, rfl, rfl⟩
      · simp [loop, List.getElem?_eq_none hlen]
      · simp [List.drop_eq_nil_of_le hlen]

/-- C4 (evaluation at the failing input). A successful FORK logs `scheduler called` with
duration 0 at time 16 and then IRET with duration 1 at time 17, and the child, hence the
whole run, ends at time 17: the log is not contiguous and the end time is not the end of
the last step. -/
theorem fork_success_log_gap :
    simulate_trace demo_env 2 ["FORK,3"] 0 ["a", "b", "c"] [1, 2, 16] [] init_pcb []
        ⟨1, 3, 0⟩ =
      .ok ⟨[ ⟨0, 1, "switch to kernel mode"⟩,
             ⟨1, 10, "context saved"⟩,
             ⟨11, 1, "find vector 2 in memory c"⟩,
             ⟨12, 1, "load address into the PC"⟩,
             ⟨13, 3, "cloning the PCB"⟩,
             ⟨16, 0, "scheduler called"⟩,
             ⟨17, 1, "IRET"⟩ ],
           [⟨17, "FORK,3", "1/1"⟩], 17, ⟨2, 3, 0⟩⟩ ∧
    contiguous
        [ ⟨0, 1, "switch to kernel mode"⟩,
          ⟨1, 10, "context saved"⟩,
          ⟨11, 1, "find vector 2 in memory c"⟩,
          ⟨12, 1, "load address into the PC"⟩,
          ⟨13, 3, "cloning the PCB"⟩,
          ⟨16, 0, "scheduler called"⟩,
          ⟨17, 1, "IRET"⟩ ] = false ∧
    ends_at
        [ ⟨0, 1, "switch to kernel mode"⟩,
          ⟨1, 10, "context saved"⟩,
          ⟨11, 1, "find vector 2 in memory c"⟩,
          ⟨12, 1, "load address into the PC"⟩,
          ⟨13, 3, "cloning the PCB"⟩,
          ⟨16, 0, "scheduler called"⟩,
          ⟨17, 1, "IRET"⟩ ] 17 = false := by
  refine ⟨by decide, by decide, by decide⟩

/-- The FORK branch is what the body runs on a FORK line. -/
theorem body_fork {M : Type} (env : Env M) (sim : Callee M)
    (trace_file vectors : List String) (delays : List Int)
    (external_files : List external_file) (line : String) (f : Frame M)
    (hact : (env.parse_trace line).1 = "FORK") :
    body env sim trace_file vectors delays external_files line f =
      do_fork env sim trace_file vectors delays external_files line
        (env.parse_trace line).2.1 f := by
  have h1 : ¬ (env.parse_trace line).1 = "CPU" := by rw [hact]; decide
  have h2 : ¬ (env.parse_trace line).1 = "SYSCALL" := by rw [hact]; decide
  have h3 : ¬ (env.parse_trace line).1 = "END_IO" := by rw [hact]; decide
  unfold body
  simp only [if_neg h1, if_neg h2, if_neg h3, if_pos hact]

/-- What a failed FORK leaves: the frame with the execution log extended by the
prologue, the clone step and the two failure steps, the clock behind them, the loop
index at the resume position, the identifier counter advanced by the clone, and the
allocator state as the failed attempt left it. -/
theorem do_fork_failed {M : Type} (env : Env M) (sim : Callee M)
    (trace_file vectors : List String) (delays : List Int)
    (external_files : List external_file) (line : String) (d : Int) (f : Frame M)
    (hfail : (env.allocate_memory
      { f.current with PID := f.g.next_pid, partition_number := -1 } f.g.mem).1 = false) :
    do_fork env sim trace_file vectors delays external_files line d f =
      .ok (.next, { f with
        exec_log := f.exec_log ++ (env.intr_boilerplate f.now 2 10 vectors).1 ++
          [⟨(env.intr_boilerplate f.now 2 10 vectors).2, d, "cloning the PCB"⟩] ++
          [ ⟨(env.intr_boilerplate f.now 2 10 vectors).2 + d, 0,
              "FORK failed: No memory for child process"⟩,
            ⟨(env.intr_boilerplate f.now 2 10 vectors).2 + d, 1, "IRET"⟩ ]
        now := (env.intr_boilerplate f.now 2 10 vectors).2 + d + 1
        idx :=
          if (scan_failed env.parse_trace (trace_file.drop (f.idx + 1)) (f.idx + 1)
              (-1) (-1)).1 ≠ -1 then
            (scan_failed env.parse_trace (trace_file.drop (f.idx + 1)) (f.idx + 1)
              (-1) (-1)).1.toNat
          else if (scan_failed env.parse_trace (trace_file.drop (f.idx + 1)) (f.idx + 1)
              (-1) (-1)).2 ≠ -1 then
            (scan_failed env.parse_trace (trace_file.drop (f.idx + 1)) (f.idx + 1)
              (-1) (-1)).2.toNat
          else trace_file.length
        g := { f.g with
          next_pid := (f.g.next_pid + 1) % 2 ^ 32
          mem := (env.allocate_memory
            { f.current with PID := f.g.next_pid, partition_number := -1 } f.g.mem).2.2 } }) := by
  unfold do_fork
  simp only [hfail, if_true]

/-- What a successful FORK leaves once the recursive simulation of the child has
returned `r`. -/
theorem do_fork_success {M : Type} (env : Env M) (sim : Callee M)
    (trace_file vectors : List String) (delays : List Int)
    (external_files : List external_file) (line : String) (d : Int) (f : Frame M)
    (r : Result M)
    (hsucc : (env.allocate_memory
      { f.current with PID := f.g.next_pid, partition_number := -1 } f.g.mem).1 = true)
    (hret : sim
      (scan_child env.parse_trace (trace_file.drop (f.idx + 1)) (f.idx + 1) true
        (-1) (-1) []).1
      ((env.intr_boilerplate f.now 2 10 vectors).2 + d + 1) vectors delays external_files
      (env.allocate_memory
        { f.current with PID := f.g.next_pid, partition_number := -1 } f.g.mem).2.1
      (f.wait_queue ++ [f.current])
      { f.g with
        next_pid := (f.g.next_pid + 1) % 2 ^ 32
        mem := (env.allocate_memory
          { f.current with PID := f.g.next_pid, partition_number := -1 } f.g.mem).2.2 } =
      .ok r) :
    do_fork env sim trace_file vectors delays external_files line d f =
      .ok (.next, {
        exec_log := f.exec_log ++ (env.intr_boilerplate f.now 2 10 vectors).1 ++
          [⟨(env.intr_boilerplate f.now 2 10 vectors).2, d, "cloning the PCB"⟩] ++
          [⟨(env.intr_boilerplate f.now 2 10 vectors).2 + d, 0, "scheduler called"⟩] ++
          [⟨(env.intr_boilerplate f.now 2 10 vectors).2 + d + 1, 1, "IRET"⟩] ++ r.exec_log
        status_log := f.status_log ++
          [⟨(env.intr_boilerplate f.now 2 10 vectors).2 + d + 1, line,
            env.print_PCB (env.allocate_memory
              { f.current with PID := f.g.next_pid, partition_number := -1 } f.g.mem).2.1
              (f.wait_queue ++ [f.current])⟩] ++ r.status_log
        now := r.end_time
        idx :=
          if (scan_child env.parse_trace (trace_file.drop (f.idx + 1)) (f.idx + 1) true
              (-1) (-1) []).2.1 ≠ -1 then
            (scan_child env.parse_trace (trace_file.drop (f.idx + 1)) (f.idx + 1) true
              (-1) (-1) []).2.1.toNat
          else if (scan_child env.parse_trace (trace_file.drop (f.idx + 1)) (f.idx + 1) true
              (-1) (-1) []).2.2 ≠ -1 then
            (scan_child env.parse_trace (trace_file.drop (f.idx + 1)) (f.idx + 1) true
              (-1) (-1) []).2.2.toNat
          else f.idx
        current := f.current
        wait_queue := f.wait_queue
        g := r.g }) := by
  unfold do_fork
  simp only [hsucc, hret, List.getLast_append_singleton, List.dropLast_concat]
  simp

/-- C6 (amended). A FORK whose child allocation fails leaves `current` (every field) and
the wait queue exactly as they were and appends nothing to the status log.  It changes
the execution log, which grows by the prologue, the clone step, the `FORK failed` step
and IRET, and the clock, which moves behind them; and besides these it changes the
identifier counter `next_pid`, advanced by the clone that precedes the allocation
(line 93), the loop index, set to the resume position, and the allocator state, left as
the failed attempt left it.  The count of `rand()` calls is unchanged. -/
theorem fork_failure_frame {M : Type} (env : Env M) (sim : Callee M)
    (trace_file vectors : List String) (delays : List Int)
    (external_files : List external_file) (line : String) (f : Frame M)
    (hact : (env.parse_trace line).1 = "FORK")
    (hfail : (env.allocate_memory
      { f.current with PID := f.g.next_pid, partition_number := -1 } f.g.mem).1 = false) :
    ∃ f1 : Frame M,
      body env sim trace_file vectors delays external_files line f = .ok (.next, f1) ∧
      f1.current = f.current ∧
      f1.wait_queue = f.wait_queue ∧
      f1.status_log = f.status_log ∧
      f1.exec_log = f.exec_log ++ (env.intr_boilerplate f.now 2 10 vectors).1 ++
        [⟨(env.intr_boilerplate f.now 2 10 vectors).2, (env.parse_trace line).2.1,
          "cloning the PCB"⟩] ++
        [ ⟨(env.intr_boilerplate f.now 2 10 vectors).2 + (env.parse_trace line).2.1, 0,
            "FORK failed: No memory for child process"⟩,
          ⟨(env.intr_boilerplate f.now 2 10 vectors).2 + (env.parse_trace line).2.1, 1,
            "IRET"⟩ ] ∧
      f1.now = (env.intr_boilerplate f.now 2 10 vectors).2 + (env.parse_trace line).2.1 + 1 ∧
      f1.g.next_pid = (f.g.next_pid + 1) % 2 ^ 32 ∧
      f1.idx =
        (if (scan_failed env.parse_trace (trace_file.drop (f.idx + 1)) (f.idx + 1)
            (-1) (-1)).1 ≠ -1 then
          (scan_failed env.parse_trace (trace_file.drop (f.idx + 1)) (f.idx + 1)
            (-1) (-1)).1.toNat
        else if (scan_failed env.parse_trace (trace_file.drop (f.idx + 1)) (f.idx + 1)
            (-1) (-1)).2 ≠ -1 then
          (scan_failed env.parse_trace (trace_file.drop (f.idx + 1)) (f.idx + 1)
            (-1) (-1)).2.toNat
        else trace_file.length) ∧
      f1.g.mem = (env.allocate_memory
        { f.current with PID := f.g.next_pid, partition_number := -1 } f.g.mem).2.2 ∧
      f1.g.rand_calls = f.g.rand_calls := by
  rw [body_fork env sim trace_file vectors delays external_files line f hact,
    do_fork_failed env sim trace_file vectors delays external_files line _ f hfail]
  exact ⟨_, rfl, rfl, rfl, rfl, rfl, rfl, rfl, rfl, rfl, rfl⟩

/-- Witness of C6 (amended): a FORK met with no free partition, `current` being
process 4 with one suspended ancestor. -/
theorem fork_failure_frame_witness :
    (demo_env.parse_trace "FORK,3").1 = "FORK" ∧
    (demo_env.allocate_memory
      { (⟨4, 0, "prog", 6, 2⟩ : PCB) with PID := 5, partition_number := -1 } 0).1 = false ∧
    ∃ f1 : Frame Nat,
      body demo_env (simulate_trace demo_env 0) ["FORK,3", "IF_PARENT", "CPU,1", "ENDIF"]
        ["a", "b", "c"] [1, 2, 16] [] "FORK,3"
        ⟨[], [], 0, 0, ⟨4, 0, "prog", 6, 2⟩, [init_pcb], ⟨5, 0, 0⟩⟩ = .ok (.next, f1) ∧
      f1.current = ⟨4, 0, "prog", 6, 2⟩ ∧
      f1.wait_queue = [init_pcb] ∧
      f1.status_log = [] ∧
      f1.exec_log = [] ++ (demo_env.intr_boilerplate 0 2 10 ["a", "b", "c"]).1 ++
        [⟨(demo_env.intr_boilerplate 0 2 10 ["a", "b", "c"]).2,
          (demo_env.parse_trace "FORK,3").2.1, "cloning the PCB"⟩] ++
        [ ⟨(demo_env.intr_boilerplate 0 2 10 ["a", "b", "c"]).2 +
              (demo_env.parse_trace "FORK,3").2.1, 0,
            "FORK failed: No memory for child process"⟩,
          ⟨(demo_env.intr_boilerplate 0 2 10 ["a", "b", "c"]).2 +
              (demo_env.parse_trace "FORK,3").2.1, 1, "IRET"⟩ ] ∧
      f1.now = (demo_env.intr_boilerplate 0 2 10 ["a", "b", "c"]).2 +
        (demo_env.parse_trace "FORK,3").2.1 + 1 ∧
      f1.g.next_pid = (5 + 1) % 2 ^ 32 ∧
      f1.idx =
        (if (scan_failed demo_env.parse_trace
            (["FORK,3", "IF_PARENT", "CPU,1", "ENDIF"].drop (0 + 1)) (0 + 1)
            (-1) (-1)).1 ≠ -1 then
          (scan_failed demo_env.parse_trace
            (["FORK,3", "IF_PARENT", "CPU,1", "ENDIF"].drop (0 + 1)) (0 + 1)
            (-1) (-1)).1.toNat
        else if (scan_failed demo_env.parse_trace
            (["FORK,3", "IF_PARENT", "CPU,1", "ENDIF"].drop (0 + 1)) (0 + 1)
            (-1) (-1)).2 ≠ -1 then
          (scan_failed demo_env.parse_trace
            (["FORK,3", "IF_PARENT", "CPU,1", "ENDIF"].drop (0 + 1)) (0 + 1)
            (-1) (-1)).2.toNat
        else ["FORK,3", "IF_PARENT", "CPU,1", "ENDIF"].length) ∧
      f1.g.mem = (demo_env.allocate_memory
        { (⟨4, 0, "prog", 6, 2⟩ : PCB) with PID := 5, partition_number := -1 } 0).2.2 ∧
      f1.g.rand_calls = 0 :=
  ⟨by decide, by decide,
    fork_failure_frame demo_env (simulate_trace demo_env 0)
      ["FORK,3", "IF_PARENT", "CPU,1", "ENDIF"] ["a", "b", "c"] [1, 2, 16] [] "FORK,3"
      ⟨[], [], 0, 0, ⟨4, 0, "prog", 6, 2⟩, [init_pcb], ⟨5, 0, 0⟩⟩ (by decide) (by decide)⟩

/-- Counterexample to C6 as stated: the same failed FORK.  The execution log and the
clock are not the only things that change: the identifier counter goes from 5 to 6 and
the loop index from 0 to 1, while `current`, the wait queue and the status log stay. -/
theorem fork_failure_frame_counterexample :
    (demo_env.parse_trace "FORK,3").1 = "FORK" ∧
    (demo_env.allocate_memory
      { (⟨4, 0, "prog", 6, 2⟩ : PCB) with PID := 5, partition_number := -1 } 0).1 = false ∧
    (body demo_env (simulate_trace demo_env 0) ["FORK,3", "IF_PARENT", "CPU,1", "ENDIF"]
        ["a", "b", "c"] [1, 2, 16] [] "FORK,3"
        ⟨[], [], 0, 0, ⟨4, 0, "prog", 6, 2⟩, [init_pcb], ⟨5, 0, 0⟩⟩).map
      (fun x => (x.2.g.next_pid, x.2.idx, x.2.current, x.2.wait_queue, x.2.status_log)) =
      .ok (6, 1, ⟨4, 0, "prog", 6, 2⟩, [init_pcb], []) ∧
    (6 : Nat) ≠ 5 ∧ (1 : Nat) ≠ 0 := by
  refine ⟨by decide, by decide, by decide, by decide, by decide⟩

/-- C7. After a successful FORK, whatever the recursive simulation of the child does and
returns, once it has returned the body finishes with the wait queue equal to the wait
queue before the FORK and `current` equal to the pre-fork parent descriptor. -/
theorem fork_success_restores {M : Type} (env : Env M) (sim : Callee M)
    (trace_file vectors : List String) (delays : List Int)
    (external_files : List external_file) (line : String) (f : Frame M) (r : Result M)
    (hact : (env.parse_trace line).1 = "FORK")
    (hsucc : (env.allocate_memory
      { f.current with PID := f.g.next_pid, partition_number := -1 } f.g.mem).1 = true)
    (hret : sim
      (scan_child env.parse_trace (trace_file.drop (f.idx + 1)) (f.idx + 1) true
        (-1) (-1) []).1
      ((env.intr_boilerplate f.now 2 10 vectors).2 + (env.parse_trace line).2.1 + 1)
      vectors delays external_files
      (env.allocate_memory
        { f.current with PID := f.g.next_pid, partition_number := -1 } f.g.mem).2.1
      (f.wait_queue ++ [f.current])
      { f.g with
        next_pid := (f.g.next_pid + 1) % 2 ^ 32
        mem := (env.allocate_memory
          { f.current with PID := f.g.next_pid, partition_number := -1 } f.g.mem).2.2 } =
      .ok r) :
    ∃ f1 : Frame M,
      body env sim trace_file vectors delays external_files line f = .ok (.next, f1) ∧
      f1.wait_queue = f.wait_queue ∧
      f1.current = f.current := by
  rw [body_fork env sim trace_file vectors delays external_files line f hact,
    do_fork_success env sim trace_file vectors delays external_files line _ f r hsucc hret]
  exact ⟨_, rfl, rfl, rfl⟩

/-- Witness of C7: the child of the FORK runs a FORK and an EXEC of its own; the parent
is process 0 with one suspended ancestor in the wait queue. -/
theorem fork_success_restores_witness :
    ∃ r : Result Nat,
      (demo_env.parse_trace "FORK,3").1 = "FORK" ∧
      (demo_env.allocate_memory
        { init_pcb with PID := 1, partition_number := -1 } 3).1 = true ∧
      simulate_trace demo_env 3 ["FORK,2", "EXEC program1, 50"] 17 ["a", "b", "c"] [1, 2, 16]
        [⟨"program1", 2⟩] ⟨1, -1, "init", 1, 3⟩ [⟨7, -1, "shell", 4, 9⟩, init_pcb]
        ⟨2, 2, 0⟩ = .ok r ∧
      ∃ f1 : Frame Nat,
        body demo_env (simulate_trace demo_env 3)
          ["FORK,3", "IF_CHILD", "FORK,2", "EXEC program1, 50", "IF_PARENT", "CPU,1", "ENDIF"]
          ["a", "b", "c"] [1, 2, 16] [⟨"program1", 2⟩] "FORK,3"
          ⟨[], [], 0, 0, init_pcb, [⟨7, -1, "shell", 4, 9⟩], ⟨1, 3, 0⟩⟩ = .ok (.next, f1) ∧
        f1.wait_queue = [⟨7, -1, "shell", 4, 9⟩] ∧
        f1.current = init_pcb := by
  cases h : simulate_trace demo_env 3 ["FORK,2", "EXEC program1, 50"] 17 ["a", "b", "c"]
      [1, 2, 16] [⟨"program1", 2⟩] ⟨1, -1, "init", 1, 3⟩ [⟨7, -1, "shell", 4, 9⟩, init_pcb]
      ⟨2, 2, 0⟩ with
  | error e =>
    have hok : (simulate_trace demo_env 3 ["FORK,2", "EXEC program1, 50"] 17 ["a", "b", "c"]
      [1, 2, 16] [⟨"program1", 2⟩] ⟨1, -1, "init", 1, 3⟩ [⟨7, -1, "shell", 4, 9⟩, init_pcb]
      ⟨2, 2, 0⟩).toBool = true := by decide
    rw [h] at hok
    cases hok
  | ok r =>
    exact ⟨r, by decide, by decide, rfl,
      fork_success_restores demo_env (simulate_trace demo_env 3)
        ["FORK,3", "IF_CHILD", "FORK,2", "EXEC program1, 50", "IF_PARENT", "CPU,1", "ENDIF"]
        ["a", "b", "c"] [1, 2, 16] [⟨"program1", 2⟩] "FORK,3"
        ⟨[], [], 0, 0, init_pcb, [⟨7, -1, "shell", 4, 9⟩], ⟨1, 3, 0⟩⟩ r
        (by decide) (by decide) h⟩

/-! ### The forward scan of a failed FORK -/

/-- Without IF_PARENT and ENDIF lines the failed-FORK scan changes nothing. -/
theorem scan_failed_no_marker (parse : String → String × Int × String) :
    ∀ (ls : List String) (j : Nat) (pp ep : Int),
      (∀ l ∈ ls, (parse l).1 ≠ "IF_PARENT" ∧ (parse l).1 ≠ "ENDIF") →
      scan_failed parse ls j pp ep = (pp, ep) := by
  intro ls
  induction ls with
  | nil => intro j pp ep _; rfl
  | cons l ls ih =>
    intro j pp ep h
    have hl := h l (List.mem_cons_self l ls)
    rw [scan_failed, if_neg hl.1, if_neg hl.2]
    exact ih (j + 1) pp ep (fun x hx => h x (List.mem_cons_of_mem l hx))

/-- The scan stops at the first ENDIF; when no IF_PARENT precedes it, the ENDIF is the
resume position unless one was already recorded. -/
theorem scan_failed_endif (parse : String → String × Int × String) (e : String)
    (B : List String) (he : (parse e).1 = "ENDIF") :
    ∀ (A : List String) (j : Nat) (pp ep : Int),
      (∀ l ∈ A, (parse l).1 ≠ "IF_PARENT" ∧ (parse l).1 ≠ "ENDIF") →
      scan_failed parse (A ++ e :: B) j pp ep =
        (if pp = -1 then ((j + A.length : Nat) : Int) else pp, ((j + A.length : Nat) : Int)) := by
  intro A
  induction A with
  | nil =>
    intro j pp ep _
    have hne : (parse e).1 ≠ "IF_PARENT" := by rw [he]; decide
    simp only [List.nil_append, scan_failed, if_neg hne, if_pos he, List.length_nil,
      Nat.add_zero]
  | cons l A ih =>
    intro j pp ep h
    have hl := h l (List.mem_cons_self l A)
    rw [List.cons_append, scan_failed, if_neg hl.1, if_neg hl.2,
      ih (j + 1) pp ep (fun x hx => h x (List.mem_cons_of_mem l hx))]
    simp only [List.length_cons]
    have : j + 1 + A.length = j + (A.length + 1) := by omega
    rw [this]

/-- An IF_PARENT that is met before any ENDIF becomes the recorded resume position,
whatever was recorded before it. -/
theorem scan_failed_if_parent (parse : String → String × Int × String) (x : String)
    (B : List String) (hx : (parse x).1 = "IF_PARENT") :
    ∀ (A : List String) (j : Nat) (pp ep : Int),
      (∀ l ∈ A, (parse l).1 ≠ "ENDIF") →
      scan_failed parse (A ++ x :: B) j pp ep =
        scan_failed parse B (j + A.length + 1) ((j + A.length : Nat) : Int) ep := by
  intro A
  induction A with
  | nil =>
    intro j pp ep _
    simp only [List.nil_append, scan_failed, if_pos hx, List.length_nil, Nat.add_zero]
  | cons l A ih =>
    intro j pp ep h
    have hl := h l (List.mem_cons_self l A)
    have hrest : ∀ y ∈ A, (parse y).1 ≠ "ENDIF" := fun y hy => h y (List.mem_cons_of_mem l hy)
    have hlen : j + 1 + A.length = j + (A.length + 1) := by omega
    rw [List.cons_append, scan_failed]
    by_cases hp : (parse l).1 = "IF_PARENT"
    · rw [if_pos hp, ih (j + 1) _ ep hrest]
      simp only [List.length_cons, hlen]
    · rw [if_neg hp, if_neg hl, ih (j + 1) pp ep hrest]
      simp only [List.length_cons, hlen]

/-- Once a resume position is recorded it is kept, provided every later IF_PARENT lies
behind an ENDIF (where the scan has already stopped). -/
theorem scan_failed_keep (parse : String → String × Int × String) :
    ∀ (B : List String) (j : Nat) (pp ep : Int), pp ≠ -1 →
      (∀ C y D, B = C ++ y :: D → (parse y).1 = "IF_PARENT" →
        ∃ l ∈ C, (parse l).1 = "ENDIF") →
      (scan_failed parse B j pp ep).1 = pp := by
  intro B
  induction B with
  | nil => intro j pp ep _ _; rfl
  | cons b B ih =>
    intro j pp ep hpp h
    have hb : (parse b).1 ≠ "IF_PARENT" := by
      intro hb
      obtain ⟨l, hl, -⟩ := h [] b B rfl hb
      cases hl
    rw [scan_failed, if_neg hb]
    by_cases he : (parse b).1 = "ENDIF"
    · rw [if_pos he, if_neg hpp]
    · rw [if_neg he]
      refine ih (j + 1) pp ep hpp ?_
      intro C y D hB hy
      obtain ⟨l, hl, hle⟩ := h (b :: C) y D (by rw [hB]; rfl) hy
      rcases List.mem_cons.mp hl with rfl | hl
      · exact absurd hle he
      · exact ⟨l, hl, hle⟩

theorem drop_after_index (pre rest : List String) (line : String) (i : Nat)
    (hi : i = pre.length) : (pre ++ line :: rest).drop (i + 1) = rest := by
  subst hi
  rw [List.drop_append_eq_append_drop]
  simp

theorem natCast_ne_neg_one (n : Nat) : ((n : Nat) : Int) ≠ -1 := by omega

/-- After the loop index has passed the end of the trace the main loop stops at once. -/
theorem loop_past_end {M : Type} (env : Env M) (sim : Callee M)
    (trace_file vectors : List String) (delays : List Int)
    (external_files : List external_file) (k : Nat) (f : Frame M)
    (h : trace_file.length ≤ f.idx) :
    loop env sim trace_file vectors delays external_files k f = .ok (.next, f) := by
  cases k with
  | zero => simp [loop, Nat.not_lt.mpr h]
  | succ k => simp [loop, List.getElem?_eq_none h]

/-- C5 (amended). When the child allocation of the FORK at index `i = |pre|` fails, the
body sets the loop index (so that the loop continues with the line after it)
* to the position of the last IF_PARENT that comes after `i` and before the first ENDIF
  after `i`: an IF_PARENT line `m` with no ENDIF between the FORK and `m` and with every
  later IF_PARENT lying behind an ENDIF;
* otherwise to the position of the first ENDIF after `i`, when no IF_PARENT precedes it;
* otherwise, when neither marker follows, to the length of the trace, and the main loop
  then ends without running any further line. -/
theorem fork_failure_resume {M : Type} (env : Env M) (sim : Callee M)
    (pre rest : List String) (line : String) (vectors : List String) (delays : List Int)
    (external_files : List external_file) (f : Frame M)
    (hidx : f.idx = pre.length)
    (hact : (env.parse_trace line).1 = "FORK")
    (hfail : (env.allocate_memory
      { f.current with PID := f.g.next_pid, partition_number := -1 } f.g.mem).1 = false) :
    ∃ f1 : Frame M,
      body env sim (pre ++ line :: rest) vectors delays external_files line f =
        .ok (.next, f1) ∧
      (∀ A m B, rest = A ++ m :: B → (env.parse_trace m).1 = "IF_PARENT" →
        (∀ l ∈ A, (env.parse_trace l).1 ≠ "ENDIF") →
        (∀ C y D, B = C ++ y :: D → (env.parse_trace y).1 = "IF_PARENT" →
          ∃ l ∈ C, (env.parse_trace l).1 = "ENDIF") →
        f1.idx = pre.length + 1 + A.length) ∧
      (∀ A m B, rest = A ++ m :: B → (env.parse_trace m).1 = "ENDIF" →
        (∀ l ∈ A, (env.parse_trace l).1 ≠ "IF_PARENT" ∧ (env.parse_trace l).1 ≠ "ENDIF") →
        f1.idx = pre.length + 1 + A.length) ∧
      ((∀ l ∈ rest, (env.parse_trace l).1 ≠ "IF_PARENT" ∧ (env.parse_trace l).1 ≠ "ENDIF") →
        f1.idx = (pre ++ line :: rest).length ∧
        ∀ k, loop env sim (pre ++ line :: rest) vectors delays external_files k
          { f1 with idx := f1.idx + 1 } = .ok (.next, { f1 with idx := f1.idx + 1 })) := by
  rw [body_fork env sim _ vectors delays external_files line f hact,
    do_fork_failed env sim _ vectors delays external_files line _ f hfail,
    drop_after_index pre rest line f.idx hidx, hidx]
  refine ⟨_, rfl, ?_, ?_, ?_⟩
  · intro A m B hrest hm hA hB
    have hsc : (scan_failed env.parse_trace rest (pre.length + 1) (-1) (-1)).1 =
        ((pre.length + 1 + A.length : Nat) : Int) := by
      rw [hrest, scan_failed_if_parent env.parse_trace m B hm A _ _ _ hA]
      exact scan_failed_keep env.parse_trace B _ _ _ (natCast_ne_neg_one _) hB
    show (if _ then _ else _) = _
    rw [hsc, if_pos (natCast_ne_neg_one _), Int.toNat_ofNat]
  · intro A m B hrest hm hA
    have hsc : (scan_failed env.parse_trace rest (pre.length + 1) (-1) (-1)).1 =
        ((pre.length + 1 + A.length : Nat) : Int) := by
      rw [hrest, scan_failed_endif env.parse_trace m B hm A _ _ _ hA]
      simp
    show (if _ then _ else _) = _
    rw [hsc, if_pos (natCast_ne_neg_one _), Int.toNat_ofNat]
  · intro hnone
    have hsc : scan_failed env.parse_trace rest (pre.length + 1) (-1) (-1) = (-1, -1) :=
      scan_failed_no_marker env.parse_trace rest _ _ _ hnone
    have hidx1 : (if (scan_failed env.parse_trace rest (pre.length + 1) (-1) (-1)).1 ≠ -1 then
          (scan_failed env.parse_trace rest (pre.length + 1) (-1) (-1)).1.toNat
        else if (scan_failed env.parse_trace rest (pre.length + 1) (-1) (-1)).2 ≠ -1 then
          (scan_failed env.parse_trace rest (pre.length + 1) (-1) (-1)).2.toNat
        else (pre ++ line :: rest).length) = (pre ++ line :: rest).length := by
      rw [hsc]
      simp
    refine ⟨hidx1, ?_⟩
    intro k
    apply loop_past_end
    show _ ≤ (if _ then _ else _) + 1
    rw [hidx1]
    omega

/-- Witness of C5 (amended): a failed FORK followed by two IF_PARENT lines and an
ENDIF. -/
theorem fork_failure_resume_witness :
    (0 : Nat) = ([] : List String).length ∧
    (demo_env.parse_trace "FORK,3").1 = "FORK" ∧
    (demo_env.allocate_memory
      { init_pcb with PID := 1, partition_number := -1 } 0).1 = false ∧
    ∃ f1 : Frame Nat,
      body demo_env (simulate_trace demo_env 0)
        ([] ++ "FORK,3" :: ["IF_PARENT", "CPU,1", "IF_PARENT", "CPU,2", "ENDIF"])
        ["a", "b", "c"] [1, 2, 16] [] "FORK,3" ⟨[], [], 0, 0, init_pcb, [], ⟨1, 0, 0⟩⟩ =
        .ok (.next, f1) ∧
      (∀ A m B, ["IF_PARENT", "CPU,1", "IF_PARENT", "CPU,2", "ENDIF"] = A ++ m :: B →
        (demo_env.parse_trace m).1 = "IF_PARENT" →
        (∀ l ∈ A, (demo_env.parse_trace l).1 ≠ "ENDIF") →
        (∀ C y D, B = C ++ y :: D → (demo_env.parse_trace y).1 = "IF_PARENT" →
          ∃ l ∈ C, (demo_env.parse_trace l).1 = "ENDIF") →
        f1.idx = ([] : List String).length + 1 + A.length) ∧
      (∀ A m B, ["IF_PARENT", "CPU,1", "IF_PARENT", "CPU,2", "ENDIF"] = A ++ m :: B →
        (demo_env.parse_trace m).1 = "ENDIF" →
        (∀ l ∈ A, (demo_env.parse_trace l).1 ≠ "IF_PARENT" ∧
          (demo_env.parse_trace l).1 ≠ "ENDIF") →
        f1.idx = ([] : List String).length + 1 + A.length) ∧
      ((∀ l ∈ ["IF_PARENT", "CPU,1", "IF_PARENT", "CPU,2", "ENDIF"],
          (demo_env.parse_trace l).1 ≠ "IF_PARENT" ∧ (demo_env.parse_trace l).1 ≠ "ENDIF") →
        f1.idx =
          ([] ++ "FORK,3" :: ["IF_PARENT", "CPU,1", "IF_PARENT", "CPU,2", "ENDIF"]).length ∧
        ∀ k, loop demo_env (simulate_trace demo_env 0)
          ([] ++ "FORK,3" :: ["IF_PARENT", "CPU,1", "IF_PARENT", "CPU,2", "ENDIF"])
          ["a", "b", "c"] [1, 2, 16] [] k
          { f1 with idx := f1.idx + 1 } = .ok (.next, { f1 with idx := f1.idx + 1 })) :=
  ⟨rfl, by decide, by decide,
    fork_failure_resume demo_env (simulate_trace demo_env 0) []
      ["IF_PARENT", "CPU,1", "IF_PARENT", "CPU,2", "ENDIF"] "FORK,3" ["a", "b", "c"]
      [1, 2, 16] [] ⟨[], [], 0, 0, init_pcb, [], ⟨1, 0, 0⟩⟩ rfl (by decide) (by decide)⟩

/-- C5 (counterexample). The failed FORK at index 0 does not always resume at the first
IF_PARENT after it.  With two IF_PARENT lines before the ENDIF the loop index is set to
3, the second IF_PARENT, although the first one is at index 1, and `CPU,1` is skipped.
With an ENDIF at index 1 and the first IF_PARENT at index 3 the loop index is set to 1,
the ENDIF, and `CPU,1` at index 2 is run. -/
theorem fork_failure_resume_counterexample :
    (demo_env.parse_trace "IF_PARENT").1 = "IF_PARENT" ∧
    (demo_env.parse_trace "CPU,1").1 ≠ "IF_PARENT" ∧
    (demo_env.parse_trace "ENDIF").1 ≠ "IF_PARENT" ∧
    (body demo_env (simulate_trace demo_env 0)
      ["FORK,3", "IF_PARENT", "CPU,1", "IF_PARENT", "CPU,2", "ENDIF"]
      ["a", "b", "c"] [1, 2, 16] [] "FORK,3"
      ⟨[], [], 0, 0, init_pcb, [], ⟨1, 0, 0⟩⟩).map (fun x => (x.1, x.2.idx)) =
        .ok (.next, 3) ∧
    (simulate_trace demo_env 1
      ["FORK,3", "IF_PARENT", "CPU,1", "IF_PARENT", "CPU,2", "ENDIF"] 0
      ["a", "b", "c"] [1, 2, 16] [] init_pcb [] ⟨1, 0, 0⟩).map
        (fun r => r.exec_log.filter (fun st => st.text = "CPU Burst")) =
        .ok [⟨17, 2, "CPU Burst"⟩] ∧
    (body demo_env (simulate_trace demo_env 0)
      ["FORK,3", "ENDIF", "CPU,1", "IF_PARENT", "CPU,2", "ENDIF"]
      ["a", "b", "c"] [1, 2, 16] [] "FORK,3"
      ⟨[], [], 0, 0, init_pcb, [], ⟨1, 0, 0⟩⟩).map (fun x => (x.1, x.2.idx)) =
        .ok (.next, 1) ∧
    (simulate_trace demo_env 1
      ["FORK,3", "ENDIF", "CPU,1", "IF_PARENT", "CPU,2", "ENDIF"] 0
      ["a", "b", "c"] [1, 2, 16] [] init_pcb [] ⟨1, 0, 0⟩).map
        (fun r => r.exec_log.filter (fun st => st.text = "CPU Burst")) =
        .ok [⟨17, 1, "CPU Burst"⟩, ⟨18, 2, "CPU Burst"⟩] := by
  refine ⟨by decide, by decide, by decide, by decide, by decide, by decide, by decide⟩

/-! ### The forward scan of a successful FORK -/

/-- A block without branch markers is skipped by the scan; it is appended to the child
trace exactly when the scan is not muted. -/
theorem scan_child_block (parse : String → String × Int × String) (B : List String) :
    ∀ (A : List String) (j : Nat) (muted : Bool) (pp ep : Int) (ch : List String),
      (∀ l ∈ A, (parse l).1 ≠ "IF_CHILD" ∧ (parse l).1 ≠ "IF_PARENT" ∧
        (parse l).1 ≠ "ENDIF") →
      scan_child parse (A ++ B) j muted pp ep ch =
        scan_child parse B (j + A.length) muted pp ep (if muted then ch else ch ++ A) := by
  intro A
  induction A with
  | nil =>
    intro j muted pp ep ch _
    cases muted <;> simp
  | cons l A ih =>
    intro j muted pp ep ch h
    have hl := h l (List.mem_cons_self l A)
    have hlen : j + 1 + A.length = j + (A.length + 1) := by omega
    rw [List.cons_append, scan_child, if_neg hl.1, if_neg hl.2.1, if_neg hl.2.2,
      ih (j + 1) muted pp ep _ (fun x hx => h x (List.mem_cons_of_mem l hx))]
    cases muted <;> simp [hlen]

/-- A recorded resume position survives the scan of lines without IF_PARENT. -/
theorem scan_child_keep (parse : String → String × Int × String) :
    ∀ (ls : List String) (j : Nat) (muted : Bool) (pp ep : Int) (ch : List String),
      pp ≠ -1 → (∀ l ∈ ls, (parse l).1 ≠ "IF_PARENT") →
      (scan_child parse ls j muted pp ep ch).2.1 = pp := by
  intro ls
  induction ls with
  | nil => intro j muted pp ep ch _ _; rfl
  | cons l ls ih =>
    intro j muted pp ep ch hpp h
    have hl := h l (List.mem_cons_self l ls)
    have hrest : ∀ x ∈ ls, (parse x).1 ≠ "IF_PARENT" :=
      fun x hx => h x (List.mem_cons_of_mem l hx)
    rw [scan_child]
    by_cases hc : (parse l).1 = "IF_CHILD"
    · rw [if_pos hc]; exact ih _ _ _ _ _ hpp hrest
    · rw [if_neg hc, if_neg hl]
      by_cases he : (parse l).1 = "ENDIF"
      · rw [if_pos he, if_neg hpp]; exact ih _ _ _ _ _ hpp hrest
      · rw [if_neg he]; exact ih _ _ _ _ _ hpp hrest

/-- The scan records the last IF_PARENT of the lines it is run over. -/
theorem scan_child_last_if_parent (parse : String → String × Int × String) (x : String)
    (B : List String) (hx : (parse x).1 = "IF_PARENT")
    (hB : ∀ l ∈ B, (parse l).1 ≠ "IF_PARENT") :
    ∀ (A : List String) (j : Nat) (muted : Bool) (pp ep : Int) (ch : List String),
      (scan_child parse (A ++ x :: B) j muted pp ep ch).2.1 = ((j + A.length : Nat) : Int) := by
  intro A
  induction A with
  | nil =>
    intro j muted pp ep ch
    have hc : (parse x).1 ≠ "IF_CHILD" := by rw [hx]; decide
    rw [List.nil_append, scan_child, if_neg hc, if_pos hx]
    exact scan_child_keep parse B _ _ _ _ _ (natCast_ne_neg_one _) hB
  | cons l A ih =>
    intro j muted pp ep ch
    have hlen : j + 1 + A.length = j + (A.length + 1) := by omega
    rw [List.cons_append, scan_child]
    split_ifs <;> rw [ih] <;> simp only [List.length_cons, hlen]

/-- Without any IF_PARENT the scan records the first ENDIF. -/
theorem scan_child_first_endif (parse : String → String × Int × String) (e : String)
    (B : List String) (he : (parse e).1 = "ENDIF")
    (hB : ∀ l ∈ B, (parse l).1 ≠ "IF_PARENT") :
    ∀ (A : List String) (j : Nat) (muted : Bool) (ep : Int) (ch : List String),
      (∀ l ∈ A, (parse l).1 ≠ "IF_PARENT" ∧ (parse l).1 ≠ "ENDIF") →
      (scan_child parse (A ++ e :: B) j muted (-1) ep ch).2.1 =
        ((j + A.length : Nat) : Int) := by
  intro A
  induction A with
  | nil =>
    intro j muted ep ch _
    have hc : (parse e).1 ≠ "IF_CHILD" := by rw [he]; decide
    have hp : (parse e).1 ≠ "IF_PARENT" := by rw [he]; decide
    rw [List.nil_append, scan_child, if_neg hc, if_neg hp, if_pos he, if_pos rfl]
    exact scan_child_keep parse B _ _ _ _ _ (natCast_ne_neg_one _) hB
  | cons l A ih =>
    intro j muted ep ch h
    have hl := h l (List.mem_cons_self l A)
    have hrest : ∀ y ∈ A, (parse y).1 ≠ "IF_PARENT" ∧ (parse y).1 ≠ "ENDIF" :=
      fun y hy => h y (List.mem_cons_of_mem l hy)
    have hlen : j + 1 + A.length = j + (A.length + 1) := by omega
    rw [List.cons_append, scan_child, if_neg hl.1, if_neg hl.2]
    split_ifs <;> rw [ih _ _ _ _ hrest] <;> simp only [List.length_cons, hlen]

/-- The loop index that a successful FORK at index `i = |pre|` leaves once the child's
simulation has returned: the position of the last IF_PARENT line after `i`, if there is
an IF_PARENT after `i`; otherwise the position of the first ENDIF after `i`, if there
is one. -/
theorem fork_success_index {M : Type} (env : Env M) (sim : Callee M)
    (pre rest : List String) (line : String) (vectors : List String) (delays : List Int)
    (external_files : List external_file) (f : Frame M) (r : Result M)
    (hidx : f.idx = pre.length)
    (hact : (env.parse_trace line).1 = "FORK")
    (hsucc : (env.allocate_memory
      { f.current with PID := f.g.next_pid, partition_number := -1 } f.g.mem).1 = true)
    (hret : sim
      (scan_child env.parse_trace rest (pre.length + 1) true (-1) (-1) []).1
      ((env.intr_boilerplate f.now 2 10 vectors).2 + (env.parse_trace line).2.1 + 1)
      vectors delays external_files
      (env.allocate_memory
        { f.current with PID := f.g.next_pid, partition_number := -1 } f.g.mem).2.1
      (f.wait_queue ++ [f.current])
      { f.g with
        next_pid := (f.g.next_pid + 1) % 2 ^ 32
        mem := (env.allocate_memory
          { f.current with PID := f.g.next_pid, partition_number := -1 } f.g.mem).2.2 } =
      .ok r) :
    ∃ f1 : Frame M,
      body env sim (pre ++ line :: rest) vectors delays external_files line f =
        .ok (.next, f1) ∧
      (∀ A m B, rest = A ++ m :: B → (env.parse_trace m).1 = "IF_PARENT" →
        (∀ l ∈ B, (env.parse_trace l).1 ≠ "IF_PARENT") →
        f1.idx = pre.length + 1 + A.length) ∧
      (∀ A m B, rest = A ++ m :: B → (env.parse_trace m).1 = "ENDIF" →
        (∀ l ∈ A, (env.parse_trace l).1 ≠ "IF_PARENT" ∧ (env.parse_trace l).1 ≠ "ENDIF") →
        (∀ l ∈ B, (env.parse_trace l).1 ≠ "IF_PARENT") →
        f1.idx = pre.length + 1 + A.length) := by
  have hdrop := drop_after_index pre rest line f.idx hidx
  rw [body_fork env sim _ vectors delays external_files line f hact,
    do_fork_success env sim _ vectors delays external_files line _ f r hsucc
      (by rw [hdrop, hidx]; exact hret),
    hdrop, hidx]
  refine ⟨_, rfl, ?_, ?_⟩
  · intro A m B hrest hm hB
    have hsc : (scan_child env.parse_trace rest (pre.length + 1) true (-1) (-1) []).2.1 =
        ((pre.length + 1 + A.length : Nat) : Int) := by
      rw [hrest]
      exact scan_child_last_if_parent env.parse_trace m B hm hB A _ _ _ _ _
    show (if _ then _ else _) = _
    rw [hsc, if_pos (natCast_ne_neg_one _), Int.toNat_ofNat]
  · intro A m B hrest hm hA hB
    have hsc : (scan_child env.parse_trace rest (pre.length + 1) true (-1) (-1) []).2.1 =
        ((pre.length + 1 + A.length : Nat) : Int) := by
      rw [hrest]
      exact scan_child_first_endif env.parse_trace m B hm hB A _ _ _ _ hA
    show (if _ then _ else _) = _
    rw [hsc, if_pos (natCast_ne_neg_one _), Int.toNat_ofNat]

/-- C8 (evaluation at the failing input). The trace holds two conditionals, a FORK at
index 0 with IF_PARENT at index 3 and a FORK at index 6 with IF_PARENT at index 9.
With a free partition the FORK at index 0 succeeds, and after the child has returned
the loop index is 9, the IF_PARENT of the second conditional, not 3, the nearest
IF_PARENT: the parent never runs its own branch `CPU,2` nor the second FORK, the CPU
bursts of the run being 1, 3, 9 (child) and 4, 9 (parent).  With no free partition the
same FORK fails, and the scan of the failure path gives index 3: the parent runs
`CPU,2`, `CPU,4` and `CPU,9`.  On the trace `["FORK,3", "CPU,5"]`, which has no marker
after the FORK, the successful FORK leaves the loop index at 0 and the parent goes on
to run `CPU,5`, whereas the failed FORK sets the index to the end of the trace and
`CPU,5` is not run. -/
theorem fork_success_resume_divergence :
    (body demo_env (simulate_trace demo_env 2)
      ["FORK,1", "IF_CHILD", "CPU,1", "IF_PARENT", "CPU,2", "ENDIF", "FORK,2", "IF_CHILD",
        "CPU,3", "IF_PARENT", "CPU,4", "ENDIF", "CPU,9"]
      ["a", "b", "c"] [1, 2, 16] [] "FORK,1"
      ⟨[], [], 0, 0, init_pcb, [], ⟨1, 3, 0⟩⟩).map (fun x => (x.1, x.2.idx)) =
        .ok (.next, 9) ∧
    (body demo_env (simulate_trace demo_env 2)
      ["FORK,1", "IF_CHILD", "CPU,1", "IF_PARENT", "CPU,2", "ENDIF", "FORK,2", "IF_CHILD",
        "CPU,3", "IF_PARENT", "CPU,4", "ENDIF", "CPU,9"]
      ["a", "b", "c"] [1, 2, 16] [] "FORK,1"
      ⟨[], [], 0, 0, init_pcb, [], ⟨1, 0, 0⟩⟩).map (fun x => (x.1, x.2.idx)) =
        .ok (.next, 3) ∧
    (simulate_trace demo_env 3
      ["FORK,1", "IF_CHILD", "CPU,1", "IF_PARENT", "CPU,2", "ENDIF", "FORK,2", "IF_CHILD",
        "CPU,3", "IF_PARENT", "CPU,4", "ENDIF", "CPU,9"] 0
      ["a", "b", "c"] [1, 2, 16] [] init_pcb [] ⟨1, 3, 0⟩).map
        (fun r => (r.exec_log.filter (fun st => st.text = "CPU Burst")).map
          (fun st => st.dur)) = .ok [1, 3, 9, 4, 9] ∧
    (simulate_trace demo_env 3
      ["FORK,1", "IF_CHILD", "CPU,1", "IF_PARENT", "CPU,2", "ENDIF", "FORK,2", "IF_CHILD",
        "CPU,3", "IF_PARENT", "CPU,4", "ENDIF", "CPU,9"] 0
      ["a", "b", "c"] [1, 2, 16] [] init_pcb [] ⟨1, 0, 0⟩).map
        (fun r => (r.exec_log.filter (fun st => st.text = "CPU Burst")).map
          (fun st => st.dur)) = .ok [2, 4, 9] ∧
    (body demo_env (simulate_trace demo_env 1) ["FORK,3", "CPU,5"]
      ["a", "b", "c"] [1, 2, 16] [] "FORK,3"
      ⟨[], [], 0, 0, init_pcb, [], ⟨1, 3, 0⟩⟩).map (fun x => (x.1, x.2.idx)) =
        .ok (.next, 0) ∧
    (body demo_env (simulate_trace demo_env 1) ["FORK,3", "CPU,5"]
      ["a", "b", "c"] [1, 2, 16] [] "FORK,3"
      ⟨[], [], 0, 0, init_pcb, [], ⟨1, 0, 0⟩⟩).map (fun x => (x.1, x.2.idx)) =
        .ok (.next, 2) ∧
    (simulate_trace demo_env 2 ["FORK,3", "CPU,5"] 0
      ["a", "b", "c"] [1, 2, 16] [] init_pcb [] ⟨1, 3, 0⟩).map
        (fun r => (r.exec_log.filter (fun st => st.text = "CPU Burst")).map
          (fun st => st.dur)) = .ok [5] ∧
    (simulate_trace demo_env 2 ["FORK,3", "CPU,5"] 0
      ["a", "b", "c"] [1, 2, 16] [] init_pcb [] ⟨1, 0, 0⟩).map
        (fun r => (r.exec_log.filter (fun st => st.text = "CPU Burst")).map
          (fun st => st.dur)) = .ok [] := by
  refine ⟨by decide, by decide, by decide, by decide, by decide, by decide, by decide,
    by decide⟩

/-! ### The child sub-trace -/

theorem select_lines_nil (keep : List String → String → Bool) : select_lines keep [] = [] :=
  rfl

theorem select_lines_cons (keep : List String → String → Bool) (x : String)
    (xs : List String) :
    select_lines keep (x :: xs) =
      (if keep [] x then [x] else []) ++ select_lines (fun b l => keep (x :: b) l) xs := by
  unfold select_lines
  rw [List.length_cons, List.range_succ_eq_map, List.filterMap_cons, List.filterMap_map]
  have h0 : (match (x :: xs)[0]? with
      | some l => if keep ((x :: xs).take 0) l = true then some l else none
      | none => none) = if keep [] x = true then some x else none := by simp
  rw [h0]
  have hfun : ((fun k =>
      match (x :: xs)[k]? with
      | some l => if keep ((x :: xs).take k) l = true then some l else none
      | none => none) ∘ Nat.succ) =
      (fun k =>
        match xs[k]? with
        | some l => if keep (x :: xs.take k) l = true then some l else none
        | none => none) := by
    funext k
    simp
  rw [hfun]
  by_cases hk : keep [] x = true <;> simp [hk]

theorem last_marker_append_marker (parse : String → String × Int × String)
    (hist : List String) (l : String) (h : is_marker (parse l).1 = true) :
    last_marker parse (hist ++ [l]) = some (parse l).1 := by
  simp [last_marker, List.filter_append, List.filter_cons, h]

theorem last_marker_append_other (parse : String → String × Int × String)
    (hist : List String) (l : String) (h : is_marker (parse l).1 = false) :
    last_marker parse (hist ++ [l]) = last_marker parse hist := by
  simp [last_marker, List.filter_append, List.filter_cons, h]

theorem is_marker_false (a : String) (h1 : a ≠ "IF_CHILD") (h2 : a ≠ "IF_PARENT")
    (h3 : a ≠ "ENDIF") : is_marker a = false := by
  simp [is_marker, h1, h2, h3]

/-- The child trace built by the scan, for any state of the scan: `hist` stands for the
lines already scanned, and the scan is muted exactly when the last marker in `hist` is
neither IF_CHILD nor ENDIF. -/
theorem scan_child_trace (parse : String → String × Int × String) :
    ∀ (ls hist : List String) (j : Nat) (muted : Bool) (pp ep : Int) (ch : List String),
      muted = !(last_marker parse hist == some "IF_CHILD" ||
        last_marker parse hist == some "ENDIF") →
      (scan_child parse ls j muted pp ep ch).1 =
        ch ++ select_lines (fun before l =>
          !is_marker (parse l).1 &&
            (last_marker parse (hist ++ before) == some "IF_CHILD" ||
              last_marker parse (hist ++ before) == some "ENDIF")) ls := by
  intro ls
  induction ls with
  | nil =>
    intro hist j muted pp ep ch _
    simp [scan_child, select_lines_nil]
  | cons l ls ih =>
    intro hist j muted pp ep ch hm
    have hfun : (fun (b : List String) (x : String) =>
        !is_marker (parse x).1 &&
          (last_marker parse (hist ++ l :: b) == some "IF_CHILD" ||
            last_marker parse (hist ++ l :: b) == some "ENDIF")) =
        (fun (b : List String) (x : String) =>
          !is_marker (parse x).1 &&
            (last_marker parse ((hist ++ [l]) ++ b) == some "IF_CHILD" ||
              last_marker parse ((hist ++ [l]) ++ b) == some "ENDIF")) := by
      funext b x
      simp
    rw [select_lines_cons, hfun, scan_child]
    by_cases hc : (parse l).1 = "IF_CHILD"
    · have hmk : is_marker (parse l).1 = true := by simp [is_marker, hc]
      rw [if_pos hc, ih (hist ++ [l]) _ _ _ _ _
        (by rw [last_marker_append_marker parse hist l hmk, hc]; rfl)]
      simp [hmk]
    · rw [if_neg hc]
      by_cases hp : (parse l).1 = "IF_PARENT"
      · have hmk : is_marker (parse l).1 = true := by simp [is_marker, hp]
        rw [if_pos hp, ih (hist ++ [l]) _ _ _ _ _
          (by rw [last_marker_append_marker parse hist l hmk, hp]; rfl)]
        simp [hmk]
      · rw [if_neg hp]
        by_cases he : (parse l).1 = "ENDIF"
        · have hmk : is_marker (parse l).1 = true := by simp [is_marker, he]
          rw [if_pos he, ih (hist ++ [l]) _ _ _ _ _
            (by rw [last_marker_append_marker parse hist l hmk, he]; rfl)]
          simp [hmk]
        · have hmk : is_marker (parse l).1 = false := is_marker_false _ hc hp he
          rw [if_neg he, ih (hist ++ [l]) _ _ _ _ _
            (by rw [last_marker_append_other parse hist l hmk]; exact hm)]
          rw [hm]
          simp only [List.append_nil, hmk, Bool.not_false, Bool.true_and]
          cases hop : (last_marker parse hist == some "IF_CHILD" ||
            last_marker parse hist == some "ENDIF") <;> simp

/-- The child trace built by the scan of a successful FORK is the amended selection. -/
theorem scan_child_opened (parse : String → String × Int × String) (rest : List String)
    (j : Nat) :
    (scan_child parse rest j true (-1) (-1) []).1 = opened_child_trace parse rest := by
  rw [scan_child_trace parse rest [] j true (-1) (-1) [] (by simp [last_marker])]
  simp [opened_child_trace]

/-- C9 (amended). For a successful FORK at index `i = |pre|`, the child sub-trace handed
to the recursive simulation consists, in trace order, of exactly those lines after `i`
that are not IF_CHILD/IF_PARENT/ENDIF markers and whose last marker in front of them
(after the FORK) is an IF_CHILD or an ENDIF.  Lines between the FORK and the first
marker are not part of it.  The result `r` of simulating that sub-trace is what the body
splices into its logs and clock. -/
theorem fork_child_trace {M : Type} (env : Env M) (sim : Callee M)
    (pre rest : List String) (line : String) (vectors : List String) (delays : List Int)
    (external_files : List external_file) (f : Frame M) (r : Result M)
    (hidx : f.idx = pre.length)
    (hact : (env.parse_trace line).1 = "FORK")
    (hsucc : (env.allocate_memory
      { f.current with PID := f.g.next_pid, partition_number := -1 } f.g.mem).1 = true)
    (hret : sim (opened_child_trace env.parse_trace rest)
      ((env.intr_boilerplate f.now 2 10 vectors).2 + (env.parse_trace line).2.1 + 1)
      vectors delays external_files
      (env.allocate_memory
        { f.current with PID := f.g.next_pid, partition_number := -1 } f.g.mem).2.1
      (f.wait_queue ++ [f.current])
      { f.g with
        next_pid := (f.g.next_pid + 1) % 2 ^ 32
        mem := (env.allocate_memory
          { f.current with PID := f.g.next_pid, partition_number := -1 } f.g.mem).2.2 } =
      .ok r) :
    (scan_child env.parse_trace ((pre ++ line :: rest).drop (f.idx + 1)) (f.idx + 1) true
      (-1) (-1) []).1 = opened_child_trace env.parse_trace rest ∧
    ∃ f1 : Frame M,
      body env sim (pre ++ line :: rest) vectors delays external_files line f =
        .ok (.next, f1) ∧
      f1.exec_log = f.exec_log ++ (env.intr_boilerplate f.now 2 10 vectors).1 ++
        [⟨(env.intr_boilerplate f.now 2 10 vectors).2, (env.parse_trace line).2.1,
          "cloning the PCB"⟩] ++
        [⟨(env.intr_boilerplate f.now 2 10 vectors).2 + (env.parse_trace line).2.1, 0,
          "scheduler called"⟩] ++
        [⟨(env.intr_boilerplate f.now 2 10 vectors).2 + (env.parse_trace line).2.1 + 1, 1,
          "IRET"⟩] ++ r.exec_log ∧
      f1.status_log = f.status_log ++
        [⟨(env.intr_boilerplate f.now 2 10 vectors).2 + (env.parse_trace line).2.1 + 1, line,
          env.print_PCB (env.allocate_memory
            { f.current with PID := f.g.next_pid, partition_number := -1 } f.g.mem).2.1
            (f.wait_queue ++ [f.current])⟩] ++ r.status_log ∧
      f1.now = r.end_time ∧
      f1.g = r.g := by
  have hdrop := drop_after_index pre rest line f.idx hidx
  have hsc : (scan_child env.parse_trace ((pre ++ line :: rest).drop (f.idx + 1)) (f.idx + 1)
      true (-1) (-1) []).1 = opened_child_trace env.parse_trace rest := by
    rw [hdrop]
    exact scan_child_opened env.parse_trace rest _
  refine ⟨hsc, ?_⟩
  rw [body_fork env sim _ vectors delays external_files line f hact,
    do_fork_success env sim _ vectors delays external_files line _ f r hsucc
      (by rw [hsc]; exact hret)]
  exact ⟨_, rfl, rfl, rfl, rfl, rfl⟩

/-- Witness of C9 (amended): a line between the FORK and IF_CHILD, a child branch, a
parent branch and a common tail. -/
theorem fork_child_trace_witness :
    (0 : Nat) = ([] : List String).length ∧
    (demo_env.parse_trace "FORK,3").1 = "FORK" ∧
    (demo_env.allocate_memory
      { init_pcb with PID := 1, partition_number := -1 } 3).1 = true ∧
    opened_child_trace demo_env.parse_trace
      ["CPU,9", "IF_CHILD", "CPU,1", "IF_PARENT", "CPU,2", "ENDIF", "CPU,3"] =
      ["CPU,1", "CPU,3"] ∧
    ∃ r : Result Nat,
      simulate_trace demo_env 1
        (opened_child_trace demo_env.parse_trace
          ["CPU,9", "IF_CHILD", "CPU,1", "IF_PARENT", "CPU,2", "ENDIF", "CPU,3"])
        ((demo_env.intr_boilerplate 0 2 10 ["a", "b", "c"]).2 +
          (demo_env.parse_trace "FORK,3").2.1 + 1)
        ["a", "b", "c"] [1, 2, 16] []
        (demo_env.allocate_memory
          { init_pcb with PID := 1, partition_number := -1 } 3).2.1
        ([] ++ [init_pcb])
        ⟨(1 + 1) % 2 ^ 32, (demo_env.allocate_memory
          { init_pcb with PID := 1, partition_number := -1 } 3).2.2, 0⟩ = .ok r ∧
      ((scan_child demo_env.parse_trace
        (([] ++ "FORK,3" ::
          ["CPU,9", "IF_CHILD", "CPU,1", "IF_PARENT", "CPU,2", "ENDIF", "CPU,3"]).drop (0 + 1))
        (0 + 1) true (-1) (-1) []).1 =
        opened_child_trace demo_env.parse_trace
          ["CPU,9", "IF_CHILD", "CPU,1", "IF_PARENT", "CPU,2", "ENDIF", "CPU,3"] ∧
      ∃ f1 : Frame Nat,
        body demo_env (simulate_trace demo_env 1)
          ([] ++ "FORK,3" ::
            ["CPU,9", "IF_CHILD", "CPU,1", "IF_PARENT", "CPU,2", "ENDIF", "CPU,3"])
          ["a", "b", "c"] [1, 2, 16] [] "FORK,3"
          ⟨[], [], 0, 0, init_pcb, [], ⟨1, 3, 0⟩⟩ = .ok (.next, f1) ∧
        f1.exec_log = [] ++ (demo_env.intr_boilerplate 0 2 10 ["a", "b", "c"]).1 ++
          [⟨(demo_env.intr_boilerplate 0 2 10 ["a", "b", "c"]).2,
            (demo_env.parse_trace "FORK,3").2.1, "cloning the PCB"⟩] ++
          [⟨(demo_env.intr_boilerplate 0 2 10 ["a", "b", "c"]).2 +
            (demo_env.parse_trace "FORK,3").2.1, 0, "scheduler called"⟩] ++
          [⟨(demo_env.intr_boilerplate 0 2 10 ["a", "b", "c"]).2 +
            (demo_env.parse_trace "FORK,3").2.1 + 1, 1, "IRET"⟩] ++ r.exec_log ∧
        f1.status_log = [] ++
          [⟨(demo_env.intr_boilerplate 0 2 10 ["a", "b", "c"]).2 +
            (demo_env.parse_trace "FORK,3").2.1 + 1, "FORK,3",
            demo_env.print_PCB (demo_env.allocate_memory
              { init_pcb with PID := 1, partition_number := -1 } 3).2.1
              ([] ++ [init_pcb])⟩] ++ r.status_log ∧
        f1.now = r.end_time ∧
        f1.g = r.g) :=
  ⟨rfl, by decide, by decide, by decide,
    ⟨[⟨17, 1, "CPU Burst"⟩, ⟨18, 3, "CPU Burst"⟩], [], 21, ⟨2, 3, 0⟩⟩, by decide,
    fork_child_trace demo_env (simulate_trace demo_env 1) []
      ["CPU,9", "IF_CHILD", "CPU,1", "IF_PARENT", "CPU,2", "ENDIF", "CPU,3"] "FORK,3"
      ["a", "b", "c"] [1, 2, 16] [] ⟨[], [], 0, 0, init_pcb, [], ⟨1, 3, 0⟩⟩
      ⟨[⟨17, 1, "CPU Burst"⟩, ⟨18, 3, "CPU Burst"⟩], [], 21, ⟨2, 3, 0⟩⟩
      rfl (by decide) (by decide) (by decide)⟩

/-- C9 (counterexample). In the trace below `CPU,9` stands between the FORK and the
first marker.  The claimed child sub-trace contains it; the child sub-trace built by the
scan does not, and no burst of 9 ticks occurs anywhere in the execution log of the
run. -/
theorem fork_child_trace_counterexample :
    claimed_child_trace demo_env.parse_trace
      ["CPU,9", "IF_CHILD", "CPU,1", "IF_PARENT", "CPU,2", "ENDIF", "CPU,3"] =
      ["CPU,9", "CPU,1", "CPU,3"] ∧
    (scan_child demo_env.parse_trace
      (["FORK,3", "CPU,9", "IF_CHILD", "CPU,1", "IF_PARENT", "CPU,2", "ENDIF",
        "CPU,3"].drop (0 + 1)) (0 + 1) true (-1) (-1) []).1 = ["CPU,1", "CPU,3"] ∧
    (simulate_trace demo_env 2
      ["FORK,3", "CPU,9", "IF_CHILD", "CPU,1", "IF_PARENT", "CPU,2", "ENDIF", "CPU,3"] 0
      ["a", "b", "c"] [1, 2, 16] [] init_pcb [] ⟨1, 3, 0⟩).map
        (fun r => r.exec_log.filter (fun st => st.text = "CPU Burst")) =
        .ok [⟨17, 1, "CPU Burst"⟩, ⟨18, 3, "CPU Burst"⟩, ⟨21, 2, "CPU Burst"⟩,
          ⟨23, 3, "CPU Burst"⟩] := by
  refine ⟨by decide, by decide, by decide⟩

/-! ### The parent branch of a conditional -/

/-- A branch marker reached by the main loop has no effect. -/
theorem body_marker {M : Type} (env : Env M) (sim : Callee M)
    (trace_file vectors : List String) (delays : List Int)
    (external_files : List external_file) (line : String) (f : Frame M)
    (h : is_marker (env.parse_trace line).1 = true) :
    body env sim trace_file vectors delays external_files line f = .ok (.next, f) := by
  have h1 : ¬ (env.parse_trace line).1 = "CPU" := by
    intro hc; rw [hc] at h; revert h; decide
  have h2 : ¬ (env.parse_trace line).1 = "SYSCALL" := by
    intro hc; rw [hc] at h; revert h; decide
  have h3 : ¬ (env.parse_trace line).1 = "END_IO" := by
    intro hc; rw [hc] at h; revert h; decide
  have h4 : ¬ (env.parse_trace line).1 = "FORK" := by
    intro hc; rw [hc] at h; revert h; decide
  have h5 : ¬ (env.parse_trace line).1 = "EXEC" := by
    intro hc; rw [hc] at h; revert h; decide
  unfold body
  simp only [if_neg h1, if_neg h2, if_neg h3, if_neg h4, if_neg h5]

/-- The effect of a straight-line instruction depends neither on the trace it stands in
nor on the loop index. -/
theorem body_straight_transport {M : Type} (env : Env M) (sim sim1 : Callee M)
    (trace_file trace_file1 vectors : List String) (delays : List Int)
    (external_files : List external_file) (line : String) (f f1 : Frame M) (i : Nat)
    (h : straight_line env.parse_trace vectors delays line)
    (hb : body env sim trace_file vectors delays external_files line f = .ok (.next, f1)) :
    body env sim1 trace_file1 vectors delays external_files line { f with idx := i } =
      .ok (.next, { f1 with idx := i }) := by
  rcases h with hcpu | ⟨hact, h0, hv, hd, hpos⟩
  · rw [body_cpu env sim trace_file vectors delays external_files line f hcpu] at hb
    rw [body_cpu env sim1 trace_file1 vectors delays external_files line _ hcpu]
    cases hb
    rfl
  · have hvec : vectors[(env.parse_trace line).2.1.toNat]? =
        some (vectors[(env.parse_trace line).2.1.toNat]) := List.getElem?_eq_getElem hv
    have hdel : delays[(env.parse_trace line).2.1.toNat]? =
        some (delays.getD (env.parse_trace line).2.1.toNat 0) := by
      rw [List.getD_eq_getElem?_getD, List.getElem?_eq_getElem hd]; rfl
    obtain ⟨t1, t2, t3, hs, -⟩ :=
      device_split_sum (env.rand f.g.rand_calls) (env.rand (f.g.rand_calls + 1)) _ hpos
    rcases hact with hsys | hend
    · rw [body_syscall env sim trace_file vectors delays external_files line f hsys,
        do_syscall_eq env vectors delays f _ _ t1 t2 t3 _ h0 hvec hdel hs] at hb
      rw [body_syscall env sim1 trace_file1 vectors delays external_files line _ hsys,
        do_syscall_eq env vectors delays { f with idx := i } _ _ t1 t2 t3 _ h0 hvec hdel hs]
      cases hb
      rfl
    · rw [body_endio env sim trace_file vectors delays external_files line f hend,
        do_endio_eq env vectors delays f _ _ t1 t2 t3 _ h0 hvec hdel hs] at hb
      rw [body_endio env sim1 trace_file1 vectors delays external_files line _ hend,
        do_endio_eq env vectors delays { f with idx := i } _ _ t1 t2 t3 _ h0 hvec hdel hs]
      cases hb
      rfl

theorem getElem?_of_drop_eq_cons {α : Type} (T : List α) (i : Nat) (l : α) (L : List α)
    (h : T.drop i = l :: L) : T[i]? = some l ∧ T.drop (i + 1) = L := by
  have h1 : T[i]? = (T.drop i)[0]? := by simp
  constructor
  · rw [h1, h]; simp
  · have h2 : T.drop (i + 1) = (T.drop i).drop 1 := by simp [List.drop_drop, Nat.add_comm]
    rw [h2, h]; rfl

/-- Two runs of the main loop that stand in front of the same block of straight-line
code, in the same frame up to the loop index, pass the block in step and leave it in the
same frame up to the loop index. -/
theorem loop_sync {M : Type} (env : Env M) (sim1 sim2 : Callee M)
    (T1 T2 vectors : List String) (delays : List Int)
    (external_files : List external_file) :
    ∀ (L : List String), (∀ l ∈ L, straight_line env.parse_trace vectors delays l) →
    ∀ (k1 k2 : Nat) (f : Frame M) (i j : Nat) (rest1 rest2 : List String),
      T1.drop i = L ++ rest1 → T2.drop j = L ++ rest2 →
      ∃ f1 : Frame M,
        loop env sim1 T1 vectors delays external_files (L.length + k1) { f with idx := i } =
          loop env sim1 T1 vectors delays external_files k1
            { f1 with idx := i + L.length } ∧
        loop env sim2 T2 vectors delays external_files (L.length + k2) { f with idx := j } =
          loop env sim2 T2 vectors delays external_files k2
            { f1 with idx := j + L.length } := by
  intro L
  induction L with
  | nil =>
    intro _ k1 k2 f i j rest1 rest2 _ _
    exact ⟨f, by simp, by simp⟩
  | cons l L ih =>
    intro hL k1 k2 f i j rest1 rest2 h1 h2
    obtain ⟨hg1, hd1⟩ := getElem?_of_drop_eq_cons T1 i l (L ++ rest1) h1
    obtain ⟨hg2, hd2⟩ := getElem?_of_drop_eq_cons T2 j l (L ++ rest2) h2
    have hl := hL l (List.mem_cons_self l L)
    obtain ⟨fa, hb, -⟩ :=
      body_straight env sim1 T1 vectors delays external_files l f hl
    have hb1 := body_straight_transport env sim1 sim1 T1 T1 vectors delays external_files
      l f fa i hl hb
    have hb2 := body_straight_transport env sim1 sim2 T1 T2 vectors delays external_files
      l f fa j hl hb
    obtain ⟨f1, e1, e2⟩ := ih (fun x hx => hL x (List.mem_cons_of_mem l hx)) k1 k2 fa
      (i + 1) (j + 1) rest1 rest2 hd1 hd2
    refine ⟨f1, ?_, ?_⟩
    · have hk : (l :: L).length + k1 = (L.length + k1) + 1 := by
        simp only [List.length_cons]; omega
      have hi : i + (l :: L).length = i + 1 + L.length := by
        simp only [List.length_cons]; omega
      rw [hk, hi, ← e1]
      simp only [loop, hg1, hb1]
    · have hk : (l :: L).length + k2 = (L.length + k2) + 1 := by
        simp only [List.length_cons]; omega
      have hj : j + (l :: L).length = j + 1 + L.length := by
        simp only [List.length_cons]; omega
      rw [hk, hj, ← e2]
      simp only [loop, hg2, hb2]

theorem straight_line_not_marker (parse : String → String × Int × String)
    (vectors : List String) (delays : List Int) (l : String)
    (h : straight_line parse vectors delays l) :
    (parse l).1 ≠ "IF_CHILD" ∧ (parse l).1 ≠ "IF_PARENT" ∧ (parse l).1 ≠ "ENDIF" := by
  rcases h with h | ⟨h | h, -⟩ <;> rw [h] <;> decide

/-- A trailing block without branch markers ends the scan. -/
theorem scan_child_tail (parse : String → String × Int × String)
    (A : List String) (j : Nat) (muted : Bool) (pp ep : Int) (ch : List String)
    (h : ∀ l ∈ A, (parse l).1 ≠ "IF_CHILD" ∧ (parse l).1 ≠ "IF_PARENT" ∧
      (parse l).1 ≠ "ENDIF") :
    scan_child parse A j muted pp ep ch = (if muted then ch else ch ++ A, pp, ep) := by
  have h1 := scan_child_block parse [] A j muted pp ep ch h
  rw [List.append_nil] at h1
  rw [h1]
  rfl

/-- The scan of a successful FORK over a conditional of the shape
`X ++ [IF_PARENT] ++ P ++ [ENDIF] ++ R`, where `X` is empty or `[IF_CHILD] ++ C`:
the child trace is `C ++ R`, the resume position is the IF_PARENT. -/
theorem scan_child_shape (parse : String → String × Int × String)
    (ifp endif : String) (X C P R : List String) (j : Nat)
    (hifp : (parse ifp).1 = "IF_PARENT") (hend : (parse endif).1 = "ENDIF")
    (hX : (X = [] ∧ C = []) ∨ (∃ ic, (parse ic).1 = "IF_CHILD" ∧ X = ic :: C))
    (hC : ∀ l ∈ C, (parse l).1 ≠ "IF_CHILD" ∧ (parse l).1 ≠ "IF_PARENT" ∧
      (parse l).1 ≠ "ENDIF")
    (hP : ∀ l ∈ P, (parse l).1 ≠ "IF_CHILD" ∧ (parse l).1 ≠ "IF_PARENT" ∧
      (parse l).1 ≠ "ENDIF")
    (hR : ∀ l ∈ R, (parse l).1 ≠ "IF_CHILD" ∧ (parse l).1 ≠ "IF_PARENT" ∧
      (parse l).1 ≠ "ENDIF") :
    scan_child parse (X ++ (ifp :: (P ++ (endif :: R)))) j true (-1) (-1) [] =
      (C ++ R, ((j + X.length : Nat) : Int), ((j + X.length + 1 + P.length : Nat) : Int)) := by
  have hifc : (parse ifp).1 ≠ "IF_CHILD" := by rw [hifp]; decide
  have hec : (parse endif).1 ≠ "IF_CHILD" := by rw [hend]; decide
  have hep : (parse endif).1 ≠ "IF_PARENT" := by rw [hend]; decide
  have key : ∀ (j : Nat) (muted : Bool) (ch : List String),
      scan_child parse (ifp :: (P ++ (endif :: R))) j muted (-1) (-1) ch =
        (ch ++ R, ((j : Nat) : Int), ((j + 1 + P.length : Nat) : Int)) := by
    intro j muted ch
    rw [scan_child, if_neg hifc, if_pos hifp, scan_child_block parse _ P _ _ _ _ _ hP,
      scan_child, if_neg hec, if_neg hep, if_pos hend,
      scan_child_tail parse R _ _ _ _ _ hR]
    simp [natCast_ne_neg_one]
  rcases hX with ⟨rfl, rfl⟩ | ⟨ic, hic, rfl⟩
  · rw [List.nil_append, key]
    simp
  · rw [List.cons_append, scan_child, if_pos hic, scan_child_block parse _ C _ _ _ _ _ hC,
      key]
    simp only [Bool.false_eq_true, if_false, List.nil_append, List.length_cons]
    have h1 : j + 1 + C.length = j + (C.length + 1) := by omega
    rw [h1]

/-- A marker line costs the main loop one iteration and nothing else. -/
theorem loop_step_marker {M : Type} (env : Env M) (sim : Callee M)
    (trace_file vectors : List String) (delays : List Int)
    (external_files : List external_file) (k i : Nat) (f : Frame M) (l : String)
    (hget : trace_file[i]? = some l) (hm : is_marker (env.parse_trace l).1 = true) :
    loop env sim trace_file vectors delays external_files (k + 1) { f with idx := i } =
      loop env sim trace_file vectors delays external_files k { f with idx := i + 1 } := by
  simp only [loop, hget,
    body_marker env sim trace_file vectors delays external_files l _ hm]

/-- The main loop standing in front of `P ++ [ENDIF] ++ R`, with `P` and `R`
straight-line code, ends in the same frame (up to the loop index) as the main loop run on
the trace `P ++ R` from the same frame. -/
theorem parent_branch_run {M : Type} (env : Env M) (sim : Callee M)
    (front P R vectors : List String) (endif : String) (delays : List Int)
    (external_files : List external_file)
    (hend : (env.parse_trace endif).1 = "ENDIF")
    (hP : ∀ l ∈ P, straight_line env.parse_trace vectors delays l)
    (hR : ∀ l ∈ R, straight_line env.parse_trace vectors delays l)
    (fr : Frame M) (k1 k2 : Nat)
    (hk1 : P.length + 1 + R.length ≤ k1) (hk2 : P.length + R.length ≤ k2) :
    ∃ f2 f3 : Frame M,
      loop env sim (front ++ (P ++ (endif :: R))) vectors delays external_files k1
        { fr with idx := front.length } = .ok (.next, f2) ∧
      loop env sim (P ++ R) vectors delays external_files k2 { fr with idx := 0 } =
        .ok (.next, f3) ∧
      f2.exec_log = f3.exec_log ∧ f2.status_log = f3.status_log ∧ f2.now = f3.now ∧
      f2.current = f3.current ∧ f2.wait_queue = f3.wait_queue ∧ f2.g = f3.g := by
  obtain ⟨a, ha⟩ := Nat.exists_eq_add_of_le hk1
  obtain ⟨b, hb⟩ := Nat.exists_eq_add_of_le hk2
  have e1 : k1 = P.length + ((R.length + a) + 1) := by omega
  have e2 : k2 = P.length + (R.length + b) := by omega
  have hm : is_marker (env.parse_trace endif).1 = true := by rw [hend]; decide
  have hd1 : (front ++ (P ++ (endif :: R))).drop front.length = P ++ (endif :: R) :=
    List.drop_left' rfl
  have hd2 : (P ++ R).drop 0 = P ++ R := rfl
  have hd3 : (front ++ (P ++ (endif :: R))).drop (front.length + P.length) = endif :: R := by
    have : front ++ (P ++ (endif :: R)) = (front ++ P) ++ (endif :: R) := by simp
    rw [this]
    exact List.drop_left' (by simp)
  obtain ⟨hget, hd4⟩ := getElem?_of_drop_eq_cons _ _ _ _ hd3
  have hd5 : (P ++ R).drop (0 + P.length) = R ++ [] := by
    rw [List.append_nil]
    exact List.drop_left' (by simp)
  obtain ⟨fa, ea1, ea2⟩ := loop_sync env sim sim (front ++ (P ++ (endif :: R))) (P ++ R)
    vectors delays external_files P hP ((R.length + a) + 1) (R.length + b) fr
    front.length 0 (endif :: R) R hd1 hd2
  obtain ⟨fb, eb1, eb2⟩ := loop_sync env sim sim (front ++ (P ++ (endif :: R))) (P ++ R)
    vectors delays external_files R hR a b fa
    (front.length + P.length + 1) (0 + P.length) [] [] (by rw [List.append_nil]; exact hd4)
    hd5
  refine ⟨{ fb with idx := front.length + P.length + 1 + R.length },
    { fb with idx := 0 + P.length + R.length }, ?_, ?_, rfl, rfl, rfl, rfl, rfl, rfl⟩
  · rw [e1, ea1,
      loop_step_marker env sim _ vectors delays external_files _ _ fa endif hget hm, eb1]
    exact loop_past_end env sim _ vectors delays external_files _ _
      (by simp only [List.length_append, List.length_cons]; omega)
  · rw [e2, ea2, eb2]
    exact loop_past_end env sim _ vectors delays external_files _ _
      (by simp only [List.length_append]; omega)

/-- C10 (amended). Let the trace be `[FORK] ++ X ++ [IF_PARENT] ++ P ++ [ENDIF] ++ R`
with `X` empty or `[IF_CHILD] ++ C`, `C` without branch markers, and `P`, `R` made only of
CPU, SYSCALL and END_IO lines (operands in range, positive delays).  When the child's
allocation succeeds, the child sub-trace handed to the recursive simulation is `C ++ R`,
its result is spliced into the logs, the loop index is left at the IF_PARENT, and from
there the main loop, given enough iterations, runs to the end of the trace and ends in
the frame in which a run of the main loop over the trace `P ++ R` ends: the parent
executes exactly the instructions `P ++ R` in order. -/
theorem fork_conditional {M : Type} (env : Env M) (sim : Callee M)
    (fork ifp endif : String) (X C P R vectors : List String) (delays : List Int)
    (external_files : List external_file) (f : Frame M) (r : Result M)
    (hidx : f.idx = 0)
    (hfork : (env.parse_trace fork).1 = "FORK")
    (hifp : (env.parse_trace ifp).1 = "IF_PARENT")
    (hend : (env.parse_trace endif).1 = "ENDIF")
    (hX : (X = [] ∧ C = []) ∨ (∃ ic, (env.parse_trace ic).1 = "IF_CHILD" ∧ X = ic :: C))
    (hC : ∀ l ∈ C, (env.parse_trace l).1 ≠ "IF_CHILD" ∧ (env.parse_trace l).1 ≠ "IF_PARENT" ∧
      (env.parse_trace l).1 ≠ "ENDIF")
    (hP : ∀ l ∈ P, straight_line env.parse_trace vectors delays l)
    (hR : ∀ l ∈ R, straight_line env.parse_trace vectors delays l)
    (hsucc : (env.allocate_memory
      { f.current with PID := f.g.next_pid, partition_number := -1 } f.g.mem).1 = true)
    (hret : sim (C ++ R)
      ((env.intr_boilerplate f.now 2 10 vectors).2 + (env.parse_trace fork).2.1 + 1)
      vectors delays external_files
      (env.allocate_memory
        { f.current with PID := f.g.next_pid, partition_number := -1 } f.g.mem).2.1
      (f.wait_queue ++ [f.current])
      { f.g with
        next_pid := (f.g.next_pid + 1) % 2 ^ 32
        mem := (env.allocate_memory
          { f.current with PID := f.g.next_pid, partition_number := -1 } f.g.mem).2.2 } =
      .ok r) :
    (scan_child env.parse_trace
      ((fork :: (X ++ (ifp :: (P ++ (endif :: R))))).drop (f.idx + 1)) (f.idx + 1) true
      (-1) (-1) []).1 = C ++ R ∧
    ∃ f1 : Frame M,
      body env sim (fork :: (X ++ (ifp :: (P ++ (endif :: R))))) vectors delays
        external_files fork f = .ok (.next, f1) ∧
      f1.idx = 1 + X.length ∧
      f1.exec_log = f.exec_log ++ (env.intr_boilerplate f.now 2 10 vectors).1 ++
        [⟨(env.intr_boilerplate f.now 2 10 vectors).2, (env.parse_trace fork).2.1,
          "cloning the PCB"⟩] ++
        [⟨(env.intr_boilerplate f.now 2 10 vectors).2 + (env.parse_trace fork).2.1, 0,
          "scheduler called"⟩] ++
        [⟨(env.intr_boilerplate f.now 2 10 vectors).2 + (env.parse_trace fork).2.1 + 1, 1,
          "IRET"⟩] ++ r.exec_log ∧
      f1.now = r.end_time ∧
      f1.current = f.current ∧
      ∀ k1 k2 : Nat, P.length + 1 + R.length ≤ k1 → P.length + R.length ≤ k2 →
        ∃ f2 f3 : Frame M,
          loop env sim (fork :: (X ++ (ifp :: (P ++ (endif :: R))))) vectors delays
            external_files k1 { f1 with idx := f1.idx + 1 } = .ok (.next, f2) ∧
          loop env sim (P ++ R) vectors delays external_files k2 { f1 with idx := 0 } =
            .ok (.next, f3) ∧
          f2.exec_log = f3.exec_log ∧ f2.status_log = f3.status_log ∧ f2.now = f3.now ∧
          f2.current = f3.current ∧ f2.wait_queue = f3.wait_queue ∧ f2.g = f3.g := by
  have hPm := fun l hl => straight_line_not_marker env.parse_trace vectors delays l (hP l hl)
  have hRm := fun l hl => straight_line_not_marker env.parse_trace vectors delays l (hR l hl)
  have hsc : scan_child env.parse_trace
      ((fork :: (X ++ (ifp :: (P ++ (endif :: R))))).drop (f.idx + 1)) (f.idx + 1) true
      (-1) (-1) [] =
      (C ++ R, ((f.idx + 1 + X.length : Nat) : Int),
        ((f.idx + 1 + X.length + 1 + P.length : Nat) : Int)) := by
    have hd : (fork :: (X ++ (ifp :: (P ++ (endif :: R))))).drop (f.idx + 1) =
        X ++ (ifp :: (P ++ (endif :: R))) := by rw [hidx]; rfl
    rw [hd]
    exact scan_child_shape env.parse_trace ifp endif X C P R _ hifp hend hX hC hPm hRm
  refine ⟨by rw [hsc], ?_⟩
  rw [body_fork env sim _ vectors delays external_files fork f hfork,
    do_fork_success env sim _ vectors delays external_files fork _ f r hsucc
      (by rw [hsc]; exact hret), hsc]
  have hi : (if ((f.idx + 1 + X.length : Nat) : Int) ≠ -1 then
        ((f.idx + 1 + X.length : Nat) : Int).toNat
      else if ((f.idx + 1 + X.length + 1 + P.length : Nat) : Int) ≠ -1 then
        ((f.idx + 1 + X.length + 1 + P.length : Nat) : Int).toNat
      else f.idx) = 1 + X.length := by
    rw [if_pos (natCast_ne_neg_one _), Int.toNat_ofNat]
    omega
  refine ⟨_, rfl, hi, rfl, rfl, rfl, ?_⟩
  intro k1 k2 hk1 hk2
  have hT : fork :: (X ++ (ifp :: (P ++ (endif :: R)))) =
      (fork :: (X ++ [ifp])) ++ (P ++ (endif :: R)) := by simp
  have hlen : (fork :: (X ++ [ifp])).length = 1 + X.length + 1 := by
    simp only [List.length_cons, List.length_append, List.length_nil]; omega
  simp only [hi]
  rw [hT, ← hlen]
  exact parent_branch_run env sim (fork :: (X ++ [ifp])) P R vectors endif delays
    external_files hend hP hR ⟨_, _, _, 0, _, _, _⟩ k1 k2 hk1 hk2

/-- Witness of C10 (amended): the trace `["FORK,3", "IF_PARENT", "CPU,1", "ENDIF"]`.  The
child sub-trace is empty, the loop index is left at 1, and from there the parent runs as
on the trace `["CPU,1"]`. -/
theorem fork_conditional_witness :
    (0 : Nat) = 0 ∧
    (demo_env.parse_trace "FORK,3").1 = "FORK" ∧
    (demo_env.parse_trace "IF_PARENT").1 = "IF_PARENT" ∧
    (demo_env.parse_trace "ENDIF").1 = "ENDIF" ∧
    ((([] : List String) = [] ∧ ([] : List String) = []) ∨
      (∃ ic, (demo_env.parse_trace ic).1 = "IF_CHILD" ∧ ([] : List String) = ic :: [])) ∧
    (∀ l ∈ ["CPU,1"], straight_line demo_env.parse_trace ["a", "b", "c"] [1, 2, 16] l) ∧
    (demo_env.allocate_memory
      { init_pcb with PID := 1, partition_number := -1 } 3).1 = true ∧
    simulate_trace demo_env 1 ([] ++ []) 17 ["a", "b", "c"] [1, 2, 16] []
      ⟨1, -1, "init", 1, 3⟩ [init_pcb] ⟨2, 2, 0⟩ = .ok ⟨[], [], 17, ⟨2, 3, 0⟩⟩ ∧
    ((scan_child demo_env.parse_trace
      (("FORK,3" :: ([] ++ ("IF_PARENT" :: (["CPU,1"] ++ ("ENDIF" :: []))))).drop (0 + 1))
      (0 + 1) true (-1) (-1) []).1 = [] ++ [] ∧
    ∃ f1 : Frame Nat,
      body demo_env (simulate_trace demo_env 1)
        ("FORK,3" :: ([] ++ ("IF_PARENT" :: (["CPU,1"] ++ ("ENDIF" :: [])))))
        ["a", "b", "c"] [1, 2, 16] [] "FORK,3"
        ⟨[], [], 0, 0, init_pcb, [], ⟨1, 3, 0⟩⟩ = .ok (.next, f1) ∧
      f1.idx = 1 + ([] : List String).length ∧
      f1.exec_log = [] ++ (demo_env.intr_boilerplate 0 2 10 ["a", "b", "c"]).1 ++
        [⟨(demo_env.intr_boilerplate 0 2 10 ["a", "b", "c"]).2,
          (demo_env.parse_trace "FORK,3").2.1, "cloning the PCB"⟩] ++
        [⟨(demo_env.intr_boilerplate 0 2 10 ["a", "b", "c"]).2 +
          (demo_env.parse_trace "FORK,3").2.1, 0, "scheduler called"⟩] ++
        [⟨(demo_env.intr_boilerplate 0 2 10 ["a", "b", "c"]).2 +
          (demo_env.parse_trace "FORK,3").2.1 + 1, 1, "IRET"⟩] ++ [] ∧
      f1.now = 17 ∧
      f1.current = init_pcb ∧
      ∀ k1 k2 : Nat, ["CPU,1"].length + 1 + ([] : List String).length ≤ k1 →
        ["CPU,1"].length + ([] : List String).length ≤ k2 →
        ∃ f2 f3 : Frame Nat,
          loop demo_env (simulate_trace demo_env 1)
            ("FORK,3" :: ([] ++ ("IF_PARENT" :: (["CPU,1"] ++ ("ENDIF" :: [])))))
            ["a", "b", "c"] [1, 2, 16] [] k1 { f1 with idx := f1.idx + 1 } =
            .ok (.next, f2) ∧
          loop demo_env (simulate_trace demo_env 1) (["CPU,1"] ++ [])
            ["a", "b", "c"] [1, 2, 16] [] k2 { f1 with idx := 0 } = .ok (.next, f3) ∧
          f2.exec_log = f3.exec_log ∧ f2.status_log = f3.status_log ∧ f2.now = f3.now ∧
          f2.current = f3.current ∧ f2.wait_queue = f3.wait_queue ∧ f2.g = f3.g) := by
  have hP : ∀ l ∈ ["CPU,1"],
      straight_line demo_env.parse_trace ["a", "b", "c"] [1, 2, 16] l := by
    intro l hl
    simp only [List.mem_singleton] at hl
    subst hl
    exact Or.inl (by decide)
  exact ⟨rfl, by decide, by decide, by decide, Or.inl ⟨rfl, rfl⟩, hP, by decide, by decide,
    fork_conditional demo_env (simulate_trace demo_env 1) "FORK,3" "IF_PARENT" "ENDIF"
      [] [] ["CPU,1"] [] ["a", "b", "c"] [1, 2, 16] []
      ⟨[], [], 0, 0, init_pcb, [], ⟨1, 3, 0⟩⟩ ⟨[], [], 17, ⟨2, 3, 0⟩⟩
      rfl (by decide) (by decide) (by decide) (Or.inl ⟨rfl, rfl⟩)
      (by intro l hl; cases hl) hP (by intro l hl; cases hl) (by decide) (by decide)⟩

/-- C10 (counterexample). With `X` empty and `R` empty, the parent branch
`P = [EXEC program1, CPU,1]` contains no branch marker, yet the parent never executes
`CPU,1`: the only burst in the log is the 7-tick burst of `program1`.  Likewise with
`P = [FORK,1, CPU,2]` the parent never executes `CPU,2`: the inner FORK resumes at the
ENDIF, and the log holds no burst at all, whereas a run of the trace `P` alone does
execute `CPU,2`. -/
theorem fork_conditional_counterexample :
    (∀ l ∈ ["EXEC program1, 50", "CPU,1", "FORK,1", "CPU,2"],
      is_marker (demo_env.parse_trace l).1 = false) ∧
    (simulate_trace demo_env 3
      ["FORK,3", "IF_PARENT", "EXEC program1, 50", "CPU,1", "ENDIF"] 0
      ["a", "b", "c"] [1, 2, 16] [⟨"program1", 2⟩] init_pcb [] ⟨1, 3, 0⟩).map
        (fun r => r.exec_log.filter (fun st => st.text = "CPU Burst")) =
        .ok [⟨120, 7, "CPU Burst"⟩] ∧
    (simulate_trace demo_env 3
      ["FORK,3", "IF_PARENT", "FORK,1", "CPU,2", "ENDIF"] 0
      ["a", "b", "c"] [1, 2, 16] [] init_pcb [] ⟨1, 3, 0⟩).map
        (fun r => r.exec_log.filter (fun st => st.text = "CPU Burst")) = .ok [] ∧
    (simulate_trace demo_env 3 ["FORK,1", "CPU,2"] 0
      ["a", "b", "c"] [1, 2, 16] [] init_pcb [] ⟨1, 3, 0⟩).map
        (fun r => r.exec_log.filter (fun st => st.text = "CPU Burst")) =
        .ok [⟨15, 2, "CPU Burst"⟩] := by
  refine ⟨by decide, by decide, by decide, by decide⟩

/-! ### EXEC -/

/-- The EXEC branch is what the body runs on an EXEC line. -/
theorem body_exec {M : Type} (env : Env M) (sim : Callee M)
    (trace_file vectors : List String) (delays : List Int)
    (external_files : List external_file) (line : String) (f : Frame M)
    (hact : (env.parse_trace line).1 = "EXEC") :
    body env sim trace_file vectors delays external_files line f =
      do_exec env sim vectors delays external_files line
        (env.parse_trace line).2.1 (env.parse_trace line).2.2 f := by
  have h1 : ¬ (env.parse_trace line).1 = "CPU" := by rw [hact]; decide
  have h2 : ¬ (env.parse_trace line).1 = "SYSCALL" := by rw [hact]; decide
  have h3 : ¬ (env.parse_trace line).1 = "END_IO" := by rw [hact]; decide
  have h4 : ¬ (env.parse_trace line).1 = "FORK" := by rw [hact]; decide
  unfold body
  simp only [if_neg h1, if_neg h2, if_neg h3, if_neg h4, if_pos hact]

/-- The EXEC branch, written with `exec_alloc`. -/
theorem do_exec_unfold {M : Type} (env : Env M) (sim : Callee M)
    (vectors : List String) (delays : List Int) (external_files : List external_file)
    (line : String) (d : Int) (name : String) (f : Frame M) :
    do_exec env sim vectors delays external_files line d name f =
      if (exec_alloc env external_files name f).1 = false then
        .ok (.ret, { f with
          exec_log := f.exec_log ++ (env.intr_boilerplate f.now 3 10 vectors).1 ++
            [⟨(env.intr_boilerplate f.now 3 10 vectors).2, d,
              "Program is " ++ toString (env.get_size name external_files) ++ " Mb large"⟩] ++
            [⟨(env.intr_boilerplate f.now 3 10 vectors).2 + d, 0,
              "EXEC failed: Memory allocation failed for " ++ name⟩]
          status_log := f.status_log ++
            [⟨(env.intr_boilerplate f.now 3 10 vectors).2 + d, line,
              env.print_PCB (exec_alloc env external_files name f).2.1 f.wait_queue⟩]
          now := (env.intr_boilerplate f.now 3 10 vectors).2 + d
          current := (exec_alloc env external_files name f).2.1
          g := { f.g with mem := (exec_alloc env external_files name f).2.2 } })
      else
        match sim (env.read_lines (name ++ ".txt"))
          ((env.intr_boilerplate f.now 3 10 vectors).2 + d +
            to_int (env.get_size name external_files) * 15 + 3 + 6 + 1)
          vectors delays external_files (exec_alloc env external_files name f).2.1
          f.wait_queue { f.g with mem := (exec_alloc env external_files name f).2.2 } with
        | .error e => .error e
        | .ok r =>
          .ok (.brk, { f with
            exec_log := f.exec_log ++ (env.intr_boilerplate f.now 3 10 vectors).1 ++
              [⟨(env.intr_boilerplate f.now 3 10 vectors).2, d,
                "Program is " ++ toString (env.get_size name external_files) ++
                  " Mb large"⟩] ++
              [ ⟨(env.intr_boilerplate f.now 3 10 vectors).2 + d,
                  to_int (env.get_size name external_files) * 15,
                  "loading program into memory"⟩,
                ⟨(env.intr_boilerplate f.now 3 10 vectors).2 + d +
                  to_int (env.get_size name external_files) * 15, 3,
                  "marking partition as occupied"⟩,
                ⟨(env.intr_boilerplate f.now 3 10 vectors).2 + d +
                  to_int (env.get_size name external_files) * 15 + 3, 6,
                  "updating PCB"⟩,
                ⟨(env.intr_boilerplate f.now 3 10 vectors).2 + d +
                  to_int (env.get_size name external_files) * 15 + 3 + 6, 0,
                  "scheduler called"⟩,
                ⟨(env.intr_boilerplate f.now 3 10 vectors).2 + d +
                  to_int (env.get_size name external_files) * 15 + 3 + 6, 1,
                  "IRET"⟩ ] ++
              r.exec_log
            status_log := f.status_log ++
              [⟨(env.intr_boilerplate f.now 3 10 vectors).2 + d +
                  to_int (env.get_size name external_files) * 15 + 3 + 6 + 1, line,
                env.print_PCB (exec_alloc env external_files name f).2.1 f.wait_queue⟩] ++
              r.status_log
            now := r.end_time
            current := (exec_alloc env external_files name f).2.1
            g := r.g }) := by
  rfl

/-- What a failed EXEC leaves, and that it returns. -/
theorem do_exec_failed {M : Type} (env : Env M) (sim : Callee M)
    (vectors : List String) (delays : List Int) (external_files : List external_file)
    (line : String) (d : Int) (name : String) (f : Frame M)
    (hfail : (exec_alloc env external_files name f).1 = false) :
    do_exec env sim vectors delays external_files line d name f =
      .ok (.ret, { f with
        exec_log := f.exec_log ++ (env.intr_boilerplate f.now 3 10 vectors).1 ++
          [⟨(env.intr_boilerplate f.now 3 10 vectors).2, d,
            "Program is " ++ toString (env.get_size name external_files) ++ " Mb large"⟩] ++
          [⟨(env.intr_boilerplate f.now 3 10 vectors).2 + d, 0,
            "EXEC failed: Memory allocation failed for " ++ name⟩]
        status_log := f.status_log ++
          [⟨(env.intr_boilerplate f.now 3 10 vectors).2 + d, line,
            env.print_PCB (exec_alloc env external_files name f).2.1 f.wait_queue⟩]
        now := (env.intr_boilerplate f.now 3 10 vectors).2 + d
        current := (exec_alloc env external_files name f).2.1
        g := { f.g with mem := (exec_alloc env external_files name f).2.2 } }) := by
  rw [do_exec_unfold, if_pos hfail]

/-- C11. When the main loop stands on an EXEC line whose allocation fails, the loop is
left by `return` at once.  The frame returned has the execution log accumulated before
the EXEC followed by the prologue steps, the program-size step and one `EXEC failed`
step of duration 0; the status log has gained exactly one snapshot; the clock is the
clock after the program-size step.  The same frame results for every other rest of the
trace and every behaviour of the recursive simulation, so that no later line of the trace
and no line of the named program contributes; and an invocation of `simulate_trace`
whose main loop comes to stand in that frame returns these logs and this clock. -/
theorem exec_failure_returns {M : Type} (env : Env M) (sim : Callee M)
    (trace_file vectors : List String) (delays : List Int)
    (external_files : List external_file) (line : String) (f : Frame M) (k : Nat)
    (hline : trace_file[f.idx]? = some line)
    (hact : (env.parse_trace line).1 = "EXEC")
    (hfail : (exec_alloc env external_files (env.parse_trace line).2.2 f).1 = false) :
    ∃ f1 : Frame M,
      loop env sim trace_file vectors delays external_files (k + 1) f = .ok (.ret, f1) ∧
      f1.exec_log = f.exec_log ++ (env.intr_boilerplate f.now 3 10 vectors).1 ++
        [⟨(env.intr_boilerplate f.now 3 10 vectors).2, (env.parse_trace line).2.1,
          "Program is " ++
            toString (env.get_size (env.parse_trace line).2.2 external_files) ++
            " Mb large"⟩] ++
        [⟨(env.intr_boilerplate f.now 3 10 vectors).2 + (env.parse_trace line).2.1, 0,
          "EXEC failed: Memory allocation failed for " ++ (env.parse_trace line).2.2⟩] ∧
      f1.status_log = f.status_log ++
        [⟨(env.intr_boilerplate f.now 3 10 vectors).2 + (env.parse_trace line).2.1, line,
          env.print_PCB (exec_alloc env external_files (env.parse_trace line).2.2 f).2.1
            f.wait_queue⟩] ∧
      f1.now = (env.intr_boilerplate f.now 3 10 vectors).2 + (env.parse_trace line).2.1 ∧
      (∀ (sim1 : Callee M) (trace_file1 : List String) (k1 : Nat),
        trace_file1[f.idx]? = some line →
        loop env sim1 trace_file1 vectors delays external_files (k1 + 1) f =
          .ok (.ret, f1)) ∧
      (∀ (n : Nat) (start_time : Int) (current : PCB) (wait_queue : List PCB)
        (g : Globals M),
        loop env (simulate_trace env n) trace_file vectors delays external_files
            trace_file.length ⟨[], [], start_time, 0, current, wait_queue, g⟩ =
          loop env (simulate_trace env n) trace_file vectors delays external_files
            (k + 1) f →
        simulate_trace env (n + 1) trace_file start_time vectors delays external_files
            current wait_queue g =
          .ok ⟨f1.exec_log, f1.status_log, f1.now, f1.g⟩) := by
  have hloop : ∀ (sim1 : Callee M) (trace_file1 : List String) (k1 : Nat),
      trace_file1[f.idx]? = some line →
      loop env sim1 trace_file1 vectors delays external_files (k1 + 1) f =
        .ok (.ret, { f with
          exec_log := f.exec_log ++ (env.intr_boilerplate f.now 3 10 vectors).1 ++
            [⟨(env.intr_boilerplate f.now 3 10 vectors).2, (env.parse_trace line).2.1,
              "Program is " ++
                toString (env.get_size (env.parse_trace line).2.2 external_files) ++
                " Mb large"⟩] ++
            [⟨(env.intr_boilerplate f.now 3 10 vectors).2 + (env.parse_trace line).2.1, 0,
              "EXEC failed: Memory allocation failed for " ++ (env.parse_trace line).2.2⟩]
          status_log := f.status_log ++
            [⟨(env.intr_boilerplate f.now 3 10 vectors).2 + (env.parse_trace line).2.1, line,
              env.print_PCB
                (exec_alloc env external_files (env.parse_trace line).2.2 f).2.1
                f.wait_queue⟩]
          now := (env.intr_boilerplate f.now 3 10 vectors).2 + (env.parse_trace line).2.1
          current := (exec_alloc env external_files (env.parse_trace line).2.2 f).2.1
          g := { f.g with
            mem := (exec_alloc env external_files (env.parse_trace line).2.2 f).2.2 } }) := by
    intro sim1 trace_file1 k1 h1
    simp only [loop, h1,
      body_exec env sim1 trace_file1 vectors delays external_files line f hact,
      do_exec_failed env sim1 vectors delays external_files line _ _ f hfail]
  refine ⟨_, hloop sim trace_file k hline, rfl, rfl, rfl, hloop, ?_⟩
  intro n start_time current wait_queue g hreach
  rw [hloop (simulate_trace env n) trace_file k hline] at hreach
  simp only [simulate_trace, hreach]

/-- Witness of C11: `EXEC program1` at index 1, after a CPU burst, with no free
partition; a further line follows the EXEC. -/
theorem exec_failure_returns_witness :
    ["CPU,5", "EXEC program1, 50", "CPU,1"][1]? = some "EXEC program1, 50" ∧
    (demo_env.parse_trace "EXEC program1, 50").1 = "EXEC" ∧
    (exec_alloc demo_env [⟨"program1", 2⟩] (demo_env.parse_trace "EXEC program1, 50").2.2
      ⟨[⟨0, 5, "CPU Burst"⟩], [], 5, 1, init_pcb, [], ⟨1, 0, 0⟩⟩).1 = false ∧
    ∃ f1 : Frame Nat,
      loop demo_env (simulate_trace demo_env 0) ["CPU,5", "EXEC program1, 50", "CPU,1"] ["a", "b", "c"] [1, 2, 16] [⟨"program1", 2⟩] (1 + 1) (⟨[⟨0, 5, "CPU Burst"⟩], [], 5, 1, init_pcb, [], ⟨1, 0, 0⟩⟩ : Frame Nat) = .ok (.ret, f1) ∧
      f1.exec_log = [⟨0, 5, "CPU Burst"⟩] ++ (demo_env.intr_boilerplate 5 3 10 ["a", "b", "c"]).1 ++
        [⟨(demo_env.intr_boilerplate 5 3 10 ["a", "b", "c"]).2, (demo_env.parse_trace "EXEC program1, 50").2.1,
          "Program is " ++
            toString (demo_env.get_size (demo_env.parse_trace "EXEC program1, 50").2.2 [⟨"program1", 2⟩]) ++
            " Mb large"⟩] ++
        [⟨(demo_env.intr_boilerplate 5 3 10 ["a", "b", "c"]).2 + (demo_env.parse_trace "EXEC program1, 50").2.1, 0,
          "EXEC failed: Memory allocation failed for " ++ (demo_env.parse_trace "EXEC program1, 50").2.2⟩] ∧
      f1.status_log = [] ++
        [⟨(demo_env.intr_boilerplate 5 3 10 ["a", "b", "c"]).2 + (demo_env.parse_trace "EXEC program1, 50").2.1, "EXEC program1, 50",
          demo_env.print_PCB (exec_alloc demo_env [⟨"program1", 2⟩] (demo_env.parse_trace "EXEC program1, 50").2.2 (⟨[⟨0, 5, "CPU Burst"⟩], [], 5, 1, init_pcb, [], ⟨1, 0, 0⟩⟩ : Frame Nat)).2.1
            []⟩] ∧
      f1.now = (demo_env.intr_boilerplate 5 3 10 ["a", "b", "c"]).2 + (demo_env.parse_trace "EXEC program1, 50").2.1 ∧
      (∀ (sim1 : Callee Nat) (trace_file1 : List String) (k1 : Nat),
        trace_file1[1]? = some "EXEC program1, 50" →
        loop demo_env sim1 trace_file1 ["a", "b", "c"] [1, 2, 16] [⟨"program1", 2⟩] (k1 + 1) (⟨[⟨0, 5, "CPU Burst"⟩], [], 5, 1, init_pcb, [], ⟨1, 0, 0⟩⟩ : Frame Nat) =
          .ok (.ret, f1)) ∧
      (∀ (n : Nat) (start_time : Int) (current : PCB) (wait_queue : List PCB)
        (g : Globals Nat),
        loop demo_env (simulate_trace demo_env n) ["CPU,5", "EXEC program1, 50", "CPU,1"] ["a", "b", "c"] [1, 2, 16] [⟨"program1", 2⟩]
            ["CPU,5", "EXEC program1, 50", "CPU,1"].length ⟨[], [], start_time, 0, current, wait_queue, g⟩ =
          loop demo_env (simulate_trace demo_env n) ["CPU,5", "EXEC program1, 50", "CPU,1"] ["a", "b", "c"] [1, 2, 16] [⟨"program1", 2⟩]
            (1 + 1) (⟨[⟨0, 5, "CPU Burst"⟩], [], 5, 1, init_pcb, [], ⟨1, 0, 0⟩⟩ : Frame Nat) →
        simulate_trace demo_env (n + 1) ["CPU,5", "EXEC program1, 50", "CPU,1"] start_time ["a", "b", "c"] [1, 2, 16] [⟨"program1", 2⟩]
            current wait_queue g =
          .ok ⟨f1.exec_log, f1.status_log, f1.now, f1.g⟩) :=
  ⟨by decide, by decide, by decide,
    exec_failure_returns demo_env (simulate_trace demo_env 0)
      ["CPU,5", "EXEC program1, 50", "CPU,1"] ["a", "b", "c"] [1, 2, 16] [⟨"program1", 2⟩]
      "EXEC program1, 50" ⟨[⟨0, 5, "CPU Burst"⟩], [], 5, 1, init_pcb, [], ⟨1, 0, 0⟩⟩ 1
      (by decide) (by decide) (by decide)⟩

/-- The SYSCALL branch carries the loop index along unchanged. -/
theorem do_syscall_idx {M : Type} (env : Env M) (vectors : List String) (delays : List Int)
    (d : Int) (f : Frame M) (i : Nat) :
    do_syscall env vectors delays d { f with idx := i } =
      (do_syscall env vectors delays d f).map (fun x => { x with idx := i }) := by
  unfold do_syscall
  cases at_index vectors d with
  | error e => rfl
  | ok vec =>
    cases at_index delays d with
    | error e => rfl
    | ok remain =>
      dsimp only
      cases device_split (env.rand f.g.rand_calls) (env.rand (f.g.rand_calls + 1)) remain with
      | error e => rfl
      | ok t => rfl

/-- The END_IO branch carries the loop index along unchanged. -/
theorem do_endio_idx {M : Type} (env : Env M) (vectors : List String) (delays : List Int)
    (d : Int) (f : Frame M) (i : Nat) :
    do_endio env vectors delays d { f with idx := i } =
      (do_endio env vectors delays d f).map (fun x => { x with idx := i }) := by
  unfold do_endio
  cases at_index vectors d with
  | error e => rfl
  | ok vec =>
    cases at_index delays d with
    | error e => rfl
    | ok remain =>
      dsimp only
      cases device_split (env.rand f.g.rand_calls) (env.rand (f.g.rand_calls + 1)) remain with
      | error e => rfl
      | ok t => rfl

/-- On a CPU, SYSCALL or END_IO line the body either faults or falls through, and what
it does depends neither on the trace around the line, nor on the recursive callee, nor
on the loop index. -/
theorem body_plain {M : Type} (env : Env M) (sim sim1 : Callee M)
    (trace_file trace_file1 vectors : List String) (delays : List Int)
    (external_files : List external_file) (line : String) (f : Frame M) (i j : Nat)
    (h : (env.parse_trace line).1 = "CPU" ∨ (env.parse_trace line).1 = "SYSCALL" ∨
      (env.parse_trace line).1 = "END_IO") :
    (∃ e, body env sim trace_file vectors delays external_files line { f with idx := i } =
        .error e ∧
      body env sim1 trace_file1 vectors delays external_files line { f with idx := j } =
        .error e) ∨
    (∃ f1 : Frame M,
      body env sim trace_file vectors delays external_files line { f with idx := i } =
        .ok (.next, { f1 with idx := i }) ∧
      body env sim1 trace_file1 vectors delays external_files line { f with idx := j } =
        .ok (.next, { f1 with idx := j })) := by
  rcases h with h | h | h
  · right
    exact ⟨do_cpu (env.parse_trace line).2.1 f,
      body_cpu env sim trace_file vectors delays external_files line _ h,
      body_cpu env sim1 trace_file1 vectors delays external_files line _ h⟩
  · rw [body_syscall env sim trace_file vectors delays external_files line _ h,
      body_syscall env sim1 trace_file1 vectors delays external_files line _ h,
      do_syscall_idx env vectors delays _ f i, do_syscall_idx env vectors delays _ f j]
    cases do_syscall env vectors delays (env.parse_trace line).2.1 f with
    | error e => exact Or.inl ⟨e, rfl, rfl⟩
    | ok f1 => exact Or.inr ⟨f1, rfl, rfl⟩
  · rw [body_endio env sim trace_file vectors delays external_files line _ h,
      body_endio env sim1 trace_file1 vectors delays external_files line _ h,
      do_endio_idx env vectors delays _ f i, do_endio_idx env vectors delays _ f j]
    cases do_endio env vectors delays (env.parse_trace line).2.1 f with
    | error e => exact Or.inl ⟨e, rfl, rfl⟩
    | ok f1 => exact Or.inr ⟨f1, rfl, rfl⟩

/-- Two runs of the main loop standing in front of the same block of CPU, SYSCALL and
END_IO lines, in the same frame up to the loop index, either stop with the same fault or
leave the block in the same frame up to the loop index. -/
theorem loop_plain_sync {M : Type} (env : Env M) (sim1 sim2 : Callee M)
    (T1 T2 vectors : List String) (delays : List Int)
    (external_files : List external_file) :
    ∀ (L : List String),
      (∀ l ∈ L, (env.parse_trace l).1 = "CPU" ∨ (env.parse_trace l).1 = "SYSCALL" ∨
        (env.parse_trace l).1 = "END_IO") →
    ∀ (k1 k2 : Nat) (f : Frame M) (i j : Nat) (rest1 rest2 : List String),
      T1.drop i = L ++ rest1 → T2.drop j = L ++ rest2 →
      (∃ e,
        loop env sim1 T1 vectors delays external_files (L.length + k1) { f with idx := i } =
          .error e ∧
        loop env sim2 T2 vectors delays external_files (L.length + k2) { f with idx := j } =
          .error e) ∨
      (∃ f1 : Frame M,
        loop env sim1 T1 vectors delays external_files (L.length + k1) { f with idx := i } =
          loop env sim1 T1 vectors delays external_files k1
            { f1 with idx := i + L.length } ∧
        loop env sim2 T2 vectors delays external_files (L.length + k2) { f with idx := j } =
          loop env sim2 T2 vectors delays external_files k2
            { f1 with idx := j + L.length }) := by
  intro L
  induction L with
  | nil =>
    intro _ k1 k2 f i j rest1 rest2 _ _
    exact Or.inr ⟨f, by simp, by simp⟩
  | cons l L ih =>
    intro hL k1 k2 f i j rest1 rest2 h1 h2
    obtain ⟨hg1, hd1⟩ := getElem?_of_drop_eq_cons T1 i l (L ++ rest1) h1
    obtain ⟨hg2, hd2⟩ := getElem?_of_drop_eq_cons T2 j l (L ++ rest2) h2
    have hk1 : (l :: L).length + k1 = (L.length + k1) + 1 := by
      simp only [List.length_cons]; omega
    have hk2 : (l :: L).length + k2 = (L.length + k2) + 1 := by
      simp only [List.length_cons]; omega
    have hi : i + (l :: L).length = i + 1 + L.length := by
      simp only [List.length_cons]; omega
    have hj : j + (l :: L).length = j + 1 + L.length := by
      simp only [List.length_cons]; omega
    rcases body_plain env sim1 sim2 T1 T2 vectors delays external_files l f i j
      (hL l (List.mem_cons_self l L)) with ⟨e, hb1, hb2⟩ | ⟨fa, hb1, hb2⟩
    · left
      refine ⟨e, ?_, ?_⟩
      · rw [hk1]; simp only [loop, hg1, hb1]
      · rw [hk2]; simp only [loop, hg2, hb2]
    · rcases ih (fun x hx => hL x (List.mem_cons_of_mem l hx)) k1 k2 fa
        (i + 1) (j + 1) rest1 rest2 hd1 hd2 with ⟨e, e1, e2⟩ | ⟨f1, e1, e2⟩
      · left
        refine ⟨e, ?_, ?_⟩
        · rw [hk1, ← e1]; simp only [loop, hg1, hb1]
        · rw [hk2, ← e2]; simp only [loop, hg2, hb2]
      · right
        refine ⟨f1, ?_, ?_⟩
        · rw [hk1, hi, ← e1]; simp only [loop, hg1, hb1]
        · rw [hk2, hj, ← e2]; simp only [loop, hg2, hb2]

/-- The EXEC branch never falls through to the next iteration. -/
theorem do_exec_leaves {M : Type} (env : Env M) (sim : Callee M)
    (vectors : List String) (delays : List Int) (external_files : List external_file)
    (line : String) (d : Int) (name : String) (f f1 : Frame M) :
    do_exec env sim vectors delays external_files line d name f ≠ .ok (.next, f1) := by
  rw [do_exec_unfold]
  by_cases hf : (exec_alloc env external_files name f).1 = false
  · rw [if_pos hf]
    intro h
    cases h
  · rw [if_neg hf]
    cases sim (env.read_lines (name ++ ".txt"))
      ((env.intr_boilerplate f.now 3 10 vectors).2 + d +
        to_int (env.get_size name external_files) * 15 + 3 + 6 + 1)
      vectors delays external_files (exec_alloc env external_files name f).2.1
      f.wait_queue { f.g with mem := (exec_alloc env external_files name f).2.2 } with
    | error e => intro h; cases h
    | ok r => intro h; cases h

/-- On an EXEC line the main loop is left with the outcome of the EXEC branch, whatever
the trace around the line and the number of iterations left. -/
theorem loop_exec {M : Type} (env : Env M) (sim : Callee M)
    (trace_file vectors : List String) (delays : List Int)
    (external_files : List external_file) (line : String) (f : Frame M) (k : Nat)
    (hline : trace_file[f.idx]? = some line)
    (hact : (env.parse_trace line).1 = "EXEC") :
    loop env sim trace_file vectors delays external_files (k + 1) f =
      do_exec env sim vectors delays external_files line
        (env.parse_trace line).2.1 (env.parse_trace line).2.2 f := by
  have hne := do_exec_leaves env sim vectors delays external_files line
    (env.parse_trace line).2.1 (env.parse_trace line).2.2 f
  simp only [loop, hline,
    body_exec env sim trace_file vectors delays external_files line f hact]
  cases hX : do_exec env sim vectors delays external_files line
      (env.parse_trace line).2.1 (env.parse_trace line).2.2 f with
  | error e => rfl
  | ok x =>
    obtain ⟨c, fr⟩ := x
    cases c with
    | next => exact absurd hX (hne fr)
    | brk => rfl
    | ret => rfl

/-- C12. EXEC never returns to its own trace: for every prefix `pre` of CPU, SYSCALL and
END_IO lines, every EXEC line `e` and every two suffixes `rest1`, `rest2`, the runs of
`simulate_trace` on `pre ++ [e] ++ rest1` and on `pre ++ [e] ++ rest2`, with the same
recursion bound, start time, tables, descriptor, wait queue and globals (allocator state,
`rand()` stream), have the same outcome: the same execution log, status log, end time and
final globals, or the same fault. -/
theorem exec_cuts_trace {M : Type} (env : Env M) (n : Nat)
    (pre rest1 rest2 : List String) (e : String) (start_time : Int)
    (vectors : List String) (delays : List Int) (external_files : List external_file)
    (current : PCB) (wait_queue : List PCB) (g : Globals M)
    (hpre : ∀ l ∈ pre, (env.parse_trace l).1 = "CPU" ∨ (env.parse_trace l).1 = "SYSCALL" ∨
      (env.parse_trace l).1 = "END_IO")
    (he : (env.parse_trace e).1 = "EXEC") :
    simulate_trace env n (pre ++ e :: rest1) start_time vectors delays external_files
        current wait_queue g =
      simulate_trace env n (pre ++ e :: rest2) start_time vectors delays external_files
        current wait_queue g := by
  cases n with
  | zero => rfl
  | succ n =>
    have hl1 : (pre ++ e :: rest1).length = pre.length + (rest1.length + 1) := by simp
    have hl2 : (pre ++ e :: rest2).length = pre.length + (rest2.length + 1) := by simp
    have hloop : loop env (simulate_trace env n) (pre ++ e :: rest1) vectors delays
        external_files (pre ++ e :: rest1).length
          ⟨[], [], start_time, 0, current, wait_queue, g⟩ =
        loop env (simulate_trace env n) (pre ++ e :: rest2) vectors delays
          external_files (pre ++ e :: rest2).length
          ⟨[], [], start_time, 0, current, wait_queue, g⟩ := by
      rw [hl1, hl2]
      rcases loop_plain_sync env (simulate_trace env n) (simulate_trace env n)
        (pre ++ e :: rest1) (pre ++ e :: rest2) vectors delays external_files pre hpre
        (rest1.length + 1) (rest2.length + 1) ⟨[], [], start_time, 0, current, wait_queue, g⟩
        0 0 (e :: rest1) (e :: rest2) rfl rfl with ⟨x, e1, e2⟩ | ⟨f1, e1, e2⟩
      · exact e1.trans e2.symm
      · have hg1 : (pre ++ e :: rest1)[(0 + pre.length)]? = some e := by
          rw [Nat.zero_add]
          exact (getElem?_of_drop_eq_cons _ _ _ _ (List.drop_left' rfl)).1
        have hg2 : (pre ++ e :: rest2)[(0 + pre.length)]? = some e := by
          rw [Nat.zero_add]
          exact (getElem?_of_drop_eq_cons _ _ _ _ (List.drop_left' rfl)).1
        refine e1.trans (Eq.trans ?_ e2.symm)
        rw [loop_exec env (simulate_trace env n) (pre ++ e :: rest1) vectors delays
            external_files e { f1 with idx := 0 + pre.length } rest1.length hg1 he,
          loop_exec env (simulate_trace env n) (pre ++ e :: rest2) vectors delays
            external_files e { f1 with idx := 0 + pre.length } rest2.length hg2 he]
    simp only [simulate_trace, hloop]

/-- Witness of C12: after `CPU,5` and `EXEC program1`, the suffixes `[CPU,1]` and
`[FORK,3, CPU,9]` make no difference; both runs return, with end time 115. -/
theorem exec_cuts_trace_witness :
    (∀ l ∈ ["CPU,5"], (demo_env.parse_trace l).1 = "CPU" ∨
      (demo_env.parse_trace l).1 = "SYSCALL" ∨ (demo_env.parse_trace l).1 = "END_IO") ∧
    (demo_env.parse_trace "EXEC program1, 50").1 = "EXEC" ∧
    (simulate_trace demo_env 2 (["CPU,5"] ++ "EXEC program1, 50" :: ["CPU,1"]) 0
      ["a", "b", "c"] [1, 2, 16] [⟨"program1", 2⟩] init_pcb [] ⟨1, 3, 0⟩).map
        (fun r => r.end_time) = .ok 115 ∧
    simulate_trace demo_env 2 (["CPU,5"] ++ "EXEC program1, 50" :: ["CPU,1"]) 0
        ["a", "b", "c"] [1, 2, 16] [⟨"program1", 2⟩] init_pcb [] ⟨1, 3, 0⟩ =
      simulate_trace demo_env 2 (["CPU,5"] ++ "EXEC program1, 50" :: ["FORK,3", "CPU,9"]) 0
        ["a", "b", "c"] [1, 2, 16] [⟨"program1", 2⟩] init_pcb [] ⟨1, 3, 0⟩ := by
  have hpre : ∀ l ∈ ["CPU,5"], (demo_env.parse_trace l).1 = "CPU" ∨
      (demo_env.parse_trace l).1 = "SYSCALL" ∨ (demo_env.parse_trace l).1 = "END_IO" := by
    intro l hl
    simp only [List.mem_singleton] at hl
    subst hl
    exact Or.inl (by decide)
  exact ⟨hpre, by decide, by decide,
    exec_cuts_trace demo_env 2 ["CPU,5"] ["CPU,1"] ["FORK,3", "CPU,9"] "EXEC program1, 50" 0
      ["a", "b", "c"] [1, 2, 16] [⟨"program1", 2⟩] init_pcb [] ⟨1, 3, 0⟩ hpre (by decide)⟩

/-! ### Branch markers and the device-time split -/

/-- C16. An IF_PARENT, IF_CHILD or ENDIF line reached by the main loop falls through
with the frame unchanged: nothing is appended to the execution log or the status log, and
the clock, `current` and the wait queue (and the globals) are as before. -/
theorem marker_no_effect {M : Type} (env : Env M) (sim : Callee M)
    (trace_file vectors : List String) (delays : List Int)
    (external_files : List external_file) (line : String) (f : Frame M)
    (h : (env.parse_trace line).1 = "IF_PARENT" ∨ (env.parse_trace line).1 = "IF_CHILD" ∨
      (env.parse_trace line).1 = "ENDIF") :
    ∃ f1 : Frame M,
      body env sim trace_file vectors delays external_files line f = .ok (.next, f1) ∧
      f1.exec_log = f.exec_log ∧ f1.status_log = f.status_log ∧ f1.now = f.now ∧
      f1.current = f.current ∧ f1.wait_queue = f.wait_queue ∧ f1.g = f.g ∧
      f1.idx = f.idx := by
  have hm : is_marker (env.parse_trace line).1 = true := by
    rcases h with h | h | h <;> rw [h] <;> decide
  exact ⟨f, body_marker env sim trace_file vectors delays external_files line f hm,
    rfl, rfl, rfl, rfl, rfl, rfl, rfl⟩

/-- Witness of C16: an ENDIF line reached at time 17 with a non-empty log. -/
theorem marker_no_effect_witness :
    ((demo_env.parse_trace "ENDIF").1 = "IF_PARENT" ∨
      (demo_env.parse_trace "ENDIF").1 = "IF_CHILD" ∨
      (demo_env.parse_trace "ENDIF").1 = "ENDIF") ∧
    ∃ f1 : Frame Nat,
      body demo_env (simulate_trace demo_env 0) ["CPU,5", "ENDIF"] ["a", "b", "c"]
        [1, 2, 16] [] "ENDIF"
        ⟨[⟨0, 5, "CPU Burst"⟩], [], 5, 1, init_pcb, [init_pcb], ⟨1, 3, 0⟩⟩ = .ok (.next, f1) ∧
      f1.exec_log = [⟨0, 5, "CPU Burst"⟩] ∧ f1.status_log = [] ∧ f1.now = 5 ∧
      f1.current = init_pcb ∧ f1.wait_queue = [init_pcb] ∧ f1.g = ⟨1, 3, 0⟩ ∧
      f1.idx = 1 :=
  ⟨Or.inr (Or.inr (by decide)),
    marker_no_effect demo_env (simulate_trace demo_env 0) ["CPU,5", "ENDIF"] ["a", "b", "c"]
      [1, 2, 16] [] "ENDIF"
      ⟨[⟨0, 5, "CPU Burst"⟩], [], 5, 1, init_pcb, [init_pcb], ⟨1, 3, 0⟩⟩
      (Or.inr (Or.inr (by decide)))⟩

/-- C17. The device-time split can produce a negative phase duration and make the clock
decrease.  With `delays[0] = 1 > 0` and `rand()` returning 3 and then 10, the line
`SYSCALL,0` logs `Call device driver` at time 7 with duration -2, and the following step
is stamped 5; the line `END_IO,0` logs `store information in memory` at time 6 with
duration -2, and the following step is stamped 4. -/
theorem negative_phase_duration :
    (0 : Int) < ([1, 2, 16] : List Int).getD 0 0 ∧
    demo_env.rand 0 = 3 ∧ demo_env.rand 1 = 10 ∧
    body demo_env (simulate_trace demo_env 0) ["SYSCALL,0"] ["a", "b", "c"] [1, 2, 16] []
        "SYSCALL,0" ⟨[], [], 0, 0, init_pcb, [], ⟨1, 3, 0⟩⟩ =
      .ok (.next,
        ⟨[ ⟨0, 1, "Switch to kernel mode"⟩,
           ⟨1, 4, "context saved"⟩,
           ⟨5, 1, "find vector 0 in memory a"⟩,
           ⟨6, 1, "obtain ISR address"⟩,
           ⟨7, -2, "Call device driver"⟩,
           ⟨5, 0, "Perform device check"⟩,
           ⟨5, 3, "Send device instruction"⟩,
           ⟨8, 1, "IRET"⟩ ], [], 9, 0, init_pcb, [], ⟨1, 3, 2⟩⟩) ∧
    body demo_env (simulate_trace demo_env 0) ["END_IO,0"] ["a", "b", "c"] [1, 2, 16] []
        "END_IO,0" ⟨[], [], 0, 0, init_pcb, [], ⟨1, 3, 0⟩⟩ =
      .ok (.next,
        ⟨[ ⟨0, 1, "switch to kernel mode"⟩,
           ⟨1, 4, "context saved"⟩,
           ⟨5, 1, "find vector 0 in memory a"⟩,
           ⟨6, -2, "store information in memory"⟩,
           ⟨4, 0, "reset the io operation"⟩,
           ⟨4, 3, "Send standby instruction"⟩,
           ⟨7, 1, "IRET"⟩ ], [], 8, 0, init_pcb, [], ⟨1, 3, 2⟩⟩) ∧
    (-2 : Int) < 0 ∧ (5 : Int) < 7 ∧ (4 : Int) < 6 := by
  refine ⟨by decide, by decide, by decide, by decide, by decide, by decide, by decide,
    by decide⟩

theorem at_index_fault {α : Type} (v : List α) (i : Int) (e : Fault)
    (h : at_index v i = .error e) : e ≠ .fuel := by
  unfold at_index at h
  split at h
  · split at h
    · cases h
    · cases h; decide
  · cases h; decide

theorem device_split_fault (r1 r2 D : Int) (e : Fault)
    (h : device_split r1 r2 D = .error e) : e ≠ .fuel := by
  unfold device_split at h
  split at h
  · cases h; decide
  · dsimp only at h
    split at h
    · cases h; decide
    · cases h

/-- The SYSCALL branch never reports exhaustion, and keeps the loop index. -/
theorem do_syscall_outcome {M : Type} (env : Env M) (vectors : List String)
    (delays : List Int) (d : Int) (f : Frame M) :
    (∀ e, do_syscall env vectors delays d f = .error e → e ≠ .fuel) ∧
    (∀ f1, do_syscall env vectors delays d f = .ok f1 → f1.idx = f.idx) := by
  unfold do_syscall
  cases h1 : at_index vectors d with
  | error e1 =>
    exact ⟨fun e h => by cases h; exact at_index_fault _ _ _ h1, fun f1 h => by cases h⟩
  | ok vec =>
    cases h2 : at_index delays d with
    | error e2 =>
      exact ⟨fun e h => by cases h; exact at_index_fault _ _ _ h2, fun f1 h => by cases h⟩
    | ok remain =>
      dsimp only
      cases h3 : device_split (env.rand f.g.rand_calls) (env.rand (f.g.rand_calls + 1))
          remain with
      | error e3 =>
        exact ⟨fun e h => by cases h; exact device_split_fault _ _ _ _ h3,
          fun f1 h => by cases h⟩
      | ok t => exact ⟨fun e h => (by cases h), fun f1 h => (by cases h; rfl)⟩

/-- The END_IO branch never reports exhaustion, and keeps the loop index. -/
theorem do_endio_outcome {M : Type} (env : Env M) (vectors : List String)
    (delays : List Int) (d : Int) (f : Frame M) :
    (∀ e, do_endio env vectors delays d f = .error e → e ≠ .fuel) ∧
    (∀ f1, do_endio env vectors delays d f = .ok f1 → f1.idx = f.idx) := by
  unfold do_endio
  cases h1 : at_index vectors d with
  | error e1 =>
    exact ⟨fun e h => by cases h; exact at_index_fault _ _ _ h1, fun f1 h => by cases h⟩
  | ok vec =>
    cases h2 : at_index delays d with
    | error e2 =>
      exact ⟨fun e h => by cases h; exact at_index_fault _ _ _ h2, fun f1 h => by cases h⟩
    | ok remain =>
      dsimp only
      cases h3 : device_split (env.rand f.g.rand_calls) (env.rand (f.g.rand_calls + 1))
          remain with
      | error e3 =>
        exact ⟨fun e h => by cases h; exact device_split_fault _ _ _ _ h3,
          fun f1 h => by cases h⟩
      | ok t => exact ⟨fun e h => (by cases h), fun f1 h => (by cases h; rfl)⟩

/-- A line that is none of CPU, SYSCALL, END_IO, FORK, EXEC falls through unchanged. -/
theorem body_other {M : Type} (env : Env M) (sim : Callee M)
    (trace_file vectors : List String) (delays : List Int)
    (external_files : List external_file) (line : String) (f : Frame M)
    (h1 : (env.parse_trace line).1 ≠ "CPU") (h2 : (env.parse_trace line).1 ≠ "SYSCALL")
    (h3 : (env.parse_trace line).1 ≠ "END_IO") (h4 : (env.parse_trace line).1 ≠ "FORK")
    (h5 : (env.parse_trace line).1 ≠ "EXEC") :
    body env sim trace_file vectors delays external_files line f = .ok (.next, f) := by
  unfold body
  simp only [if_neg h1, if_neg h2, if_neg h3, if_neg h4, if_neg h5]

/-- The resume positions found by the failed-FORK scan are what was recorded before or
lie at or behind the first scanned index. -/
theorem scan_failed_ge (parse : String → String × Int × String) :
    ∀ (ls : List String) (j : Nat) (pp ep : Int),
      ((scan_failed parse ls j pp ep).1 = pp ∨ (j : Int) ≤ (scan_failed parse ls j pp ep).1) ∧
      ((scan_failed parse ls j pp ep).2 = ep ∨ (j : Int) ≤ (scan_failed parse ls j pp ep).2) := by
  intro ls
  induction ls with
  | nil => intro j pp ep; exact ⟨Or.inl rfl, Or.inl rfl⟩
  | cons l ls ih =>
    intro j pp ep
    have lift : ∀ (p e : Int), (p = pp ∨ (j : Int) ≤ p) → (e = ep ∨ (j : Int) ≤ e) →
        ((scan_failed parse ls (j + 1) p e).1 = pp ∨
          (j : Int) ≤ (scan_failed parse ls (j + 1) p e).1) ∧
        ((scan_failed parse ls (j + 1) p e).2 = ep ∨
          (j : Int) ≤ (scan_failed parse ls (j + 1) p e).2) := by
      intro p e hp he
      obtain ⟨a, b⟩ := ih (j + 1) p e
      constructor
      · rcases a with a | a
        · rw [a]; exact hp
        · right; push_cast at a; omega
      · rcases b with b | b
        · rw [b]; exact he
        · right; push_cast at b; omega
    rw [scan_failed]
    by_cases h1 : (parse l).1 = "IF_PARENT"
    · rw [if_pos h1]
      exact lift _ _ (Or.inr (le_refl _)) (Or.inl rfl)
    · rw [if_neg h1]
      by_cases h2 : (parse l).1 = "ENDIF"
      · rw [if_pos h2]
        refine ⟨?_, Or.inr (le_refl _)⟩
        by_cases h3 : pp = -1
        · rw [if_pos h3]; exact Or.inr (le_refl _)
        · rw [if_neg h3]; exact Or.inl rfl
      · rw [if_neg h2]
        exact lift _ _ (Or.inl rfl) (Or.inl rfl)

/-- The resume positions found by the successful-FORK scan are what was recorded before
or lie at or behind the first scanned index. -/
theorem scan_child_ge (parse : String → String × Int × String) :
    ∀ (ls : List String) (j : Nat) (muted : Bool) (pp ep : Int) (ch : List String),
      ((scan_child parse ls j muted pp ep ch).2.1 = pp ∨
        (j : Int) ≤ (scan_child parse ls j muted pp ep ch).2.1) ∧
      ((scan_child parse ls j muted pp ep ch).2.2 = ep ∨
        (j : Int) ≤ (scan_child parse ls j muted pp ep ch).2.2) := by
  intro ls
  induction ls with
  | nil => intro j muted pp ep ch; exact ⟨Or.inl rfl, Or.inl rfl⟩
  | cons l ls ih =>
    intro j muted pp ep ch
    have lift : ∀ (m : Bool) (p e : Int) (c : List String),
        (p = pp ∨ (j : Int) ≤ p) → (e = ep ∨ (j : Int) ≤ e) →
        ((scan_child parse ls (j + 1) m p e c).2.1 = pp ∨
          (j : Int) ≤ (scan_child parse ls (j + 1) m p e c).2.1) ∧
        ((scan_child parse ls (j + 1) m p e c).2.2 = ep ∨
          (j : Int) ≤ (scan_child parse ls (j + 1) m p e c).2.2) := by
      intro m p e c hp he
      obtain ⟨a, b⟩ := ih (j + 1) m p e c
      constructor
      · rcases a with a | a
        · rw [a]; exact hp
        · right; push_cast at a; omega
      · rcases b with b | b
        · rw [b]; exact he
        · right; push_cast at b; omega
    rw [scan_child]
    by_cases h1 : (parse l).1 = "IF_CHILD"
    · rw [if_pos h1]
      exact lift _ _ _ _ (Or.inl rfl) (Or.inl rfl)
    · rw [if_neg h1]
      by_cases h2 : (parse l).1 = "IF_PARENT"
      · rw [if_pos h2]
        exact lift _ _ _ _ (Or.inr (le_refl _)) (Or.inl rfl)
      · rw [if_neg h2]
        by_cases h3 : (parse l).1 = "ENDIF"
        · rw [if_pos h3]
          refine lift _ _ _ _ ?_ (Or.inr (le_refl _))
          by_cases h4 : pp = -1
          · rw [if_pos h4]; exact Or.inr (le_refl _)
          · rw [if_neg h4]; exact Or.inl rfl
        · rw [if_neg h3]
          exact lift _ _ _ _ (Or.inl rfl) (Or.inl rfl)

/-- The child trace built by the scan is no longer than what was collected plus the
lines scanned, and every line of it was collected before or is a scanned line that is not
a branch marker. -/
theorem scan_child_lines (parse : String → String × Int × String) :
    ∀ (ls : List String) (j : Nat) (muted : Bool) (pp ep : Int) (ch : List String),
      (scan_child parse ls j muted pp ep ch).1.length ≤ ch.length + ls.length ∧
      ∀ l ∈ (scan_child parse ls j muted pp ep ch).1,
        l ∈ ch ∨ (l ∈ ls ∧ is_marker (parse l).1 = false) := by
  intro ls
  induction ls with
  | nil =>
    intro j muted pp ep ch
    exact ⟨by simp [scan_child], fun l hl => Or.inl hl⟩
  | cons x ls ih =>
    intro j muted pp ep ch
    have lift : ∀ (m : Bool) (p e : Int),
        (scan_child parse ls (j + 1) m p e ch).1.length ≤ ch.length + (x :: ls).length ∧
        ∀ l ∈ (scan_child parse ls (j + 1) m p e ch).1,
          l ∈ ch ∨ (l ∈ x :: ls ∧ is_marker (parse l).1 = false) := by
      intro m p e
      obtain ⟨a, b⟩ := ih (j + 1) m p e ch
      constructor
      · simp only [List.length_cons]; omega
      · intro l hl
        rcases b l hl with h | ⟨h, hm⟩
        · exact Or.inl h
        · exact Or.inr ⟨List.mem_cons_of_mem x h, hm⟩
    rw [scan_child]
    by_cases h1 : (parse x).1 = "IF_CHILD"
    · rw [if_pos h1]; exact lift _ _ _
    · rw [if_neg h1]
      by_cases h2 : (parse x).1 = "IF_PARENT"
      · rw [if_pos h2]; exact lift _ _ _
      · rw [if_neg h2]
        by_cases h3 : (parse x).1 = "ENDIF"
        · rw [if_pos h3]; exact lift _ _ _
        · rw [if_neg h3]
          have hx : is_marker (parse x).1 = false := is_marker_false _ h1 h2 h3
          cases muted with
          | true => exact lift _ _ _
          | false =>
            obtain ⟨a, b⟩ := ih (j + 1) false pp ep (ch ++ [x])
            simp only [Bool.false_eq_true, if_false]
            constructor
            · simp only [List.length_cons, List.length_append, List.length_nil] at a
              simp only [List.length_cons]
              omega
            · intro l hl
              rcases b l hl with h | ⟨h, hm⟩
              · rcases List.mem_append.mp h with h | h
                · exact Or.inl h
                · rw [List.mem_singleton] at h
                  subst h
                  exact Or.inr ⟨List.mem_cons_self _ _, hx⟩
              · exact Or.inr ⟨List.mem_cons_of_mem x h, hm⟩

/-- A successful FORK whose recursive simulation faults passes the fault on. -/
theorem do_fork_error {M : Type} (env : Env M) (sim : Callee M)
    (trace_file vectors : List String) (delays : List Int)
    (external_files : List external_file) (line : String) (d : Int) (f : Frame M)
    (e : Fault)
    (hsucc : (env.allocate_memory
      { f.current with PID := f.g.next_pid, partition_number := -1 } f.g.mem).1 = true)
    (hret : sim
      (scan_child env.parse_trace (trace_file.drop (f.idx + 1)) (f.idx + 1) true
        (-1) (-1) []).1
      ((env.intr_boilerplate f.now 2 10 vectors).2 + d + 1) vectors delays external_files
      (env.allocate_memory
        { f.current with PID := f.g.next_pid, partition_number := -1 } f.g.mem).2.1
      (f.wait_queue ++ [f.current])
      { f.g with
        next_pid := (f.g.next_pid + 1) % 2 ^ 32
        mem := (env.allocate_memory
          { f.current with PID := f.g.next_pid, partition_number := -1 } f.g.mem).2.2 } =
      .error e) :
    do_fork env sim trace_file vectors delays external_files line d f = .error e := by
  unfold do_fork
  simp only [hsucc, hret]
  simp

theorem le_toNat_of_succ_le (x : Int) (n : Nat) (h : ((n + 1 : Nat) : Int) ≤ x) :
    n ≤ x.toNat := by
  have h0 : 0 ≤ x := by omega
  have h1 := Int.toNat_of_nonneg h0
  omega

/-- A FORK line, whether the allocation fails or succeeds, falls through to the loop
increment, and leaves the loop index at or behind where it was. -/
theorem fork_moves_forward {M : Type} (env : Env M) (sim : Callee M)
    (trace_file vectors : List String) (delays : List Int)
    (external_files : List external_file) (line : String) (f : Frame M) (c : Ctl)
    (f1 : Frame M)
    (hline : trace_file[f.idx]? = some line)
    (hact : (env.parse_trace line).1 = "FORK")
    (hb : body env sim trace_file vectors delays external_files line f = .ok (c, f1)) :
    c = .next ∧ f.idx ≤ f1.idx := by
  have hlt : f.idx < trace_file.length := by
    by_contra hge
    rw [List.getElem?_eq_none (by omega)] at hline
    cases hline
  rw [body_fork env sim trace_file vectors delays external_files line f hact] at hb
  by_cases hfail : (env.allocate_memory
      { f.current with PID := f.g.next_pid, partition_number := -1 } f.g.mem).1 = false
  · rw [do_fork_failed env sim trace_file vectors delays external_files line _ f hfail] at hb
    obtain ⟨a, b⟩ := scan_failed_ge env.parse_trace (trace_file.drop (f.idx + 1))
      (f.idx + 1) (-1) (-1)
    cases hb
    refine ⟨rfl, ?_⟩
    show f.idx ≤ (if _ then _ else _)
    split_ifs with h1 h2
    · rcases a with a | a
      · exact absurd a h1
      · exact le_toNat_of_succ_le _ _ a
    · rcases b with b | b
      · exact absurd b h2
      · exact le_toNat_of_succ_le _ _ b
    · omega
  · have hsucc : (env.allocate_memory
        { f.current with PID := f.g.next_pid, partition_number := -1 } f.g.mem).1 = true := by
      cases h : (env.allocate_memory
        { f.current with PID := f.g.next_pid, partition_number := -1 } f.g.mem).1
      · exact absurd h hfail
      · rfl
    cases hs : sim
        (scan_child env.parse_trace (trace_file.drop (f.idx + 1)) (f.idx + 1) true
          (-1) (-1) []).1
        ((env.intr_boilerplate f.now 2 10 vectors).2 + (env.parse_trace line).2.1 + 1)
        vectors delays external_files
        (env.allocate_memory
          { f.current with PID := f.g.next_pid, partition_number := -1 } f.g.mem).2.1
        (f.wait_queue ++ [f.current])
        { f.g with
          next_pid := (f.g.next_pid + 1) % 2 ^ 32
          mem := (env.allocate_memory
            { f.current with PID := f.g.next_pid, partition_number := -1 } f.g.mem).2.2 } with
    | error e =>
      rw [do_fork_error env sim trace_file vectors delays external_files line _ f e hsucc hs]
        at hb
      cases hb
    | ok r =>
      rw [do_fork_success env sim trace_file vectors delays external_files line _ f r hsucc
        hs] at hb
      obtain ⟨a, b⟩ := scan_child_ge env.parse_trace (trace_file.drop (f.idx + 1))
        (f.idx + 1) true (-1) (-1) []
      cases hb
      refine ⟨rfl, ?_⟩
      show f.idx ≤ (if _ then _ else _)
      split_ifs with h1 h2
      · rcases a with a | a
        · exact absurd a h1
        · exact le_toNat_of_succ_le _ _ a
      · rcases b with b | b
        · exact absurd b h2
        · exact le_toNat_of_succ_le _ _ b
      · omega

/-- The child sub-trace of a FORK at index `i` is shorter than what follows the FORK,
and its lines are lines of the trace that are not branch markers. -/
theorem child_trace_smaller (parse : String → String × Int × String)
    (trace_file : List String) (i : Nat) :
    (scan_child parse (trace_file.drop (i + 1)) (i + 1) true (-1) (-1) []).1.length ≤
      trace_file.length - i - 1 ∧
    ∀ l ∈ (scan_child parse (trace_file.drop (i + 1)) (i + 1) true (-1) (-1) []).1,
      l ∈ trace_file ∧ is_marker (parse l).1 = false := by
  obtain ⟨a, b⟩ := scan_child_lines parse (trace_file.drop (i + 1)) (i + 1) true (-1) (-1) []
  constructor
  · simp only [List.length_nil, List.length_drop] at a
    omega
  · intro l hl
    rcases b l hl with h | ⟨h, hm⟩
    · cases h
    · exact ⟨List.mem_of_mem_drop h, hm⟩

/-- One iteration on a line other than EXEC, the recursive callee being known not to
exhaust its budget on shorter traces made of lines of this trace: the iteration does
not report exhaustion, faults only if a device line of the trace has an unusable operand,
and otherwise falls through with the loop index at or behind where it was. -/
theorem body_progress {M : Type} (env : Env M) (sim : Callee M)
    (trace_file vectors : List String) (delays : List Int)
    (external_files : List external_file) (line : String) (f : Frame M)
    (hline : trace_file[f.idx]? = some line)
    (hno : (env.parse_trace line).1 ≠ "EXEC")
    (hsim : ∀ (T1 : List String) (start_time : Int) (current : PCB) (wait_queue : List PCB)
      (g : Globals M) (e : Fault), T1.length < trace_file.length →
      (∀ l ∈ T1, l ∈ trace_file) →
      sim T1 start_time vectors delays external_files current wait_queue g = .error e →
      e ≠ .fuel ∧ ¬ ∀ l ∈ trace_file, device_ok env.parse_trace vectors delays l) :
    (∀ e, body env sim trace_file vectors delays external_files line f = .error e →
      e ≠ .fuel ∧ ¬ ∀ l ∈ trace_file, device_ok env.parse_trace vectors delays l) ∧
    (∀ c f1, body env sim trace_file vectors delays external_files line f = .ok (c, f1) →
      c = .next ∧ f.idx ≤ f1.idx) := by
  have hmem : line ∈ trace_file := List.getElem?_mem hline
  have hdev : ∀ e, ((env.parse_trace line).1 = "SYSCALL" ∨
      (env.parse_trace line).1 = "END_IO") →
      body env sim trace_file vectors delays external_files line f = .error e →
      ¬ ∀ l ∈ trace_file, device_ok env.parse_trace vectors delays l := by
    intro e hact hb hwf
    obtain ⟨f1, hok, -⟩ := body_straight env sim trace_file vectors delays external_files
      line f (Or.inr ⟨hact, hwf line hmem hact⟩)
    rw [hok] at hb
    cases hb
  by_cases h1 : (env.parse_trace line).1 = "CPU"
  · rw [body_cpu env sim trace_file vectors delays external_files line f h1]
    exact ⟨fun e h => (by cases h), fun c f1 h => (by cases h; exact ⟨rfl, le_refl _⟩)⟩
  by_cases h2 : (env.parse_trace line).1 = "SYSCALL"
  · have hb := body_syscall env sim trace_file vectors delays external_files line f h2
    obtain ⟨a, b⟩ := do_syscall_outcome env vectors delays (env.parse_trace line).2.1 f
    constructor
    · intro e he
      refine ⟨?_, hdev e (Or.inl h2) he⟩
      rw [hb] at he
      cases hd : do_syscall env vectors delays (env.parse_trace line).2.1 f with
      | error e1 => rw [hd] at he; cases he; exact a _ hd
      | ok x => rw [hd] at he; cases he
    · intro c f1 he
      rw [hb] at he
      cases hd : do_syscall env vectors delays (env.parse_trace line).2.1 f with
      | error e1 => rw [hd] at he; cases he
      | ok x => rw [hd] at he; cases he; exact ⟨rfl, le_of_eq (b _ hd).symm⟩
  by_cases h3 : (env.parse_trace line).1 = "END_IO"
  · have hb := body_endio env sim trace_file vectors delays external_files line f h3
    obtain ⟨a, b⟩ := do_endio_outcome env vectors delays (env.parse_trace line).2.1 f
    constructor
    · intro e he
      refine ⟨?_, hdev e (Or.inr h3) he⟩
      rw [hb] at he
      cases hd : do_endio env vectors delays (env.parse_trace line).2.1 f with
      | error e1 => rw [hd] at he; cases he; exact a _ hd
      | ok x => rw [hd] at he; cases he
    · intro c f1 he
      rw [hb] at he
      cases hd : do_endio env vectors delays (env.parse_trace line).2.1 f with
      | error e1 => rw [hd] at he; cases he
      | ok x => rw [hd] at he; cases he; exact ⟨rfl, le_of_eq (b _ hd).symm⟩
  by_cases h4 : (env.parse_trace line).1 = "FORK"
  · refine ⟨?_, fun c f1 h =>
      fork_moves_forward env sim trace_file vectors delays external_files line f c f1
        hline h4 h⟩
    intro e he
    rw [body_fork env sim trace_file vectors delays external_files line f h4] at he
    by_cases hfail : (env.allocate_memory
        { f.current with PID := f.g.next_pid, partition_number := -1 } f.g.mem).1 = false
    · rw [do_fork_failed env sim trace_file vectors delays external_files line _ f hfail]
        at he
      cases he
    · have hsucc : (env.allocate_memory
          { f.current with PID := f.g.next_pid, partition_number := -1 } f.g.mem).1 =
          true := by
        cases h : (env.allocate_memory
          { f.current with PID := f.g.next_pid, partition_number := -1 } f.g.mem).1
        · exact absurd h hfail
        · rfl
      have hlt : f.idx < trace_file.length := by
        by_contra hge
        rw [List.getElem?_eq_none (by omega)] at hline
        cases hline
      obtain ⟨clen, cmem⟩ := child_trace_smaller env.parse_trace trace_file f.idx
      cases hs : sim
          (scan_child env.parse_trace (trace_file.drop (f.idx + 1)) (f.idx + 1) true
            (-1) (-1) []).1
          ((env.intr_boilerplate f.now 2 10 vectors).2 + (env.parse_trace line).2.1 + 1)
          vectors delays external_files
          (env.allocate_memory
            { f.current with PID := f.g.next_pid, partition_number := -1 } f.g.mem).2.1
          (f.wait_queue ++ [f.current])
          { f.g with
            next_pid := (f.g.next_pid + 1) % 2 ^ 32
            mem := (env.allocate_memory
              { f.current with PID := f.g.next_pid, partition_number := -1 }
                f.g.mem).2.2 } with
      | error e1 =>
        rw [do_fork_error env sim trace_file vectors delays external_files line _ f e1
          hsucc hs] at he
        cases he
        exact hsim _ _ _ _ _ _ (by omega) (fun l hl => (cmem l hl).1) hs
      | ok r =>
        rw [do_fork_success env sim trace_file vectors delays external_files line _ f r
          hsucc hs] at he
        cases he
  · rw [body_other env sim trace_file vectors delays external_files line f h1 h2 h3 h4 hno]
    exact ⟨fun e h => (by cases h), fun c f1 h => (by cases h; exact ⟨rfl, le_refl _⟩)⟩

/-- The main loop over a trace without EXEC, given enough iterations and a callee as in
`body_progress`: it does not report exhaustion and faults only if a device line of the
trace has an unusable operand. -/
theorem loop_progress {M : Type} (env : Env M) (sim : Callee M)
    (trace_file vectors : List String) (delays : List Int)
    (external_files : List external_file)
    (hno : ∀ l ∈ trace_file, (env.parse_trace l).1 ≠ "EXEC")
    (hsim : ∀ (T1 : List String) (start_time : Int) (current : PCB) (wait_queue : List PCB)
      (g : Globals M) (e : Fault), T1.length < trace_file.length →
      (∀ l ∈ T1, l ∈ trace_file) →
      sim T1 start_time vectors delays external_files current wait_queue g = .error e →
      e ≠ .fuel ∧ ¬ ∀ l ∈ trace_file, device_ok env.parse_trace vectors delays l) :
    ∀ (k : Nat) (f : Frame M), trace_file.length ≤ k + f.idx →
      ∀ e, loop env sim trace_file vectors delays external_files k f = .error e →
        e ≠ .fuel ∧ ¬ ∀ l ∈ trace_file, device_ok env.parse_trace vectors delays l := by
  intro k
  induction k with
  | zero =>
    intro f hk e he
    have hlen : ¬ f.idx < trace_file.length := by omega
    simp only [loop, if_neg hlen] at he
    cases he
  | succ k ih =>
    intro f hk e he
    cases hg : trace_file[f.idx]? with
    | none =>
      simp only [loop, hg] at he
      cases he
    | some line =>
      obtain ⟨a, b⟩ := body_progress env sim trace_file vectors delays external_files line f
        hg (hno line (List.getElem?_mem hg)) hsim
      cases hb : body env sim trace_file vectors delays external_files line f with
      | error e1 =>
        simp only [loop, hg, hb] at he
        cases he
        exact a _ hb
      | ok x =>
        obtain ⟨c, f1⟩ := x
        obtain ⟨hc, hidx⟩ := b c f1 hb
        subst hc
        simp only [loop, hg, hb] at he
        exact ih { f1 with idx := f1.idx + 1 } (by show _ ≤ k + (f1.idx + 1); omega) e he

/-- With a recursion bound above the length of the trace, `simulate_trace` on a trace
without EXEC does not report exhaustion, and faults only if a device line of the trace
has an unusable operand. -/
theorem simulate_progress {M : Type} (env : Env M) (vectors : List String)
    (delays : List Int) (external_files : List external_file) :
    ∀ (n : Nat) (trace_file : List String) (start_time : Int) (current : PCB)
      (wait_queue : List PCB) (g : Globals M) (e : Fault),
      trace_file.length < n →
      (∀ l ∈ trace_file, (env.parse_trace l).1 ≠ "EXEC") →
      simulate_trace env n trace_file start_time vectors delays external_files current
        wait_queue g = .error e →
      e ≠ .fuel ∧ ¬ ∀ l ∈ trace_file, device_ok env.parse_trace vectors delays l := by
  intro n
  induction n with
  | zero => intro T _ _ _ _ _ hn; omega
  | succ n ih =>
    intro T start_time current wait_queue g e hn hno he
    have hsim : ∀ (T1 : List String) (s1 : Int) (c1 : PCB) (w1 : List PCB)
        (g1 : Globals M) (e1 : Fault), T1.length < T.length →
        (∀ l ∈ T1, l ∈ T) →
        simulate_trace env n T1 s1 vectors delays external_files c1 w1 g1 = .error e1 →
        e1 ≠ .fuel ∧ ¬ ∀ l ∈ T, device_ok env.parse_trace vectors delays l := by
      intro T1 s1 c1 w1 g1 e1 hlen hsub h1
      obtain ⟨x, y⟩ := ih T1 s1 c1 w1 g1 e1 (by omega) (fun l hl => hno l (hsub l hl)) h1
      exact ⟨x, fun hwf => y (fun l hl => hwf l (hsub l hl))⟩
    cases hl : loop env (simulate_trace env n) T vectors delays external_files T.length
        ⟨[], [], start_time, 0, current, wait_queue, g⟩ with
    | error e1 =>
      simp only [simulate_trace, hl] at he
      cases he
      exact loop_progress env (simulate_trace env n) T vectors delays external_files hno
        hsim T.length _ (by simp) _ hl
    | ok x =>
      obtain ⟨c, f1⟩ := x
      cases c <;> simp only [simulate_trace, hl] at he <;> cases he

/-- C20. On a trace without EXEC lines, for every allocator behaviour and every recursion
bound above the length of the trace, `simulate_trace` does not run out of its bound, and
it returns a result when the operands of the device lines are usable.  Every FORK line,
failed or successful, falls through with the loop index at or behind its position, so the
next iteration is strictly further on; and the child sub-trace built by a FORK at index
`i` has at most `length - i - 1` lines, all of them lines of the trace that are not
IF_CHILD/IF_PARENT/ENDIF markers. -/
theorem terminates_without_exec {M : Type} (env : Env M) (n : Nat)
    (trace_file : List String) (start_time : Int) (vectors : List String)
    (delays : List Int) (external_files : List external_file) (current : PCB)
    (wait_queue : List PCB) (g : Globals M)
    (hno : ∀ l ∈ trace_file, (env.parse_trace l).1 ≠ "EXEC")
    (hn : trace_file.length < n) :
    simulate_trace env n trace_file start_time vectors delays external_files current
      wait_queue g ≠ .error .fuel ∧
    ((∀ l ∈ trace_file, device_ok env.parse_trace vectors delays l) →
      ∃ r, simulate_trace env n trace_file start_time vectors delays external_files current
        wait_queue g = .ok r) ∧
    (∀ (sim : Callee M) (line : String) (f : Frame M) (c : Ctl) (f1 : Frame M),
      trace_file[f.idx]? = some line → (env.parse_trace line).1 = "FORK" →
      body env sim trace_file vectors delays external_files line f = .ok (c, f1) →
      c = .next ∧ f.idx < f1.idx + 1) ∧
    (∀ i, i < trace_file.length →
      (scan_child env.parse_trace (trace_file.drop (i + 1)) (i + 1) true (-1) (-1) []).1.length ≤
        trace_file.length - i - 1 ∧
      ∀ l ∈ (scan_child env.parse_trace (trace_file.drop (i + 1)) (i + 1) true
          (-1) (-1) []).1,
        l ∈ trace_file ∧ is_marker (env.parse_trace l).1 = false) := by
  have key := simulate_progress env vectors delays external_files n trace_file start_time
    current wait_queue g
  refine ⟨fun h => (key .fuel hn hno h).1 rfl, ?_, ?_, ?_⟩
  · intro hwf
    cases hr : simulate_trace env n trace_file start_time vectors delays external_files
        current wait_queue g with
    | error e => exact absurd hwf (key e hn hno hr).2
    | ok r => exact ⟨r, rfl⟩
  · intro sim line f c f1 hline hact hb
    obtain ⟨a, b⟩ := fork_moves_forward env sim trace_file vectors delays external_files
      line f c f1 hline hact hb
    exact ⟨a, by omega⟩
  · intro i _
    exact child_trace_smaller env.parse_trace trace_file i

/-- Witness of C20: a trace with a FORK, both branches, and a device line, run with
recursion bound 8. -/
theorem terminates_without_exec_witness :
    (∀ l ∈ ["FORK,3", "IF_CHILD", "CPU,1", "IF_PARENT", "CPU,2", "ENDIF", "SYSCALL,2"], (demo_env.parse_trace l).1 ≠ "EXEC") ∧
    (["FORK,3", "IF_CHILD", "CPU,1", "IF_PARENT", "CPU,2", "ENDIF", "SYSCALL,2"].length < 8) ∧
    (simulate_trace demo_env 8 ["FORK,3", "IF_CHILD", "CPU,1", "IF_PARENT", "CPU,2", "ENDIF", "SYSCALL,2"] 0 ["a", "b", "c"] ([1, 2, 16] : List Int) [] init_pcb
      [] ⟨1, 3, 0⟩ ≠ .error .fuel ∧
    ((∀ l ∈ ["FORK,3", "IF_CHILD", "CPU,1", "IF_PARENT", "CPU,2", "ENDIF", "SYSCALL,2"], device_ok demo_env.parse_trace ["a", "b", "c"] ([1, 2, 16] : List Int) l) →
      ∃ r, simulate_trace demo_env 8 ["FORK,3", "IF_CHILD", "CPU,1", "IF_PARENT", "CPU,2", "ENDIF", "SYSCALL,2"] 0 ["a", "b", "c"] ([1, 2, 16] : List Int) [] init_pcb
        [] ⟨1, 3, 0⟩ = .ok r) ∧
    (∀ (sim : Callee Nat) (line : String) (f : Frame Nat) (c : Ctl) (f1 : Frame Nat),
      ["FORK,3", "IF_CHILD", "CPU,1", "IF_PARENT", "CPU,2", "ENDIF", "SYSCALL,2"][f.idx]? = some line → (demo_env.parse_trace line).1 = "FORK" →
      body demo_env sim ["FORK,3", "IF_CHILD", "CPU,1", "IF_PARENT", "CPU,2", "ENDIF", "SYSCALL,2"] ["a", "b", "c"] ([1, 2, 16] : List Int) [] line f = .ok (c, f1) →
      c = .next ∧ f.idx < f1.idx + 1) ∧
    (∀ i, i < ["FORK,3", "IF_CHILD", "CPU,1", "IF_PARENT", "CPU,2", "ENDIF", "SYSCALL,2"].length →
      (scan_child demo_env.parse_trace (["FORK,3", "IF_CHILD", "CPU,1", "IF_PARENT", "CPU,2", "ENDIF", "SYSCALL,2"].drop (i + 1)) (i + 1) true (-1) (-1) []).1.length ≤
        ["FORK,3", "IF_CHILD", "CPU,1", "IF_PARENT", "CPU,2", "ENDIF", "SYSCALL,2"].length - i - 1 ∧
      ∀ l ∈ (scan_child demo_env.parse_trace (["FORK,3", "IF_CHILD", "CPU,1", "IF_PARENT", "CPU,2", "ENDIF", "SYSCALL,2"].drop (i + 1)) (i + 1) true
          (-1) (-1) []).1,
        l ∈ ["FORK,3", "IF_CHILD", "CPU,1", "IF_PARENT", "CPU,2", "ENDIF", "SYSCALL,2"] ∧ is_marker (demo_env.parse_trace l).1 = false)) :=
  ⟨by decide, by decide,
    terminates_without_exec demo_env 8 ["FORK,3", "IF_CHILD", "CPU,1", "IF_PARENT", "CPU,2", "ENDIF", "SYSCALL,2"] 0 ["a", "b", "c"] ([1, 2, 16] : List Int) [] init_pcb [] ⟨1, 3, 0⟩ (by decide) (by decide)⟩


/-- The SYSCALL branch keeps `current`, the wait queue, the identifier counter and the
allocator state. -/
theorem do_syscall_keeps {M : Type} (env : Env M) (vectors : List String)
    (delays : List Int) (d : Int) (f f1 : Frame M)
    (h : do_syscall env vectors delays d f = .ok f1) :
    f1.current = f.current ∧ f1.wait_queue = f.wait_queue ∧
      f1.g.next_pid = f.g.next_pid ∧ f1.g.mem = f.g.mem := by
  unfold do_syscall at h
  cases h1 : at_index vectors d with
  | error e1 => rw [h1] at h; cases h
  | ok vec =>
    rw [h1] at h
    cases h2 : at_index delays d with
    | error e2 => rw [h2] at h; cases h
    | ok remain =>
      rw [h2] at h
      dsimp only at h
      cases h3 : device_split (env.rand f.g.rand_calls) (env.rand (f.g.rand_calls + 1))
          remain with
      | error e3 => rw [h3] at h; cases h
      | ok t => rw [h3] at h; cases h; exact ⟨rfl, rfl, rfl, rfl⟩

/-- The END_IO branch keeps `current`, the wait queue, the identifier counter and the
allocator state. -/
theorem do_endio_keeps {M : Type} (env : Env M) (vectors : List String)
    (delays : List Int) (d : Int) (f f1 : Frame M)
    (h : do_endio env vectors delays d f = .ok f1) :
    f1.current = f.current ∧ f1.wait_queue = f.wait_queue ∧
      f1.g.next_pid = f.g.next_pid ∧ f1.g.mem = f.g.mem := by
  unfold do_endio at h
  cases h1 : at_index vectors d with
  | error e1 => rw [h1] at h; cases h
  | ok vec =>
    rw [h1] at h
    cases h2 : at_index delays d with
    | error e2 => rw [h2] at h; cases h
    | ok remain =>
      rw [h2] at h
      dsimp only at h
      cases h3 : device_split (env.rand f.g.rand_calls) (env.rand (f.g.rand_calls + 1))
          remain with
      | error e3 => rw [h3] at h; cases h
      | ok t => rw [h3] at h; cases h; exact ⟨rfl, rfl, rfl, rfl⟩

/-- A line that is neither FORK nor EXEC, when its iteration completes, falls through
to the next iteration with `current`, the wait queue, the identifier counter and the
allocator state unchanged. -/
theorem body_plain_keeps {M : Type} (env : Env M) (sim : Callee M)
    (trace_file vectors : List String) (delays : List Int)
    (external_files : List external_file) (line : String) (f : Frame M)
    (h4 : (env.parse_trace line).1 ≠ "FORK") (h5 : (env.parse_trace line).1 ≠ "EXEC")
    (c : Ctl) (f1 : Frame M)
    (h : body env sim trace_file vectors delays external_files line f = .ok (c, f1)) :
    c = .next ∧ f1.current = f.current ∧ f1.wait_queue = f.wait_queue ∧
      f1.g.next_pid = f.g.next_pid ∧ f1.g.mem = f.g.mem := by
  by_cases h1 : (env.parse_trace line).1 = "CPU"
  · rw [body_cpu env sim trace_file vectors delays external_files line f h1] at h
    cases h
    exact ⟨rfl, rfl, rfl, rfl, rfl⟩
  by_cases h2 : (env.parse_trace line).1 = "SYSCALL"
  · rw [body_syscall env sim trace_file vectors delays external_files line f h2] at h
    cases hs : do_syscall env vectors delays (env.parse_trace line).2.1 f with
    | error e => rw [hs] at h; cases h
    | ok f2 =>
      rw [hs] at h
      cases h
      exact ⟨rfl, do_syscall_keeps env vectors delays _ f _ hs⟩
  by_cases h3 : (env.parse_trace line).1 = "END_IO"
  · rw [body_endio env sim trace_file vectors delays external_files line f h3] at h
    cases hs : do_endio env vectors delays (env.parse_trace line).2.1 f with
    | error e => rw [hs] at h; cases h
    | ok f2 =>
      rw [hs] at h
      cases h
      exact ⟨rfl, do_endio_keeps env vectors delays _ f _ hs⟩
  rw [body_other env sim trace_file vectors delays external_files line f h1 h2 h3 h4 h5] at h
  cases h
  exact ⟨rfl, rfl, rfl, rfl, rfl⟩

/-- A FORK whose allocation fails falls through with `current` and the wait queue
unchanged and the identifier counter advanced by one. -/
theorem body_fork_failed_keeps {M : Type} (env : Env M) (sim : Callee M)
    (trace_file vectors : List String) (delays : List Int)
    (external_files : List external_file) (line : String) (f : Frame M)
    (hact : (env.parse_trace line).1 = "FORK") (hfail : (fork_alloc env f).1 = false) :
    ∃ f1 : Frame M,
      body env sim trace_file vectors delays external_files line f = .ok (.next, f1) ∧
      f1.current = f.current ∧ f1.wait_queue = f.wait_queue ∧
      f1.g.next_pid = (f.g.next_pid + 1) % 2 ^ 32 := by
  rw [body_fork env sim trace_file vectors delays external_files line f hact,
    do_fork_failed env sim trace_file vectors delays external_files line _ f hfail]
  exact ⟨_, rfl, rfl, rfl, rfl⟩

/-- A FORK whose allocation succeeds runs the recursive simulation on the child trace,
with the child as `current`, the parent pushed on the wait queue and the identifier
counter advanced by one.  If the recursive simulation faults so does the iteration;
if it returns `r`, the iteration falls through with `current` and the wait queue as
before the FORK and the globals as the recursive simulation left them. -/
theorem body_fork_call {M : Type} (env : Env M) (sim : Callee M)
    (trace_file vectors : List String) (delays : List Int)
    (external_files : List external_file) (line : String) (f : Frame M)
    (hact : (env.parse_trace line).1 = "FORK") (hsucc : ¬ (fork_alloc env f).1 = false) :
    (∃ e, sim (fork_subtrace env trace_file f) (fork_start env vectors line f) vectors delays
        external_files (fork_alloc env f).2.1 (f.wait_queue ++ [f.current])
        (fork_globals env f) = .error e ∧
      body env sim trace_file vectors delays external_files line f = .error e) ∨
    (∃ r f1, sim (fork_subtrace env trace_file f) (fork_start env vectors line f) vectors
        delays external_files (fork_alloc env f).2.1 (f.wait_queue ++ [f.current])
        (fork_globals env f) = .ok r ∧
      body env sim trace_file vectors delays external_files line f = .ok (.next, f1) ∧
      f1.current = f.current ∧ f1.wait_queue = f.wait_queue ∧ f1.g = r.g) := by
  have hs : (fork_alloc env f).1 = true := by
    cases hb : (fork_alloc env f).1
    · exact absurd hb hsucc
    · rfl
  cases hr : sim (fork_subtrace env trace_file f) (fork_start env vectors line f) vectors
      delays external_files (fork_alloc env f).2.1 (f.wait_queue ++ [f.current])
      (fork_globals env f) with
  | error e =>
    left
    refine ⟨e, rfl, ?_⟩
    rw [body_fork env sim trace_file vectors delays external_files line f hact]
    exact do_fork_error env sim trace_file vectors delays external_files line _ f e hs hr
  | ok r =>
    right
    refine ⟨r, ?_⟩
    rw [body_fork env sim trace_file vectors delays external_files line f hact,
      do_fork_success env sim trace_file vectors delays external_files line _ f r hs hr]
    exact ⟨_, rfl, rfl, rfl, rfl, rfl⟩

/-- An EXEC whose allocation fails ends the invocation at once, with the identifier
counter and the wait queue unchanged. -/
theorem body_exec_failed_keeps {M : Type} (env : Env M) (sim : Callee M)
    (trace_file vectors : List String) (delays : List Int)
    (external_files : List external_file) (line : String) (f : Frame M)
    (hact : (env.parse_trace line).1 = "EXEC")
    (hfail : (exec_alloc env external_files (env.parse_trace line).2.2 f).1 = false) :
    ∃ f1 : Frame M,
      body env sim trace_file vectors delays external_files line f = .ok (.ret, f1) ∧
      f1.wait_queue = f.wait_queue ∧ f1.g.next_pid = f.g.next_pid := by
  rw [body_exec env sim trace_file vectors delays external_files line f hact,
    do_exec_unfold, if_pos hfail]
  exact ⟨_, rfl, rfl, rfl⟩

/-- An EXEC whose allocation succeeds runs the recursive simulation on the lines of the
program file, with the re-allocated descriptor as `current` and the wait queue as it
is.  If the recursive simulation faults so does the iteration; if it returns `r`, the
iteration leaves the loop with the globals as the recursive simulation left them and
`current` still the re-allocated descriptor. -/
theorem body_exec_call {M : Type} (env : Env M) (sim : Callee M)
    (trace_file vectors : List String) (delays : List Int)
    (external_files : List external_file) (line : String) (f : Frame M)
    (hact : (env.parse_trace line).1 = "EXEC")
    (hsucc : ¬ (exec_alloc env external_files (env.parse_trace line).2.2 f).1 = false) :
    (∃ e, sim (env.read_lines ((env.parse_trace line).2.2 ++ ".txt"))
        (exec_start env vectors external_files line f) vectors delays external_files
        (exec_alloc env external_files (env.parse_trace line).2.2 f).2.1 f.wait_queue
        (exec_globals env external_files line f) = .error e ∧
      body env sim trace_file vectors delays external_files line f = .error e) ∨
    (∃ r f1, sim (env.read_lines ((env.parse_trace line).2.2 ++ ".txt"))
        (exec_start env vectors external_files line f) vectors delays external_files
        (exec_alloc env external_files (env.parse_trace line).2.2 f).2.1 f.wait_queue
        (exec_globals env external_files line f) = .ok r ∧
      body env sim trace_file vectors delays external_files line f = .ok (.brk, f1) ∧
      f1.current = (exec_alloc env external_files (env.parse_trace line).2.2 f).2.1 ∧
      f1.wait_queue = f.wait_queue ∧ f1.g = r.g) := by
  rw [body_exec env sim trace_file vectors delays external_files line f hact,
    do_exec_unfold, if_neg hsucc]
  cases hr : sim (env.read_lines ((env.parse_trace line).2.2 ++ ".txt"))
      (exec_start env vectors external_files line f) vectors delays external_files
      (exec_alloc env external_files (env.parse_trace line).2.2 f).2.1 f.wait_queue
      (exec_globals env external_files line f) with
  | error e =>
    left
    refine ⟨e, rfl, ?_⟩
    have hr2 := hr
    unfold exec_start exec_globals at hr2
    rw [hr2]
  | ok r =>
    right
    refine ⟨r, ?_⟩
    have hr2 := hr
    unfold exec_start exec_globals at hr2
    rw [hr2]
    exact ⟨_, rfl, rfl, rfl, rfl, rfl⟩


/-- C15 (evaluation at the failing input). The top-level trace is the single line
`EXEC program1, 50`, the program file holds `CPU,7`, and the allocator keeps a ledger of
the partitions handed out and of the partitions released.  The EXEC allocates
partition 1; the invocation for the new program runs to exhaustion and releases
partition 1; the main loop of the calling invocation is then left by `break` with its
own copy of `current` still carrying partition 1, and the calling invocation releases
partition 1 a second time before it returns: one partition handed out, two releases
of it. -/
theorem exec_releases_twice :
    (loop ledger_env (simulate_trace ledger_env 1) ["EXEC program1, 50"] ["a", "b", "c"]
        [1, 2, 16] [⟨"program1", 2⟩] 1 ⟨[], [], 0, 0, init_pcb, [], ⟨1, ([], []), 0⟩⟩).map
      (fun x => (x.1, x.2.current.partition_number, x.2.g.mem)) =
      .ok (Ctl.brk, 1, ([1], [1])) ∧
    (simulate_trace ledger_env 2 ["EXEC program1, 50"] 0 ["a", "b", "c"] [1, 2, 16]
        [⟨"program1", 2⟩] init_pcb [] ⟨1, ([], []), 0⟩).map (fun r => r.g.mem) =
      .ok ([1], [1, 1]) := by
  refine ⟨by decide, by decide⟩


/-! ### The nested invocation made by one iteration -/

/-- The allocation attempt of EXEC in the environment with the slot: as in `env`, the
slot staying empty. -/
theorem exec_alloc_probe {M : Type} (env : Env M) (external_files : List external_file)
    (name : String) (f : Frame M) :
    exec_alloc (probe_env env) external_files name
      ⟨f.exec_log, f.status_log, f.now, f.idx, f.current, f.wait_queue,
        ⟨f.g.next_pid, (f.g.mem, none), f.g.rand_calls⟩⟩ =
      ((exec_alloc env external_files name f).1, (exec_alloc env external_files name f).2.1,
        ((exec_alloc env external_files name f).2.2, none)) := by
  unfold exec_alloc exec_freed
  by_cases hp : f.current.partition_number ≠ -1
  · simp only [if_pos hp]; rfl
  · simp only [if_neg hp]; rfl

/-- A FORK whose allocation fails makes no nested invocation. -/
theorem call_of_fork_failed {M : Type} (env : Env M)
    (trace_file vectors : List String) (delays : List Int)
    (external_files : List external_file) (line : String) (f : Frame M)
    (hact : (env.parse_trace line).1 = "FORK") (hfail : (fork_alloc env f).1 = false) :
    call_of env trace_file vectors delays external_files line f = none := by
  have hf2 : ((probe_env env).allocate_memory
      { f.current with PID := f.g.next_pid, partition_number := -1 }
      (f.g.mem, (none : Option (Call M)))).1 = false := hfail
  unfold call_of
  rw [body_fork (probe_env env) probe trace_file vectors delays external_files line _ hact,
    do_fork_failed (probe_env env) probe trace_file vectors delays external_files line _
      ⟨f.exec_log, f.status_log, f.now, f.idx, f.current, f.wait_queue,
        ⟨f.g.next_pid, (f.g.mem, none), f.g.rand_calls⟩⟩ hf2]
  rfl

/-- A FORK whose allocation succeeds makes one nested invocation: on the child trace,
with the child descriptor as `current`, the parent pushed on the wait queue and the
identifier counter advanced by one. -/
theorem call_of_fork {M : Type} (env : Env M)
    (trace_file vectors : List String) (delays : List Int)
    (external_files : List external_file) (line : String) (f : Frame M)
    (hact : (env.parse_trace line).1 = "FORK") (hsucc : ¬ (fork_alloc env f).1 = false) :
    call_of env trace_file vectors delays external_files line f =
      some ⟨fork_subtrace env trace_file f, fork_start env vectors line f, vectors, delays,
        external_files, (fork_alloc env f).2.1, f.wait_queue ++ [f.current],
        fork_globals env f⟩ := by
  have hs : (fork_alloc env f).1 = true := by
    cases hb : (fork_alloc env f).1
    · exact absurd hb hsucc
    · rfl
  have hs2 : ((probe_env env).allocate_memory
      { f.current with PID := f.g.next_pid, partition_number := -1 }
      (f.g.mem, (none : Option (Call M)))).1 = true := hs
  unfold call_of
  rw [body_fork (probe_env env) probe trace_file vectors delays external_files line _ hact,
    do_fork_success (probe_env env) probe trace_file vectors delays external_files line _
      ⟨f.exec_log, f.status_log, f.now, f.idx, f.current, f.wait_queue,
        ⟨f.g.next_pid, (f.g.mem, none), f.g.rand_calls⟩⟩ _ hs2 rfl]
  rfl

/-- An EXEC whose allocation fails makes no nested invocation. -/
theorem call_of_exec_failed {M : Type} (env : Env M)
    (trace_file vectors : List String) (delays : List Int)
    (external_files : List external_file) (line : String) (f : Frame M)
    (hact : (env.parse_trace line).1 = "EXEC")
    (hfail : (exec_alloc env external_files (env.parse_trace line).2.2 f).1 = false) :
    call_of env trace_file vectors delays external_files line f = none := by
  have hact2 : ((probe_env env).parse_trace line).1 = "EXEC" := hact
  have h2 : (exec_alloc (probe_env env) external_files
      ((probe_env env).parse_trace line).2.2
      ⟨f.exec_log, f.status_log, f.now, f.idx, f.current, f.wait_queue,
        ⟨f.g.next_pid, (f.g.mem, none), f.g.rand_calls⟩⟩).1 = false := by
    rw [exec_alloc_probe]
    exact hfail
  unfold call_of
  rw [body_exec (probe_env env) probe trace_file vectors delays external_files line _ hact2,
    do_exec_unfold, if_pos h2]
  dsimp only
  rw [exec_alloc_probe]

/-- An EXEC whose allocation succeeds makes one nested invocation: on the lines of the
program file, with the re-allocated descriptor as `current` and the wait queue as it
is. -/
theorem call_of_exec {M : Type} (env : Env M)
    (trace_file vectors : List String) (delays : List Int)
    (external_files : List external_file) (line : String) (f : Frame M)
    (hact : (env.parse_trace line).1 = "EXEC")
    (hsucc : ¬ (exec_alloc env external_files (env.parse_trace line).2.2 f).1 = false) :
    call_of env trace_file vectors delays external_files line f =
      some ⟨env.read_lines ((env.parse_trace line).2.2 ++ ".txt"),
        exec_start env vectors external_files line f, vectors, delays, external_files,
        (exec_alloc env external_files (env.parse_trace line).2.2 f).2.1, f.wait_queue,
        exec_globals env external_files line f⟩ := by
  have hact2 : ((probe_env env).parse_trace line).1 = "EXEC" := hact
  have h2 : ¬ (exec_alloc (probe_env env) external_files
      ((probe_env env).parse_trace line).2.2
      ⟨f.exec_log, f.status_log, f.now, f.idx, f.current, f.wait_queue,
        ⟨f.g.next_pid, (f.g.mem, none), f.g.rand_calls⟩⟩).1 = false := by
    rw [exec_alloc_probe]
    exact hsucc
  unfold call_of
  rw [body_exec (probe_env env) probe trace_file vectors delays external_files line _ hact2,
    do_exec_unfold, if_neg h2]
  unfold probe
  dsimp only
  rw [exec_alloc_probe]
  rfl

/-- A line that is neither FORK nor EXEC makes no nested invocation. -/
theorem call_of_plain {M : Type} (env : Env M)
    (trace_file vectors : List String) (delays : List Int)
    (external_files : List external_file) (line : String) (f : Frame M)
    (h4 : (env.parse_trace line).1 ≠ "FORK") (h5 : (env.parse_trace line).1 ≠ "EXEC") :
    call_of env trace_file vectors delays external_files line f = none := by
  unfold call_of
  cases hb : body (probe_env env) probe trace_file vectors delays external_files line
      ⟨f.exec_log, f.status_log, f.now, f.idx, f.current, f.wait_queue,
        ⟨f.g.next_pid, (f.g.mem, none), f.g.rand_calls⟩⟩ with
  | error e => rfl
  | ok x =>
    obtain ⟨c, f1⟩ := x
    have hk := body_plain_keeps (probe_env env) probe trace_file vectors delays
      external_files line _ h4 h5 c f1 hb
    show f1.g.mem.2 = none
    rw [hk.2.2.2.2]

/-- A line that is neither FORK nor EXEC is handled without the callee. -/
theorem body_plain_indep {M : Type} (env : Env M) (sim1 sim2 : Callee M)
    (trace_file vectors : List String) (delays : List Int)
    (external_files : List external_file) (line : String) (f : Frame M)
    (h4 : (env.parse_trace line).1 ≠ "FORK") (h5 : (env.parse_trace line).1 ≠ "EXEC") :
    body env sim1 trace_file vectors delays external_files line f =
      body env sim2 trace_file vectors delays external_files line f := by
  by_cases h1 : (env.parse_trace line).1 = "CPU"
  · rw [body_cpu env sim1 trace_file vectors delays external_files line f h1,
      body_cpu env sim2 trace_file vectors delays external_files line f h1]
  by_cases h2 : (env.parse_trace line).1 = "SYSCALL"
  · rw [body_syscall env sim1 trace_file vectors delays external_files line f h2,
      body_syscall env sim2 trace_file vectors delays external_files line f h2]
  by_cases h3 : (env.parse_trace line).1 = "END_IO"
  · rw [body_endio env sim1 trace_file vectors delays external_files line f h3,
      body_endio env sim2 trace_file vectors delays external_files line f h3]
  rw [body_other env sim1 trace_file vectors delays external_files line f h1 h2 h3 h4 h5,
    body_other env sim2 trace_file vectors delays external_files line f h1 h2 h3 h4 h5]

/-- When `call_of` finds no nested invocation, the iteration does not depend on the
callee. -/
theorem call_of_none_indep {M : Type} (env : Env M) (sim1 sim2 : Callee M)
    (trace_file vectors : List String) (delays : List Int)
    (external_files : List external_file) (line : String) (f : Frame M)
    (h : call_of env trace_file vectors delays external_files line f = none) :
    body env sim1 trace_file vectors delays external_files line f =
      body env sim2 trace_file vectors delays external_files line f := by
  by_cases h4 : (env.parse_trace line).1 = "FORK"
  · by_cases ha : (fork_alloc env f).1 = false
    · rw [body_fork env sim1 trace_file vectors delays external_files line f h4,
        body_fork env sim2 trace_file vectors delays external_files line f h4,
        do_fork_failed env sim1 trace_file vectors delays external_files line _ f ha,
        do_fork_failed env sim2 trace_file vectors delays external_files line _ f ha]
    · rw [call_of_fork env trace_file vectors delays external_files line f h4 ha] at h
      cases h
  · by_cases h5 : (env.parse_trace line).1 = "EXEC"
    · by_cases ha : (exec_alloc env external_files (env.parse_trace line).2.2 f).1 = false
      · rw [body_exec env sim1 trace_file vectors delays external_files line f h5,
          body_exec env sim2 trace_file vectors delays external_files line f h5,
          do_exec_unfold, do_exec_unfold, if_pos ha, if_pos ha]
      · rw [call_of_exec env trace_file vectors delays external_files line f h5 ha] at h
        cases h
    · exact body_plain_indep env sim1 sim2 trace_file vectors delays external_files line f
        h4 h5

/-- When `call_of` finds the nested invocation `c`, the iteration does call the callee
with the arguments `c`: a fault of the callee on these arguments is a fault of the
iteration, and two callees that agree on these arguments give the same iteration. -/
theorem call_of_some_called {M : Type} (env : Env M)
    (trace_file vectors : List String) (delays : List Int)
    (external_files : List external_file) (line : String) (f : Frame M) (c : Call M)
    (h : call_of env trace_file vectors delays external_files line f = some c) :
    (∀ (sim : Callee M) (e : Fault),
      sim c.trace_file c.start_time c.vectors c.delays c.external_files c.current
        c.wait_queue c.g = .error e →
      body env sim trace_file vectors delays external_files line f = .error e) ∧
    (∀ sim1 sim2 : Callee M,
      sim1 c.trace_file c.start_time c.vectors c.delays c.external_files c.current
        c.wait_queue c.g =
      sim2 c.trace_file c.start_time c.vectors c.delays c.external_files c.current
        c.wait_queue c.g →
      body env sim1 trace_file vectors delays external_files line f =
        body env sim2 trace_file vectors delays external_files line f) := by
  by_cases h4 : (env.parse_trace line).1 = "FORK"
  · by_cases ha : (fork_alloc env f).1 = false
    · rw [call_of_fork_failed env trace_file vectors delays external_files line f h4 ha] at h
      cases h
    · rw [call_of_fork env trace_file vectors delays external_files line f h4 ha] at h
      cases h
      have hs : (fork_alloc env f).1 = true := by
        cases hb : (fork_alloc env f).1
        · exact absurd hb ha
        · rfl
      refine ⟨?_, ?_⟩
      · intro sim e he
        rw [body_fork env sim trace_file vectors delays external_files line f h4]
        exact do_fork_error env sim trace_file vectors delays external_files line _ f e hs he
      · intro sim1 sim2 he
        rw [body_fork env sim1 trace_file vectors delays external_files line f h4,
          body_fork env sim2 trace_file vectors delays external_files line f h4]
        cases hr : sim2 (fork_subtrace env trace_file f) (fork_start env vectors line f)
            vectors delays external_files (fork_alloc env f).2.1
            (f.wait_queue ++ [f.current]) (fork_globals env f) with
        | error e =>
          rw [do_fork_error env sim2 trace_file vectors delays external_files line _ f e hs
            hr]
          exact do_fork_error env sim1 trace_file vectors delays external_files line _ f e hs
            (he.trans hr)
        | ok r =>
          rw [do_fork_success env sim2 trace_file vectors delays external_files line _ f r hs
            hr]
          exact do_fork_success env sim1 trace_file vectors delays external_files line _ f r
            hs (he.trans hr)
  · by_cases h5 : (env.parse_trace line).1 = "EXEC"
    · by_cases ha : (exec_alloc env external_files (env.parse_trace line).2.2 f).1 = false
      · rw [call_of_exec_failed env trace_file vectors delays external_files line f h5 ha]
          at h
        cases h
      · rw [call_of_exec env trace_file vectors delays external_files line f h5 ha] at h
        cases h
        refine ⟨?_, ?_⟩
        · intro sim e he
          rcases body_exec_call env sim trace_file vectors delays external_files line f h5 ha
            with ⟨e2, he2, hb⟩ | ⟨r, f1, hr, _⟩
          · rw [hb]
            rw [he2] at he
            cases he
            rfl
          · rw [hr] at he
            cases he
        · intro sim1 sim2 he
          rw [body_exec env sim1 trace_file vectors delays external_files line f h5,
            body_exec env sim2 trace_file vectors delays external_files line f h5,
            do_exec_unfold, do_exec_unfold, if_neg ha, if_neg ha]
          have he2 := he
          unfold exec_start exec_globals at he2
          dsimp only at he2 ⊢
          rw [he2]
    · rw [call_of_plain env trace_file vectors delays external_files line f h4 h5] at h
      cases h

/-! ### The wait queue of nested invocations -/

/-- A record entered by the main loop is entered either in the first iteration or, if
that iteration falls through, by the loop that goes on behind it. -/
theorem loop_calls_mem {M : Type} (env : Env M) (sim : Callee M)
    (sub : Nat → Nat → Nat → List PCB → Call M → List CallRecord)
    (trace_file vectors : List String) (delays : List Int)
    (external_files : List external_file) (depth forks execs : Nat) (ancestors : List PCB)
    (k : Nat) (f : Frame M) (c : CallRecord)
    (h : c ∈ loop_calls env sim sub trace_file vectors delays external_files depth forks
      execs ancestors (k + 1) f) :
    ∃ line, trace_file[f.idx]? = some line ∧
      (c ∈ calls_at env sub trace_file vectors delays external_files depth forks execs
          ancestors line f ∨
        ∃ f1, body env sim trace_file vectors delays external_files line f = .ok (.next, f1) ∧
          c ∈ loop_calls env sim sub trace_file vectors delays external_files depth forks
            execs ancestors k { f1 with idx := f1.idx + 1 }) := by
  unfold loop_calls at h
  cases hline : trace_file[f.idx]? with
  | none => rw [hline] at h; cases h
  | some line =>
    rw [hline] at h
    refine ⟨line, rfl, ?_⟩
    dsimp only at h
    cases hb : body env sim trace_file vectors delays external_files line f with
    | error e => rw [hb] at h; exact Or.inl h
    | ok x =>
      obtain ⟨ctl, f1⟩ := x
      rw [hb] at h
      cases ctl with
      | next =>
        dsimp only at h
        rcases List.mem_append.1 h with h1 | h1
        · exact Or.inl h1
        · exact Or.inr ⟨f1, rfl, h1⟩
      | brk => exact Or.inl h
      | ret => exact Or.inl h

/-- The wait-queue invariant of one invocation: if the frame holds as its wait queue
the chain of the descriptors suspended by FORK, every nested invocation the loop starts
receives the chain of its own suspended ancestors, provided the invocations below do
likewise. -/
theorem loop_calls_chain {M : Type} (env : Env M) (sim : Callee M)
    (sub : Nat → Nat → Nat → List PCB → Call M → List CallRecord)
    (trace_file vectors : List String) (delays : List Int)
    (external_files : List external_file) (depth forks execs : Nat) (ancestors : List PCB)
    (hsub : ∀ dp fk ex a (cl : Call M), cl.wait_queue = a → a.length = fk → dp = fk + ex →
      ∀ c ∈ sub dp fk ex a cl,
        c.wait_queue = c.ancestors ∧ c.wait_queue.length = c.forks ∧
          c.depth = c.forks + c.execs)
    (hlen : ancestors.length = forks) (hdp : depth = forks + execs) :
    ∀ (k : Nat) (f : Frame M), f.wait_queue = ancestors →
      ∀ c ∈ loop_calls env sim sub trace_file vectors delays external_files depth forks
        execs ancestors k f,
        c.wait_queue = c.ancestors ∧ c.wait_queue.length = c.forks ∧
          c.depth = c.forks + c.execs := by
  intro k
  induction k with
  | zero => intro f _ c hc; unfold loop_calls at hc; cases hc
  | succ k ih =>
    intro f hf c hc
    obtain ⟨line, hline, hc⟩ := loop_calls_mem env sim sub trace_file vectors delays
      external_files depth forks execs ancestors k f c hc
    rcases hc with hc | ⟨f1, hb, hc⟩
    · unfold calls_at at hc
      by_cases h4 : (env.parse_trace line).1 = "FORK"
      · by_cases ha : (fork_alloc env f).1 = false
        · rw [call_of_fork_failed env trace_file vectors delays external_files line f h4 ha]
            at hc
          cases hc
        · rw [call_of_fork env trace_file vectors delays external_files line f h4 ha] at hc
          dsimp only at hc
          rw [if_pos h4] at hc
          rcases List.mem_cons.1 hc with hc | hc
          · subst hc
            refine ⟨?_, ?_, ?_⟩
            · show f.wait_queue ++ [f.current] = ancestors ++ [f.current]
              rw [hf]
            · show (f.wait_queue ++ [f.current]).length = forks + 1
              rw [hf, List.length_append, hlen]; rfl
            · show depth + 1 = forks + 1 + execs
              omega
          · exact hsub _ _ _ _ _ (by show f.wait_queue ++ [f.current] = _; rw [hf])
              (by rw [List.length_append, hlen]; rfl) (by omega) c hc
      · by_cases h5 : (env.parse_trace line).1 = "EXEC"
        · by_cases ha : (exec_alloc env external_files (env.parse_trace line).2.2 f).1 = false
          · rw [call_of_exec_failed env trace_file vectors delays external_files line f h5
              ha] at hc
            cases hc
          · rw [call_of_exec env trace_file vectors delays external_files line f h5 ha] at hc
            dsimp only at hc
            rw [if_neg h4] at hc
            rcases List.mem_cons.1 hc with hc | hc
            · subst hc
              refine ⟨hf, ?_, ?_⟩
              · show f.wait_queue.length = forks
                rw [hf, hlen]
              · show depth + 1 = forks + (execs + 1)
                omega
            · exact hsub _ _ _ _ _ hf hlen (by omega) c hc
        · rw [call_of_plain env trace_file vectors delays external_files line f h4 h5] at hc
          cases hc
    · refine ih { f1 with idx := f1.idx + 1 } ?_ c hc
      show f1.wait_queue = ancestors
      by_cases h4 : (env.parse_trace line).1 = "FORK"
      · by_cases ha : (fork_alloc env f).1 = false
        · obtain ⟨f2, hb2, _, hw, _⟩ := body_fork_failed_keeps env sim trace_file vectors
            delays external_files line f h4 ha
          rw [hb] at hb2
          cases hb2
          rw [hw, hf]
        · rcases body_fork_call env sim trace_file vectors delays external_files line f h4 ha
            with ⟨e, _, hb2⟩ | ⟨r, f2, _, hb2, _, hw, _⟩
          · rw [hb] at hb2; cases hb2
          · rw [hb] at hb2
            cases hb2
            rw [hw, hf]
      · by_cases h5 : (env.parse_trace line).1 = "EXEC"
        · rw [body_exec env sim trace_file vectors delays external_files line f h5] at hb
          exact absurd hb (do_exec_leaves env sim vectors delays external_files line _ _ f f1)
        · rw [(body_plain_keeps env sim trace_file vectors delays external_files line f h4 h5
            _ _ hb).2.2.1, hf]

/-- The wait-queue invariant of a run: an invocation that receives as its wait queue the
chain of the descriptors suspended by FORK hands to every invocation nested in it, at
any depth, the chain of that invocation's suspended ancestors. -/
theorem run_calls_chain {M : Type} (env : Env M) :
    ∀ (n depth forks execs : Nat) (ancestors : List PCB) (trace_file : List String)
      (start_time : Int) (vectors : List String) (delays : List Int)
      (external_files : List external_file) (current : PCB) (wait_queue : List PCB)
      (g : Globals M),
      wait_queue = ancestors → ancestors.length = forks → depth = forks + execs →
      ∀ c ∈ run_calls env n depth forks execs ancestors trace_file start_time vectors delays
        external_files current wait_queue g,
        c.wait_queue = c.ancestors ∧ c.wait_queue.length = c.forks ∧
          c.depth = c.forks + c.execs := by
  intro n
  induction n with
  | zero => intro _ _ _ _ _ _ _ _ _ _ _ _ _ _ _ c hc; unfold run_calls at hc; cases hc
  | succ n ih =>
    intro depth forks execs ancestors trace_file start_time vectors delays external_files
      current wait_queue g hw hlen hdp c hc
    unfold run_calls at hc
    exact loop_calls_chain env (simulate_trace env n) _ trace_file vectors delays
      external_files depth forks execs ancestors
      (fun dp fk ex a cl h1 h2 h3 c hc =>
        ih dp fk ex a cl.trace_file cl.start_time cl.vectors cl.delays cl.external_files
          cl.current cl.wait_queue cl.g h1 h2 h3 c hc)
      hlen hdp trace_file.length _ hw c hc

/-- C14 (amended). Starting from a top-level call with an empty wait queue, and for any
bound on the recursion depth, every nested invocation of `simulate_trace` receives as
its wait queue exactly the chain of the descriptors suspended by the FORKs that enclose
it, oldest first: one descriptor for each enclosing invocation that made its call
through FORK and none for an enclosing invocation that made it through EXEC, which hands
its wait queue on unchanged.  The depth `depth` is the number of FORKs plus the number
of EXECs on the path, so the queue holds `depth` descriptors exactly when no EXEC lies
on the path.  The nested invocations and the wait queues they receive are read off the
code by `call_of`. -/
theorem wait_queue_chain {M : Type} (env : Env M) (n : Nat) (trace_file : List String)
    (start_time : Int) (vectors : List String) (delays : List Int)
    (external_files : List external_file) (current : PCB) (g : Globals M)
    (c : CallRecord)
    (hc : c ∈ run_calls env n 0 0 0 [] trace_file start_time vectors delays external_files
      current [] g) :
    c.wait_queue = c.ancestors ∧ c.wait_queue.length = c.forks ∧
      c.depth = c.forks + c.execs ∧ (c.wait_queue.length = c.depth ↔ c.execs = 0) := by
  obtain ⟨h1, h2, h3⟩ := run_calls_chain env n 0 0 0 [] trace_file start_time vectors
    delays external_files current [] g rfl rfl rfl c hc
  refine ⟨h1, h2, h3, ?_⟩
  rw [h2, h3]
  omega

/-- Witness of C14 (amended): in a run with nested FORKs and an EXEC, the program
started by the EXEC of the first child runs two levels down, inside one FORK and one
EXEC, and receives the one descriptor suspended by the enclosing FORK.  The last
component lists depth, FORKs, EXECs and the PIDs in the wait queue for all six nested
invocations of the run. -/
theorem wait_queue_chain_witness :
    (⟨2, 1, 1, [init_pcb], [init_pcb]⟩ : CallRecord) ∈ run_calls demo_env 4 0 0 0 []
      ["FORK,3", "IF_CHILD", "FORK,2", "EXEC program1, 50", "IF_PARENT", "CPU,1", "FORK,1",
        "ENDIF", "FORK,4"] 0 ["a", "b", "c"] [1, 2, 16] [⟨"program1", 2⟩] init_pcb []
      ⟨1, 2, 0⟩ ∧
    ((⟨2, 1, 1, [init_pcb], [init_pcb]⟩ : CallRecord).wait_queue =
        (⟨2, 1, 1, [init_pcb], [init_pcb]⟩ : CallRecord).ancestors ∧
      (⟨2, 1, 1, [init_pcb], [init_pcb]⟩ : CallRecord).wait_queue.length =
        (⟨2, 1, 1, [init_pcb], [init_pcb]⟩ : CallRecord).forks ∧
      (⟨2, 1, 1, [init_pcb], [init_pcb]⟩ : CallRecord).depth =
        (⟨2, 1, 1, [init_pcb], [init_pcb]⟩ : CallRecord).forks +
          (⟨2, 1, 1, [init_pcb], [init_pcb]⟩ : CallRecord).execs ∧
      ((⟨2, 1, 1, [init_pcb], [init_pcb]⟩ : CallRecord).wait_queue.length =
          (⟨2, 1, 1, [init_pcb], [init_pcb]⟩ : CallRecord).depth ↔
        (⟨2, 1, 1, [init_pcb], [init_pcb]⟩ : CallRecord).execs = 0)) ∧
    (run_calls demo_env 4 0 0 0 []
      ["FORK,3", "IF_CHILD", "FORK,2", "EXEC program1, 50", "IF_PARENT", "CPU,1", "FORK,1",
        "ENDIF", "FORK,4"] 0 ["a", "b", "c"] [1, 2, 16] [⟨"program1", 2⟩] init_pcb []
      ⟨1, 2, 0⟩).map
        (fun c => (c.depth, c.forks, c.execs, c.wait_queue.map (fun p => p.PID))) =
      [(1, 1, 0, [0]), (2, 2, 0, [0, 1]), (2, 1, 1, [0]), (1, 1, 0, [0]), (2, 2, 0, [0, 3]),
        (1, 1, 0, [0])] :=
  ⟨by decide,
    wait_queue_chain demo_env 4
      ["FORK,3", "IF_CHILD", "FORK,2", "EXEC program1, 50", "IF_PARENT", "CPU,1", "FORK,1",
        "ENDIF", "FORK,4"] 0 ["a", "b", "c"] [1, 2, 16] [⟨"program1", 2⟩] init_pcb
      ⟨1, 2, 0⟩ ⟨2, 1, 1, [init_pcb], [init_pcb]⟩ (by decide),
    by decide⟩

/-- Counterexample to C14 as stated: a top-level call with an empty wait queue whose
trace is a single EXEC.  The run returns; its only nested invocation, the one for the
new program, is at depth 1 and receives the empty wait queue, not a queue of one
descriptor. -/
theorem wait_queue_chain_counterexample :
    run_calls demo_env 2 0 0 0 [] ["EXEC program1, 50"] 0 ["a", "b", "c"] [1, 2, 16]
      [⟨"program1", 2⟩] init_pcb [] ⟨1, 3, 0⟩ = [⟨1, 0, 1, [], []⟩] ∧
    (⟨1, 0, 1, [], []⟩ : CallRecord).depth = 1 ∧
    (⟨1, 0, 1, [], []⟩ : CallRecord).wait_queue.length = 0 ∧
    (call_of demo_env ["EXEC program1, 50"] ["a", "b", "c"] [1, 2, 16] [⟨"program1", 2⟩]
      "EXEC program1, 50" ⟨[], [], 0, 0, init_pcb, [], ⟨1, 3, 0⟩⟩).map
        (fun c => c.wait_queue) = some [] ∧
    (simulate_trace demo_env 2 ["EXEC program1, 50"] 0 ["a", "b", "c"] [1, 2, 16]
      [⟨"program1", 2⟩] init_pcb [] ⟨1, 3, 0⟩).map (fun r => r.end_time) = .ok 110 := by
  refine ⟨by decide, rfl, rfl, by decide, by decide⟩

/-! ### Process identifiers -/

theorem fresh_from_nil (U : Nat) : fresh_from U [] :=
  ⟨rfl, fun _ h => (by cases h), fun _ h => (by cases h)⟩

theorem fresh_from_append (U : Nat) (E1 E2 : List ForkEvent)
    (h1 : fresh_from U E1) (h2 : fresh_from (U + E1.length) E2) :
    fresh_from U (E1 ++ E2) := by
  refine ⟨?_, ?_, ?_⟩
  · rw [List.map_append, h1.1, h2.1, List.length_append, Nat.add_comm E1.length E2.length]
    exact List.range'_append_1 U E1.length E2.length
  · intro ev hev c hc
    rcases List.mem_append.1 hev with h | h
    · exact h1.2.1 ev h c hc
    · exact h2.2.1 ev h c hc
  · intro ev hev p hp
    rcases List.mem_append.1 hev with h | h
    · exact h1.2.2 ev h p hp
    · exact h2.2.2 ev h p hp

theorem fresh_from_cons (U : Nat) (ev : ForkEvent) (E : List ForkEvent)
    (hcnt : ev.counter = U)
    (hs : ∀ c, ev.child_pid = some c →
      c = U ∧ ev.parent_pid < U ∧ ∀ q ∈ ev.queue_pids, q < U)
    (hr : ∀ p, ev.resumed_pid = some p → p = ev.parent_pid)
    (h : fresh_from (U + 1) E) : fresh_from U (ev :: E) := by
  have h0 : fresh_from U [ev] := by
    refine ⟨?_, ?_, ?_⟩
    · simp [hcnt, List.range']
    · intro e he c hc
      rw [List.mem_singleton] at he
      subst he
      obtain ⟨h1, h2, h3⟩ := hs c hc
      subst h1
      exact ⟨hcnt.symm, h2, h3⟩
    · intro e he p hp
      rw [List.mem_singleton] at he
      subst he
      exact hr p hp
  exact fresh_from_append U [ev] E h0 h

/-- Counter values found in order from `U` upwards are strictly increasing. -/
theorem fresh_from_increasing (U : Nat) (E : List ForkEvent) (h : fresh_from U E) :
    E.Pairwise (fun a b => a.counter < b.counter) := by
  have h1 : (E.map (fun ev => ev.counter)).Pairwise (fun a b => a < b) := by
    rw [h.1]
    exact List.pairwise_lt_range' U E.length
  exact (List.pairwise_map.1 h1)

/-- The main loop on a line of the trace, by the outcome of the iteration. -/
theorem loop_succ {M : Type} (env : Env M) (sim : Callee M)
    (trace_file vectors : List String) (delays : List Int)
    (external_files : List external_file) (line : String) (f : Frame M) (k : Nat)
    (hline : trace_file[f.idx]? = some line) :
    loop env sim trace_file vectors delays external_files (k + 1) f =
      match body env sim trace_file vectors delays external_files line f with
      | .error e => .error e
      | .ok (.next, f1) =>
        loop env sim trace_file vectors delays external_files k { f1 with idx := f1.idx + 1 }
      | .ok (.brk, f1) => .ok (.brk, f1)
      | .ok (.ret, f1) => .ok (.ret, f1) := by
  rw [loop, hline]

/-- The FORKs met by the main loop on a line of the trace: those of the iteration,
followed by those of the loop that goes on if the iteration falls through. -/
theorem loop_forks_succ {M : Type} (env : Env M) (sim : Callee M)
    (sub : Call M → List ForkEvent)
    (trace_file vectors : List String) (delays : List Int)
    (external_files : List external_file) (line : String) (f : Frame M) (k : Nat)
    (hline : trace_file[f.idx]? = some line) :
    loop_forks env sim sub trace_file vectors delays external_files (k + 1) f =
      forks_at env sim sub trace_file vectors delays external_files line f ++
        match body env sim trace_file vectors delays external_files line f with
        | .ok (.next, f1) =>
          loop_forks env sim sub trace_file vectors delays external_files k
            { f1 with idx := f1.idx + 1 }
        | _ => [] := by
  rw [loop_forks, hline]
  dsimp only
  cases hb : body env sim trace_file vectors delays external_files line f with
  | error e => simp
  | ok x =>
    obtain ⟨c, f1⟩ := x
    cases c <;> simp

/-- The descriptor an EXEC tries to re-allocate has the PID of `current`, for an
allocator that leaves PIDs alone. -/
theorem exec_alloc_pid {M : Type} (env : Env M)
    (hpa : ∀ p m, (env.allocate_memory p m).2.1.PID = p.PID)
    (hpf : ∀ p m, (env.free_memory p m).1.PID = p.PID)
    (external_files : List external_file) (name : String) (f : Frame M) :
    (exec_alloc env external_files name f).2.1.PID = f.current.PID := by
  unfold exec_alloc
  rw [hpa]
  show (exec_freed env f).1.PID = f.current.PID
  unfold exec_freed
  by_cases h : f.current.partition_number ≠ -1
  · rw [if_pos h]; exact hpf _ _
  · rw [if_neg h]

/-- The identifier invariant of one invocation.  Let the counter stand at `U` (not yet
wrapped), with the PID of `current` and every PID in the wait queue below `U`, and let
the FORKs met from here on be few enough to stay below `2 ^ 32`.  Then these FORKs find
the counter at `U`, `U + 1`, ... in order, each child gets the value of the counter as
its PID, and when the loop is left the counter stands behind all of them; provided the
recursive invocations do likewise. -/
theorem loop_forks_fresh {M : Type} (env : Env M)
    (hpa : ∀ p m, (env.allocate_memory p m).2.1.PID = p.PID)
    (hpf : ∀ p m, (env.free_memory p m).1.PID = p.PID)
    (sim : Callee M) (sub : Call M → List ForkEvent)
    (trace_file vectors : List String) (delays : List Int)
    (external_files : List external_file)
    (hsub : ∀ (cl : Call M) (U : Nat), cl.g.next_pid = U % 2 ^ 32 → cl.current.PID < U →
      (∀ p ∈ cl.wait_queue, p.PID < U) → U + (sub cl).length ≤ 2 ^ 32 →
      fresh_from U (sub cl) ∧
        ∀ r, sim cl.trace_file cl.start_time cl.vectors cl.delays cl.external_files
            cl.current cl.wait_queue cl.g = .ok r →
          r.g.next_pid = (U + (sub cl).length) % 2 ^ 32) :
    ∀ (k : Nat) (f : Frame M) (U : Nat), f.g.next_pid = U % 2 ^ 32 → f.current.PID < U →
      (∀ p ∈ f.wait_queue, p.PID < U) →
      U + (loop_forks env sim sub trace_file vectors delays external_files k f).length
        ≤ 2 ^ 32 →
      fresh_from U (loop_forks env sim sub trace_file vectors delays external_files k f) ∧
        ∀ c f1, loop env sim trace_file vectors delays external_files k f = .ok (c, f1) →
          f1.g.next_pid =
            (U + (loop_forks env sim sub trace_file vectors delays external_files k
              f).length) % 2 ^ 32 := by
  intro k
  induction k with
  | zero =>
    intro f U hU _ _ _
    refine ⟨by unfold loop_forks; exact fresh_from_nil U, ?_⟩
    intro c f1 h
    unfold loop at h
    by_cases hi : f.idx < trace_file.length
    · rw [if_pos hi] at h; cases h
    · rw [if_neg hi] at h
      cases h
      rw [hU]
      unfold loop_forks
      rfl
  | succ k ih =>
    intro f U hU hcur hwq hlen
    cases hline : trace_file[f.idx]? with
    | none =>
      have hE : loop_forks env sim sub trace_file vectors delays external_files (k + 1) f
          = [] := by
        rw [loop_forks, hline]
      rw [hE]
      refine ⟨fresh_from_nil U, ?_⟩
      intro c f1 h
      rw [loop, hline] at h
      cases h
      rw [hU]
      rfl
    | some line =>
      rw [loop_forks_succ env sim sub trace_file vectors delays external_files line f k
        hline] at hlen ⊢
      rw [loop_succ env sim trace_file vectors delays external_files line f k hline]
      have hqs : ∀ q ∈ f.wait_queue.map (fun p => p.PID), q < U := by
        intro q hq
        obtain ⟨p, hp, rfl⟩ := List.mem_map.1 hq
        exact hwq p hp
      by_cases h4 : (env.parse_trace line).1 = "FORK"
      · by_cases ha : (fork_alloc env f).1 = false
        · -- failed FORK
          obtain ⟨f1, hb, hc1, hw1, hn1⟩ := body_fork_failed_keeps env sim trace_file vectors
            delays external_files line f h4 ha
          have hat : forks_at env sim sub trace_file vectors delays external_files line f =
              [⟨f.g.next_pid, none, f.current.PID, f.wait_queue.map (fun p => p.PID),
                some f1.current.PID⟩] := by
            unfold forks_at
            rw [if_pos h4, hb,
              call_of_fork_failed env trace_file vectors delays external_files line f h4 ha]
            rfl
          rw [hat, hb] at hlen ⊢
          dsimp only at hlen ⊢
          rw [List.length_append, List.length_singleton] at hlen
          have hUlt : U < 2 ^ 32 := by omega
          have hUm : U % 2 ^ 32 = U := Nat.mod_eq_of_lt hUlt
          have hih := ih { f1 with idx := f1.idx + 1 } (U + 1)
            (by show f1.g.next_pid = (U + 1) % 2 ^ 32
                rw [hn1, hU, hUm])
            (by show f1.current.PID < U + 1
                rw [hc1]; omega)
            (by intro p hp
                have hp2 : p ∈ f.wait_queue := by rw [← hw1]; exact hp
                have := hwq p hp2
                omega)
            (by omega)
          refine ⟨?_, ?_⟩
          · refine fresh_from_cons U _ _ ?_ ?_ ?_ hih.1
            · show f.g.next_pid = U
              rw [hU, hUm]
            · intro c hc; cases hc
            · intro p hp
              have hp2 : some f1.current.PID = some p := hp
              cases hp2
              show f1.current.PID = f.current.PID
              rw [hc1]
          · intro c f2 h
            rw [hih.2 c f2 h, List.length_append, List.length_singleton]
            congr 1
            omega
        · -- successful FORK
          have hcall := call_of_fork env trace_file vectors delays external_files line f h4
            ha
          have hat : forks_at env sim sub trace_file vectors delays external_files line f =
              ⟨f.g.next_pid, some (fork_alloc env f).2.1.PID, f.current.PID,
                f.wait_queue.map (fun p => p.PID),
                match body env sim trace_file vectors delays external_files line f with
                | .ok x => some x.2.current.PID
                | .error _ => none⟩ ::
              sub ⟨fork_subtrace env trace_file f, fork_start env vectors line f, vectors,
                delays, external_files, (fork_alloc env f).2.1, f.wait_queue ++ [f.current],
                fork_globals env f⟩ := by
            unfold forks_at
            rw [if_pos h4, hcall]
            rfl
          have hpid : (fork_alloc env f).2.1.PID = f.g.next_pid := by
            unfold fork_alloc
            rw [hpa]
          rw [hat] at hlen ⊢
          rw [List.length_append, List.length_cons] at hlen
          have hUlt : U < 2 ^ 32 := by omega
          have hUm : U % 2 ^ 32 = U := Nat.mod_eq_of_lt hUlt
          have hch := hsub ⟨fork_subtrace env trace_file f, fork_start env vectors line f,
            vectors, delays, external_files, (fork_alloc env f).2.1,
            f.wait_queue ++ [f.current], fork_globals env f⟩ (U + 1)
            (by show (f.g.next_pid + 1) % 2 ^ 32 = (U + 1) % 2 ^ 32
                rw [hU, hUm])
            (by show (fork_alloc env f).2.1.PID < U + 1
                rw [hpid, hU, hUm]; omega)
            (by intro p hp
                rcases List.mem_append.1 hp with hp | hp
                · have := hwq p hp
                  omega
                · rw [List.mem_singleton] at hp
                  subst hp
                  omega)
            (by omega)
          have hev : ∀ c, some (fork_alloc env f).2.1.PID = some c →
              c = U ∧ f.current.PID < U ∧
                ∀ q ∈ f.wait_queue.map (fun p => p.PID), q < U := by
            intro c hc
            cases hc
            exact ⟨by rw [hpid, hU, hUm], hcur, hqs⟩
          rcases body_fork_call env sim trace_file vectors delays external_files line f h4 ha
            with ⟨e, _, hb⟩ | ⟨r, f1, hr, hb, hc1, hw1, hg1⟩
          · rw [hb]
            dsimp only
            rw [List.append_nil]
            refine ⟨?_, fun c f2 h => by cases h⟩
            refine fresh_from_cons U _ _ ?_ hev ?_ hch.1
            · show f.g.next_pid = U
              rw [hU, hUm]
            · intro p hp; cases hp
          · rw [hb] at hlen ⊢
            dsimp only at hlen ⊢
            have hih := ih { f1 with idx := f1.idx + 1 }
              (U + 1 + (sub ⟨fork_subtrace env trace_file f, fork_start env vectors line f,
                vectors, delays, external_files, (fork_alloc env f).2.1,
                f.wait_queue ++ [f.current], fork_globals env f⟩).length)
              (by show f1.g.next_pid = _
                  rw [hg1]
                  exact hch.2 r hr)
              (by show f1.current.PID < _
                  rw [hc1]; omega)
              (by intro p hp
                  have hp2 : p ∈ f.wait_queue := by rw [← hw1]; exact hp
                  have := hwq p hp2
                  omega)
              (by omega)
            refine ⟨?_, ?_⟩
            · refine fresh_from_append U _ _ ?_ ?_
              · refine fresh_from_cons U _ _ ?_ hev ?_ hch.1
                · show f.g.next_pid = U
                  rw [hU, hUm]
                · intro p hp
                  have hp2 : some f1.current.PID = some p := hp
                  cases hp2
                  show f1.current.PID = f.current.PID
                  rw [hc1]
              · rw [List.length_cons]
                have he : U + ((sub ⟨fork_subtrace env trace_file f,
                    fork_start env vectors line f, vectors, delays, external_files,
                    (fork_alloc env f).2.1, f.wait_queue ++ [f.current],
                    fork_globals env f⟩).length + 1) =
                    U + 1 + (sub ⟨fork_subtrace env trace_file f,
                    fork_start env vectors line f, vectors, delays, external_files,
                    (fork_alloc env f).2.1, f.wait_queue ++ [f.current],
                    fork_globals env f⟩).length := by omega
                rw [he]
                exact hih.1
            · intro c f2 h
              rw [hih.2 c f2 h, List.length_append, List.length_cons]
              congr 1
              omega
      · by_cases h5 : (env.parse_trace line).1 = "EXEC"
        · by_cases ha : (exec_alloc env external_files (env.parse_trace line).2.2 f).1 = false
          · -- failed EXEC
            obtain ⟨f1, hb, _, hn1⟩ := body_exec_failed_keeps env sim trace_file vectors
              delays external_files line f h5 ha
            have hat : forks_at env sim sub trace_file vectors delays external_files line f
                = [] := by
              unfold forks_at
              rw [if_neg h4,
                call_of_exec_failed env trace_file vectors delays external_files line f h5
                  ha]
              rfl
            rw [hat, hb]
            dsimp only
            refine ⟨fresh_from_nil U, ?_⟩
            intro c f2 h
            cases h
            rw [hn1, hU]
            rfl
          · -- successful EXEC
            have hat : forks_at env sim sub trace_file vectors delays external_files line f
                = sub ⟨env.read_lines ((env.parse_trace line).2.2 ++ ".txt"),
                  exec_start env vectors external_files line f, vectors, delays,
                  external_files,
                  (exec_alloc env external_files (env.parse_trace line).2.2 f).2.1,
                  f.wait_queue, exec_globals env external_files line f⟩ := by
              unfold forks_at
              rw [if_neg h4,
                call_of_exec env trace_file vectors delays external_files line f h5 ha]
              rfl
            rw [hat] at hlen ⊢
            have hlen2 : U + (sub ⟨env.read_lines ((env.parse_trace line).2.2 ++ ".txt"),
                  exec_start env vectors external_files line f, vectors, delays,
                  external_files,
                  (exec_alloc env external_files (env.parse_trace line).2.2 f).2.1,
                  f.wait_queue, exec_globals env external_files line f⟩).length
                  ≤ 2 ^ 32 := by
              rw [List.length_append] at hlen
              omega
            have hch := hsub ⟨env.read_lines ((env.parse_trace line).2.2 ++ ".txt"),
              exec_start env vectors external_files line f, vectors, delays, external_files,
              (exec_alloc env external_files (env.parse_trace line).2.2 f).2.1,
              f.wait_queue, exec_globals env external_files line f⟩ U
              (by show f.g.next_pid = U % 2 ^ 32
                  exact hU)
              (by show (exec_alloc env external_files (env.parse_trace line).2.2 f).2.1.PID
                    < U
                  rw [exec_alloc_pid env hpa hpf]; exact hcur)
              hwq hlen2
            rcases body_exec_call env sim trace_file vectors delays external_files line f h5
              ha with ⟨e, _, hb⟩ | ⟨r, f1, hr, hb, _, _, hg1⟩
            · rw [hb]
              dsimp only
              rw [List.append_nil]
              exact ⟨hch.1, fun c f2 h => by cases h⟩
            · rw [hb]
              dsimp only
              rw [List.append_nil]
              refine ⟨hch.1, ?_⟩
              intro c f2 h
              cases h
              rw [hg1]
              exact hch.2 r hr
        · -- any other line
          have hat : forks_at env sim sub trace_file vectors delays external_files line f
              = [] := by
            unfold forks_at
            rw [if_neg h4,
              call_of_plain env trace_file vectors delays external_files line f h4 h5]
            rfl
          rw [hat] at hlen ⊢
          rw [List.nil_append] at hlen ⊢
          cases hb : body env sim trace_file vectors delays external_files line f with
          | error e =>
            dsimp only
            exact ⟨fresh_from_nil U, fun c f2 h => by cases h⟩
          | ok x =>
            obtain ⟨c, f1⟩ := x
            obtain ⟨hc, hc1, hw1, hn1, _⟩ := body_plain_keeps env sim trace_file vectors
              delays external_files line f h4 h5 c f1 hb
            subst hc
            rw [hb] at hlen
            dsimp only at hlen ⊢
            exact ih { f1 with idx := f1.idx + 1 } U
              (by show f1.g.next_pid = U % 2 ^ 32
                  rw [hn1, hU])
              (by show f1.current.PID < U
                  rw [hc1]; exact hcur)
              (by intro p hp
                  have hp2 : p ∈ f.wait_queue := by rw [← hw1]; exact hp
                  exact hwq p hp2)
              hlen

/-- The identifier invariant of a run: with the counter at `U` (not yet wrapped), the
PID of `current` and every PID in the wait queue below `U`, and few enough FORKs to
stay below `2 ^ 32`, the FORKs of the run, nested invocations included, find the
counter at `U`, `U + 1`, ... in order, and a run that returns leaves the counter behind
all of them. -/
theorem run_forks_fresh {M : Type} (env : Env M)
    (hpa : ∀ p m, (env.allocate_memory p m).2.1.PID = p.PID)
    (hpf : ∀ p m, (env.free_memory p m).1.PID = p.PID) :
    ∀ (n : Nat) (trace_file : List String) (start_time : Int) (vectors : List String)
      (delays : List Int) (external_files : List external_file) (current : PCB)
      (wait_queue : List PCB) (g : Globals M) (U : Nat),
      g.next_pid = U % 2 ^ 32 → current.PID < U → (∀ p ∈ wait_queue, p.PID < U) →
      U + (run_forks env n trace_file start_time vectors delays external_files current
        wait_queue g).length ≤ 2 ^ 32 →
      fresh_from U (run_forks env n trace_file start_time vectors delays external_files
        current wait_queue g) ∧
        ∀ r, simulate_trace env n trace_file start_time vectors delays external_files current
            wait_queue g = .ok r →
          r.g.next_pid = (U + (run_forks env n trace_file start_time vectors delays
            external_files current wait_queue g).length) % 2 ^ 32 := by
  intro n
  induction n with
  | zero =>
    intro trace_file start_time vectors delays external_files current wait_queue g U _ _ _ _
    refine ⟨by unfold run_forks; exact fresh_from_nil U, ?_⟩
    intro r h
    unfold simulate_trace at h
    cases h
  | succ n ih =>
    intro trace_file start_time vectors delays external_files current wait_queue g U hU hcur
      hwq hlen
    unfold run_forks at hlen ⊢
    have hl := loop_forks_fresh env hpa hpf (simulate_trace env n)
      (fun c => run_forks env n c.trace_file c.start_time c.vectors c.delays
        c.external_files c.current c.wait_queue c.g)
      trace_file vectors delays external_files
      (fun cl V h1 h2 h3 h4 => ih cl.trace_file cl.start_time cl.vectors cl.delays
        cl.external_files cl.current cl.wait_queue cl.g V h1 h2 h3 h4)
      trace_file.length ⟨[], [], start_time, 0, current, wait_queue, g⟩ U hU hcur hwq hlen
    refine ⟨hl.1, ?_⟩
    intro r h
    unfold simulate_trace at h
    cases hloop : loop env (simulate_trace env n) trace_file vectors delays external_files
        trace_file.length ⟨[], [], start_time, 0, current, wait_queue, g⟩ with
    | error e => rw [hloop] at h; cases h
    | ok x =>
      obtain ⟨c, f1⟩ := x
      rw [hloop] at h
      have hn := hl.2 c f1 hloop
      cases c <;> (dsimp only at h; cases h; exact hn)

/-- C13. In a run started with the identifier counter at 1, an initial process of PID 0
and an empty wait queue, with an allocator that leaves PIDs alone, for any bound on the
recursion depth, and with fewer than `2 ^ 32` FORKs met by the run (nested invocations
included): the child that a FORK starts has a PID above the identifier taken by every
earlier FORK of the run, so it differs from the PID of every child started earlier; it
is the value the counter has when the FORK is met, and it differs from the PID of
`current` and from every PID in the wait queue at the FORK; and once the handling of a
FORK has completed, `current` has the PID it had before the FORK.  The child of a FORK
is read off the code by `call_of`: it is the descriptor that the iteration hands to the
recursive simulation. -/
theorem fork_pids_fresh {M : Type} (env : Env M) (n : Nat) (trace_file : List String)
    (start_time : Int) (vectors : List String) (delays : List Int)
    (external_files : List external_file) (current : PCB) (g : Globals M)
    (hpa : ∀ p m, (env.allocate_memory p m).2.1.PID = p.PID)
    (hpf : ∀ p m, (env.free_memory p m).1.PID = p.PID)
    (hcur : current.PID = 0) (hg : g.next_pid = 1)
    (hlen : (run_forks env n trace_file start_time vectors delays external_files current []
      g).length < 2 ^ 32) :
    (run_forks env n trace_file start_time vectors delays external_files current []
      g).Pairwise (fun a b => ∀ cb, b.child_pid = some cb →
        a.counter < cb ∧ ∀ ca, a.child_pid = some ca → ca < cb) ∧
    (∀ ev ∈ run_forks env n trace_file start_time vectors delays external_files current [] g,
      ∀ c, ev.child_pid = some c →
        c = ev.counter ∧ c ≠ ev.parent_pid ∧ c ∉ ev.queue_pids) ∧
    (∀ ev ∈ run_forks env n trace_file start_time vectors delays external_files current [] g,
      ∀ p, ev.resumed_pid = some p → p = ev.parent_pid) := by
  have h := (run_forks_fresh env hpa hpf n trace_file start_time vectors delays
    external_files current [] g 1 (by rw [hg]; rfl) (by rw [hcur]; exact Nat.one_pos)
    (fun p hp => by cases hp) (by omega)).1
  refine ⟨?_, ?_, h.2.2⟩
  · refine (fresh_from_increasing 1 _ h).imp_of_mem ?_
    intro a b ha hb hab cb hcb
    rw [(h.2.1 b hb cb hcb).1]
    refine ⟨hab, ?_⟩
    intro ca hca
    rw [(h.2.1 a ha ca hca).1]
    exact hab
  · intro ev hev c hc
    obtain ⟨h0, h1, h2⟩ := h.2.1 ev hev c hc
    refine ⟨h0, by omega, ?_⟩
    intro hq
    have := h2 _ hq
    omega

/-- Witness of C13: a run with a FORK whose child forks again and then replaces its
image through EXEC, followed by two more FORKs of the initial process.  The last
component lists the five FORKs of the run: the children get the PIDs 1 to 5. -/
theorem fork_pids_fresh_witness :
    (∀ p m, (demo_env.allocate_memory p m).2.1.PID = p.PID) ∧
    (∀ p m, (demo_env.free_memory p m).1.PID = p.PID) ∧
    (init_pcb.PID = 0) ∧
    ((⟨1, 2, 0⟩ : Globals Nat).next_pid = 1) ∧
    ((run_forks demo_env 4
      ["FORK,3", "IF_CHILD", "FORK,2", "EXEC program1, 50", "IF_PARENT", "CPU,1", "FORK,1",
        "ENDIF", "FORK,4"] 0 ["a", "b", "c"] ([1, 2, 16] : List Int) [⟨"program1", 2⟩]
      init_pcb [] (⟨1, 2, 0⟩ : Globals Nat)).length < 2 ^ 32) ∧
    ((run_forks demo_env 4
      ["FORK,3", "IF_CHILD", "FORK,2", "EXEC program1, 50", "IF_PARENT", "CPU,1", "FORK,1",
        "ENDIF", "FORK,4"] 0 ["a", "b", "c"] ([1, 2, 16] : List Int) [⟨"program1", 2⟩]
      init_pcb [] (⟨1, 2, 0⟩ : Globals Nat)).Pairwise
        (fun a b => ∀ cb, b.child_pid = some cb →
          a.counter < cb ∧ ∀ ca, a.child_pid = some ca → ca < cb) ∧
    (∀ ev ∈ run_forks demo_env 4
      ["FORK,3", "IF_CHILD", "FORK,2", "EXEC program1, 50", "IF_PARENT", "CPU,1", "FORK,1",
        "ENDIF", "FORK,4"] 0 ["a", "b", "c"] ([1, 2, 16] : List Int) [⟨"program1", 2⟩]
      init_pcb [] (⟨1, 2, 0⟩ : Globals Nat),
      ∀ c, ev.child_pid = some c →
        c = ev.counter ∧ c ≠ ev.parent_pid ∧ c ∉ ev.queue_pids) ∧
    (∀ ev ∈ run_forks demo_env 4
      ["FORK,3", "IF_CHILD", "FORK,2", "EXEC program1, 50", "IF_PARENT", "CPU,1", "FORK,1",
        "ENDIF", "FORK,4"] 0 ["a", "b", "c"] ([1, 2, 16] : List Int) [⟨"program1", 2⟩]
      init_pcb [] (⟨1, 2, 0⟩ : Globals Nat),
      ∀ p, ev.resumed_pid = some p → p = ev.parent_pid)) ∧
    run_forks demo_env 4
      ["FORK,3", "IF_CHILD", "FORK,2", "EXEC program1, 50", "IF_PARENT", "CPU,1", "FORK,1",
        "ENDIF", "FORK,4"] 0 ["a", "b", "c"] ([1, 2, 16] : List Int) [⟨"program1", 2⟩]
      init_pcb [] (⟨1, 2, 0⟩ : Globals Nat) =
      [⟨1, some 1, 0, [], some 0⟩, ⟨2, some 2, 1, [0], some 1⟩, ⟨3, some 3, 0, [], some 0⟩,
        ⟨4, some 4, 3, [0], some 3⟩, ⟨5, some 5, 0, [], some 0⟩] :=
  have hpa : ∀ (p : PCB) (m : Nat), (demo_env.allocate_memory p m).2.1.PID = p.PID :=
    fun p m => by
      show (if m = 0 then (false, p, m)
        else (true, { p with partition_number := (m : Int) }, m - 1)).2.1.PID = p.PID
      split <;> rfl
  have hpf : ∀ (p : PCB) (m : Nat), (demo_env.free_memory p m).1.PID = p.PID :=
    fun _ _ => rfl
  ⟨hpa, hpf, rfl, rfl, by decide,
    fork_pids_fresh demo_env 4
      ["FORK,3", "IF_CHILD", "FORK,2", "EXEC program1, 50", "IF_PARENT", "CPU,1", "FORK,1",
        "ENDIF", "FORK,4"]
      0 ["a", "b", "c"] ([1, 2, 16] : List Int) [⟨"program1", 2⟩] init_pcb
      (⟨1, 2, 0⟩ : Globals Nat) hpa hpf rfl rfl (by decide),
    by decide⟩

end Interrupts
